import Mathlib

/-!
# Plotscript: the expression evaluator and its runtime

A shallow embedding of `src/expression.cpp` (the `Expression` value type, the
special forms and `Expression::eval`) and of the worker and REPL of
`src/plotscript.cpp`, together with the parts they call but whose sources are
not under `src/` (`Atom`, `Environment`, `TSmessage`, `Interpreter`).  Numbers are rationals: arithmetic is exact.
Expressions and environments are values: the copy constructor and
`operator=` of `Expression` copy head, tail, kind and properties, so a copy is
the value itself.
-/

namespace Plotscript

/-! ## Atoms -/

/-- Modelled from the spec: `atom.hpp`/`atom.cpp` are not under `src/`.  An atom is a
variant over none, number, complex number, symbol and string.  A string atom
carries its text with the surrounding quote characters. -/
inductive Atom where
  | none
  | number (value : ℚ)
  | complex (re im : ℚ)
  | symbol (value : String)
  | string (value : String)
  deriving DecidableEq

namespace Atom

def isNone : Atom → Bool
  | .none => true
  | _ => false

def isNumber : Atom → Bool
  | .number _ => true
  | _ => false

def isComplex : Atom → Bool
  | .complex _ _ => true
  | _ => false

def isSymbol : Atom → Bool
  | .symbol _ => true
  | _ => false

def isString : Atom → Bool
  | .string _ => true
  | _ => false

/-- Modelled from the spec: `Atom::asSymbol` (not under `src/`): the symbol's
text, and the empty string for an atom that is not a symbol. -/
def asSymbol : Atom → String
  | .symbol s => s
  | _ => ""

/-- Modelled from the spec: `Atom::asNumber` (not under `src/`): the number, and zero for
an atom that is not a number. -/
def asNumber : Atom → ℚ
  | .number v => v
  | _ => 0

/-- Modelled from the spec: the text a number is printed as (stream formatting of a
double, not under `src/`).  Integers print as their decimal digits, as in the
spec's labels `"0"`, `"2"`, `"4"`; other rationals print as a fraction, where
the stream prints a double as a decimal: only the text of integers is that of
the program. -/
def numberText (q : ℚ) : String :=
  if q.den = 1 then toString q.num else toString q.num ++ "/" ++ toString q.den

/-- Modelled from the spec: `Atom::asString` (not under `src/`): the text of a
symbol or string, the printed form of a number or complex, empty for none. -/
def asString : Atom → String
  | .none => ""
  | .number v => numberText v
  | .complex re im => numberText re ++ "," ++ numberText im
  | .symbol s => s
  | .string s => s

/-- Modelled from the spec: the constructor `Atom(std::string)` (not under `src/`): text
that starts with the quote character is a string atom, any other text a
symbol. -/
def ofText (s : String) : Atom :=
  if s.data.head? = some (Char.ofNat 34) then .string s else .symbol s

end Atom

/-! ## Expressions -/

/-- The variant tag `ExpType` of an expression (the values used in
`expression.cpp`). -/
inductive ExpType where
  | Empty | None | List | Lambda | DP | CP
  deriving DecidableEq

/-- An expression: head atom `m_head`, children `m_tail`, variant tag `m_type`
and property map `m_properties` (an association list with at most one entry
per key; the operations below keep it so). -/
inductive Expression where
  | mk (m_head : Atom) (m_tail : List Expression) (m_type : ExpType)
      (m_properties : List (String × Expression))

namespace Expression

def m_head : Expression → Atom
  | mk h _ _ _ => h

def m_tail : Expression → List Expression
  | mk _ t _ _ => t

def m_type : Expression → ExpType
  | mk _ _ k _ => k

def m_properties : Expression → List (String × Expression)
  | mk _ _ _ p => p

/-- `Expression::Expression()`. -/
def empty : Expression := mk .none [] .Empty []

/-- `Expression::Expression(const Atom & a)`. -/
def ofAtom (a : Atom) : Expression := mk a [] .None []

/-- `Expression::Expression(const std::vector<Expression> & items)`. -/
def ofItems (items : List Expression) : Expression := mk .none items .List []

/-- `Expression::Expression(const std::vector<Expression> & args, Expression & func)`:
`m_tail.push_back(args)` converts the vector through the list constructor. -/
def ofLambda (args : List Expression) (func : Expression) : Expression :=
  mk .none [ofItems args, func] .Lambda []

def head (e : Expression) : Atom := e.m_head

def isNone (e : Expression) : Bool := e.m_type = .None

def isList (e : Expression) : Bool := e.m_type = .List

def isLambda (e : Expression) : Bool := e.m_type = .Lambda

def isEmpty (e : Expression) : Bool := e.m_type = .Empty

def isDP (e : Expression) : Bool := e.m_type = .DP

def isCP (e : Expression) : Bool := e.m_type = .CP

def tailLength (e : Expression) : Nat := e.m_tail.length

/-- `m_properties.find(key) != m_properties.end()` / `m_properties.at(key)`. -/
def findProperty (e : Expression) (key : String) : Option Expression :=
  e.m_properties.lookup key

/-- `m_properties.erase(key)`. -/
def eraseProperty (e : Expression) (key : String) : Expression :=
  mk e.m_head e.m_tail e.m_type (e.m_properties.filter fun p => !(p.1 == key))

/-- `m_properties[key] = value`.  The list keeps one entry per key, the newest
first; lookups by key do not depend on that order, and the order in which the
container itself is iterated (as `isPoint`, `isLine`, `isText` do) is not
modelled beyond it. -/
def assignProperty (e : Expression) (key : String) (value : Expression) : Expression :=
  mk e.m_head e.m_tail e.m_type
    ((key, value) :: e.m_properties.filter fun p => !(p.1 == key))

end Expression

/-! ## Environment -/

/-- A built-in procedure, `Expression (*)(const std::vector<Expression> &)`: it
returns an expression or throws a `SemanticError` carrying a message. -/
abbrev Procedure := List Expression → Except String Expression

/-- An environment entry: a bound expression or a built-in procedure. -/
inductive EnvResult where
  | exp (e : Expression)
  | proc (p : Procedure)

/-- Modelled from the spec: `environment.hpp`/`environment.cpp` are not under `src/`.  An
environment is a mutable mapping from symbol to either a bound expression
value or a built-in procedure; the model is an association list holding at
most one entry per symbol. -/
structure Environment where
  envmap : List (String × EnvResult)

namespace Environment

/-- Modelled from the spec: `Environment::is_exp`: the atom is a symbol bound to an
expression value. -/
def is_exp (env : Environment) (sym : Atom) : Bool :=
  match sym with
  | .symbol s =>
    match env.envmap.lookup s with
    | some (.exp _) => true
    | _ => false
  | _ => false

/-- Modelled from the spec: `Environment::get_exp`: the expression bound to the
symbol, and a default (Empty) expression when the atom is not a symbol bound
to an expression. -/
def get_exp (env : Environment) (sym : Atom) : Expression :=
  match sym with
  | .symbol s =>
    match env.envmap.lookup s with
    | some (.exp e) => e
    | _ => Expression.empty
  | _ => Expression.empty

/-- Modelled from the spec: `Environment::is_proc`: the atom is a symbol that names a
built-in procedure. -/
def is_proc (env : Environment) (sym : Atom) : Bool :=
  match sym with
  | .symbol s =>
    match env.envmap.lookup s with
    | some (.proc _) => true
    | _ => false
  | _ => false

/-- Modelled from the spec: `Environment::get_proc`: the procedure the symbol names
(callers test `is_proc` first; any other atom gives a procedure returning the
default expression). -/
def get_proc (env : Environment) (sym : Atom) : Procedure :=
  match sym with
  | .symbol s =>
    match env.envmap.lookup s with
    | some (.proc p) => p
    | _ => fun _ => .ok Expression.empty
  | _ => fun _ => .ok Expression.empty

/-- Replace the entry of symbol `s` by a binding to `e`. -/
def bind (env : Environment) (s : String) (e : Expression) : Environment :=
  ⟨(s, .exp e) :: env.envmap.filter fun p => !(p.1 == s)⟩

/-- Modelled from the spec: `Environment::add_exp`: bind symbol to value in the mapping,
replacing the binding the symbol had (an atom that is not a symbol cannot be
bound: the mapping is left as it is). -/
def add_exp (env : Environment) (sym : Atom) (e : Expression) : Environment :=
  match sym with
  | .symbol s => env.bind s e
  | _ => env

/-- Modelled from the spec: `Environment::__shadowing_helper`: bind a formal parameter
to its argument in the inner scope, shadowing any existing binding. -/
def __shadowing_helper (env : Environment) (sym : Atom) (e : Expression) : Environment :=
  match sym with
  | .symbol s => env.bind s e
  | _ => env

end Environment

/-! ## Outcomes of an evaluation -/

/-- What a call that takes the environment by reference does: it returns a
value (`ok`), throws a `SemanticError` (`error`), both with the environment as
the call left it; or it does not come back: `crash` is undefined behaviour
(an out-of-range access) or a failed `assert`, `timeout` is the model running
out of fuel (the recursion is not bounded by the size of the expression). -/
inductive Outcome (α : Type) where
  | ok (value : α) (env : Environment)
  | error (what : String) (env : Environment)
  | crash
  | timeout

abbrev Result := Outcome Expression

namespace Outcome

/-- Sequencing: continue with the value and the environment of a call that
returned; anything else propagates. -/
def bind {α β : Type} (r : Outcome α) (k : α → Environment → Outcome β) : Outcome β :=
  match r with
  | ok v env => k v env
  | error m env => error m env
  | crash => crash
  | timeout => timeout

/-- The outcome of a call made on a copy of the environment: the caller's
environment `env` is what remains. -/
def withEnv {α : Type} (r : Outcome α) (env : Environment) : Outcome α :=
  match r with
  | ok v _ => ok v env
  | error m _ => error m env
  | crash => crash
  | timeout => timeout

end Outcome

/-- The recursive evaluator a handler calls on sub-expressions. -/
abbrev Ev := Expression → Environment → Result

/-! ## Procedure application and the special forms -/

/-- The loop of `apply` that binds each formal parameter to its argument,
`inner_scope.__shadowing_helper(p->head(), args[count++])`. -/
def bindParameters : List Expression → List Expression → Environment → Environment
  | p :: ps, a :: as, scope => bindParameters ps as (scope.__shadowing_helper p.head a)
  | _, _, scope => scope

/-- The free function `apply(op, args, env)`.  The environment is taken by
const reference: whatever the body does to the inner scope, `env` is what the
caller has afterwards. -/
def apply (ev : Ev) (op : Atom) (args : List Expression) (env : Environment) : Result :=
  if (env.get_exp op).isLambda then
    let inner_scope := env
    let lambda := inner_scope.get_exp op
    match lambda.m_tail.head? with
    | none => .crash
    | some arg_template =>
      if args.length ≠ arg_template.tailLength then
        .error "Error: during apply: Error in call to procedure: invalid number of arguments." env
      else
        match lambda.m_tail.getLast? with
        | none => .crash
        | some body =>
          (ev body (bindParameters arg_template.m_tail args inner_scope)).withEnv env
  else if !op.isSymbol then
    .error ("Error during evaluation: procedure " ++ op.asString ++ " is not a symbol") env
  else if !env.is_proc op then
    .error ("Error during evaluation: symbol " ++ op.asString ++ " does not name a procedure") env
  else
    match env.get_proc op args with
    | .ok v => .ok v env
    | .error what => .error what env

/-- `Expression::handle_lookup`. -/
def handle_lookup (head : Atom) (env : Environment) : Result :=
  if head.isSymbol then
    if env.is_exp head then
      .ok (env.get_exp head) env
    else
      .error ("Error during handle lookup: unknown symbol " ++ head.asSymbol) env
  else if head.isNumber || head.isComplex || head.isString then
    .ok (Expression.ofAtom head) env
  else
    .error "Error during handle lookup: Invalid type in terminal expression" env

/-- The loop of `handle_begin`: `result = it->eval(env)` for each child. -/
def beginLoop (ev : Ev) : List Expression → Expression → Environment → Result
  | [], result, env => .ok result env
  | e :: es, _, env => (ev e env).bind fun v env1 => beginLoop ev es v env1

/-- `Expression::handle_begin`. -/
def handle_begin (ev : Ev) (e : Expression) (env : Environment) : Result :=
  beginLoop ev e.m_tail Expression.empty env

/-- `Expression::handle_define`. -/
def handle_define (ev : Ev) (e : Expression) (env : Environment) : Result :=
  match e.m_tail with
  | [t0, t1] =>
    if !t0.head.isSymbol then
      .error "Error during handle define: first argument to define not symbol" env
    else
      let s := t0.head.asSymbol
      if s = "define" || s = "begin" || s = "lambda" || s = "list" then
        .error "Error during handle define: attempt to redefine a special-form" env
      else if env.is_proc t0.head then
        .error "Error during handle define: attempt to redefine a built-in procedure" env
      else if s = "pi" || s = "e" || s = "I" then
        .error "Error during handle define: attempt to redefine a built-in symbol" env
      else
        (ev t1 env).bind fun result env1 => .ok result (env1.add_exp t0.head result)
  | _ => .error "Error during handle define: invalid number of arguments to define" env

/-- Evaluate the expressions of a list from left to right, each in the
environment the previous one left: the loops
`for (...) items.push_back(e->eval(env))`. -/
def evalItems (ev : Ev) : List Expression → Environment → Outcome (List Expression)
  | [], env => .ok [] env
  | e :: es, env =>
    (ev e env).bind fun v env1 =>
      (evalItems ev es env1).bind fun vs env2 => .ok (v :: vs) env2

/-- `Expression::handle_list`. -/
def handle_list (ev : Ev) (e : Expression) (env : Environment) : Result :=
  (evalItems ev e.m_tail env).bind fun listItems env1 =>
    .ok (Expression.ofItems listItems) env1

/-- `Expression::handle_lambda`: `m_tail[0]` and `m_tail[1]` are read without a
check of the tail's size. -/
def handle_lambda (e : Expression) (env : Environment) : Result :=
  match e.m_tail with
  | t0 :: t1 :: _ =>
    .ok (Expression.ofLambda (Expression.ofAtom t0.head :: t0.m_tail) t1) env
  | _ => .crash

/-- `Expression::handle_apply`. -/
def handle_apply (ev : Ev) (e : Expression) (env : Environment) : Result :=
  match e.m_tail with
  | [t0, t1] =>
    let op := t0.head
    if !(env.get_exp op).isLambda && (!env.is_proc op || t0.tailLength > 0) then
      .error "Error: first argument to apply not a procedure" env
    else
      (ev t1 env).bind fun arguments env1 =>
        if !arguments.isList then
          .error "Error: second argument to apply not a list" env1
        else
          apply ev op arguments.m_tail env1
  | _ => .error "Error during apply: invalid number of arguments" env

/-- The loop of `handle_map`: `apply` on each element by itself. -/
def mapLoop (ev : Ev) (op : Atom) : List Expression → Environment → Outcome (List Expression)
  | [], env => .ok [] env
  | x :: xs, env =>
    (apply ev op [x] env).bind fun temp_e env1 =>
      (mapLoop ev op xs env1).bind fun rest env2 => .ok (temp_e :: rest) env2

/-- `Expression::handle_map`. -/
def handle_map (ev : Ev) (e : Expression) (env : Environment) : Result :=
  match e.m_tail with
  | [t0, t1] =>
    let op := t0.head
    if !((env.get_exp op).head.asSymbol = "Lambda")
        && (!env.is_proc op || t0.tailLength > 0) then
      .error "Error: first argument to map not a procedure" env
    else
      (ev t1 env).bind fun list_evaled env1 =>
        if !list_evaled.isList then
          .error "Error: second argument to apply not a list" env1
        else
          (mapLoop ev t0.head list_evaled.m_tail env1).bind fun return_args env2 =>
            .ok (Expression.ofItems return_args) env2
  | _ => .error "Error during map: invalid number of arguments" env

/-- `Expression::handle_set_property`. -/
def handle_set_property (ev : Ev) (e : Expression) (env : Environment) : Result :=
  match e.m_tail with
  | [t0, t1, t2] =>
    if t0.head.isString then
      (ev t2 env).bind fun result env1 =>
        let key := t0.head.asString
        let result :=
          if (result.findProperty key).isSome then result.eraseProperty key else result
        (ev t1 env1).bind fun value env2 =>
          .ok (result.assignProperty key value) env2
    else
      .error "Error: first argument to set-property not a string." env
  | _ => .error "Error invalid number of arguments for set-property." env

/-- `Expression::handle_get_property`. -/
def handle_get_property (ev : Ev) (e : Expression) (env : Environment) : Result :=
  match e.m_tail with
  | [t0, t1] =>
    (ev t1 env).bind fun target env1 =>
      if t0.head.isString then
        let key := t0.head.asString
        match target.findProperty key with
        | some stored => .ok stored env1
        | none => .ok Expression.empty env1
      else
        .error "Error: first argument to get-property not a string." env1
  | _ => .error "Error: invalid number of arguments for get-property." env

/-! ## Graphics items and the plot forms -/

/-- What `expression.hpp` (not under `src/`) fixes and `expression.cpp` leaves
open: the value `m_type` has after a constructor that does not assign it, and
the value `rot * std::atan(1)*4 / 180` that `setTextPosition` stores for its
default rotation argument. -/
structure Header where
  m_type_default : ExpType
  rotation_default : ℚ

namespace Expression

mutual
/-- `Expression::operator==`: heads equal, tails of equal length, children
equal position by position. -/
def operatorEq : Expression → Expression → Bool
  | mk h1 t1 _ _, mk h2 t2 _ _ =>
    if h1 = h2 ∧ t1.length = t2.length then operatorEqLoop t1 t2 else false
/-- The loop of `operator==` over the two tails. -/
def operatorEqLoop : List Expression → List Expression → Bool
  | l :: ls, r :: rs => operatorEq l r && operatorEqLoop ls rs
  | _, _ => true
end

/-- `Expression::Expression(const Atom & t, const std::vector<Expression> & back)`:
the constructor copies `back` into the tail and assigns neither `m_head` nor
`m_type`. -/
def ofGraphic (hd : Header) (_t : Atom) (back : List Expression) : Expression :=
  mk .none back hd.m_type_default []

/-- `Expression::Expression(std::string type, const std::vector<Expression> & back)`:
`m_type` is assigned for `"CP"` only (`m_type == ExpType::DP;` is a comparison). -/
def ofPlot (hd : Header) (type : String) (back : List Expression) : Expression :=
  mk (Atom.ofText type) back (if type = "CP" then .CP else hd.m_type_default) []

/-- `Expression::isPoint`: the first property whose key `compare`s non-zero with
`object-name` decides. -/
def isPoint (e : Expression) : Bool :=
  match e.m_properties.find? (fun p => !(p.1 == "object-name")) with
  | some p => operatorEq p.2 (ofAtom (Atom.ofText "\"point\""))
  | none => false

/-- `Expression::setTextPosition(point, rot)` with the default `rot`; `none` is
the failed `assert(point.isPoint())`. -/
def setTextPosition (hd : Header) (e point : Expression) : Option Expression :=
  let positioned : Option Expression :=
    if (e.findProperty "\"position\"").isSome then
      if point.isPoint then some (e.assignProperty "\"position\"" point) else none
    else some e
  positioned.map fun e1 =>
    if (e1.findProperty "\"text-rotation\"").isSome then
      e1.assignProperty "\"text-rotation\"" (ofAtom (.number hd.rotation_default))
    else e1

end Expression

/-- The expression `Expression(Atom("make-point"), {Expression(x), Expression(y)})`. -/
def makePoint (hd : Header) (x y : ℚ) : Expression :=
  Expression.ofGraphic hd (Atom.ofText "make-point")
    [Expression.ofAtom (.number x), Expression.ofAtom (.number y)]

/-- The expression `Expression(Atom("make-line"), {p, q})`. -/
def makeLine (hd : Header) (p q : Expression) : Expression :=
  Expression.ofGraphic hd (Atom.ofText "make-line") [p, q]

/-- The label `Expression(Atom("\"" + Atom(v).asString() + "\""))`. -/
def boundText (v : ℚ) : Expression :=
  Expression.ofAtom (Atom.ofText ("\"" ++ (Atom.number v).asString ++ "\""))

/-- The running extremes of `handle_discrete_plot`. -/
structure Bounds where
  xmax : ℚ
  xmin : ℚ
  ymax : ℚ
  ymin : ℚ

/-- The loop of `handle_discrete_plot` that finds the extremes of the data;
`none` when a point has fewer than two children (`point.m_tail[1]` out of
range). -/
def dataBounds : List Expression → Bounds → Option Bounds
  | [], b => some b
  | point :: rest, b =>
    match point.m_tail with
    | p0 :: p1 :: _ =>
      let x := p0.head.asNumber
      let y := p1.head.asNumber
      let xmax := if x > b.xmax then x else b.xmax
      let xmin := if x < b.xmin then x else b.xmin
      let ymax := if y > b.ymax then y else b.ymax
      let ymin := if y < b.ymin then y else b.ymin
      dataBounds rest ⟨xmax, xmin, ymax, ymin⟩
    | _ => none

/-- The four border lines and the axis lines both plot forms build from the
scaled box `[xmin,xmax] × [ymin,ymax]` and the unscaled bounds. -/
def boxLines (hd : Header) (xmin xmax ymin ymax AL AU OL OU : ℚ) : List Expression :=
  let topLeft := makePoint hd xmin ymax
  let topRight := makePoint hd xmax ymax
  let botLeft := makePoint hd xmin ymin
  let botRight := makePoint hd xmax ymin
  [makeLine hd topLeft botLeft, makeLine hd topRight botRight,
   makeLine hd topLeft topRight, makeLine hd botLeft botRight]
  ++ (if 0 < OU ∧ 0 > OL then
        [makeLine hd (makePoint hd xmax 0) (makePoint hd xmin 0)] else [])
  ++ (if 0 < AU ∧ 0 > AL then
        [makeLine hd (makePoint hd 0 ymax) (makePoint hd 0 ymin)] else [])

/-- The point and stem line `handle_discrete_plot` builds for each data point
(every point has two children once `dataBounds` has passed). -/
def stemItems (hd : Header) (xscale yscale stembottomy : ℚ) : List Expression → List Expression
  | [] => []
  | point :: rest =>
    let x := (point.m_tail.headD Expression.empty).head.asNumber * xscale
    let y := ((point.m_tail.drop 1).headD Expression.empty).head.asNumber * yscale * -1
    let new_point := makePoint hd x y
    let stem_bottom := makePoint hd x stembottomy
    new_point :: makeLine hd new_point stem_bottom :: stemItems hd xscale yscale stembottomy rest

/-- The loop `result.push_back(opt.m_tail[1])` over the options; `none` when an
option has fewer than two children. -/
def optionValues : List Expression → Option (List Expression)
  | [] => some []
  | opt :: rest =>
    match opt.m_tail with
    | _ :: v :: _ => (optionValues rest).map fun vs => v :: vs
    | _ => none

/-- `Expression::handle_discrete_plot`.  The expressions pushed through
`X.eval(env)` are built from the data alone, so they are collected first and
evaluated in the order the source evaluates them.  A quotient by zero is zero
here; the source divides doubles and gets an infinity, so for data whose
extremes coincide the coordinates built here are not those of the program. -/
def handle_discrete_plot (hd : Header) (ev : Ev) (e : Expression) (env : Environment) :
    Result :=
  match e.m_tail with
  | [t0, t1] =>
    (ev t0 env).bind fun DATA env1 =>
    (ev t1 env1).bind fun OPTIONS env2 =>
      if DATA.isList && OPTIONS.isList then
        match dataBounds DATA.m_tail ⟨-999, 999, -999, 999⟩ with
        | none => .crash
        | some b =>
          let N : ℚ := 20
          let xscale := N / (b.xmax - b.xmin)
          let yscale := N / (b.ymax - b.ymin)
          let AL := b.xmin
          let AU := b.xmax
          let OL := b.ymin
          let OU := b.ymax
          let xmin := b.xmin * xscale
          let ymin := b.ymin * (yscale * -1)
          let xmax := b.xmax * xscale
          let ymax := b.ymax * (yscale * -1)
          let stembottomy := max 0 OL * yscale * -1
          (evalItems ev
              (boxLines hd xmin xmax ymin ymax AL AU OL OU
                ++ stemItems hd xscale yscale stembottomy DATA.m_tail) env2).bind
            fun drawn env3 =>
              match optionValues OPTIONS.m_tail with
              | none => .crash
              | some opts =>
                .ok (Expression.ofPlot hd "DP"
                  (drawn ++ [boundText AL, boundText AU, boundText OL, boundText OU] ++ opts))
                  env3
      else
        .error "Error: An argument to discrete-plot is not a list" env2
  | _ => .error "Error: invalid number of arguments for discrete-plot" env

/-- The sampling loop of `handle_cont_plot`,
`for (double x = AL; x <= AU+stepsize; x += stepsize)`, started at `x` with the
upper limit `hi = AU+stepsize`; `none` when the loop has not ended within `n`
rounds.  The sums are exact here; the source adds doubles, whose rounding can
end the loop one round earlier, so the number of samples is that of the
program only where every sum is exact in doubles. -/
def sampleDomain : Nat → ℚ → ℚ → ℚ → Option (List ℚ)
  | 0, x, hi, _ => if x ≤ hi then none else some []
  | n + 1, x, hi, stepsize =>
    if x ≤ hi then (sampleDomain n (x + stepsize) hi stepsize).map fun xs => x :: xs
    else some []

/-- The loop of `handle_cont_plot` that scales each sample into a `make-point`
expression, one per element of the range; `none` when the range is longer than
the domain (`domain[pos]` out of range). -/
def plotPoints (hd : Header) (xscale yscale : ℚ) : List ℚ → List ℚ → Option (List Expression)
  | _, [] => some []
  | [], _ :: _ => none
  | d :: ds, r :: rs =>
    let scaled_X := d * xscale
    let scaled_Y := r * yscale
    let scaled_X := if scaled_X < 1 / 1000 ∧ scaled_X > -(1 / 1000) then 0 else scaled_X
    let scaled_Y := if scaled_Y < 1 / 1000 ∧ scaled_Y > -(1 / 1000) then 0 else scaled_Y
    (plotPoints hd xscale yscale ds rs).map fun ps => makePoint hd scaled_X scaled_Y :: ps

/-- The lines `Expression(Atom("make-line"), {points[i-1], points[i]})` for
`i = 1 .. points.size()-1`. -/
def polyline (hd : Header) : List Expression → List Expression
  | p :: q :: rest => makeLine hd p q :: polyline hd (q :: rest)
  | _ => []

/-- One bound label of `handle_cont_plot`: evaluate the `make-text` expression
and the `make-point` expression, then `setTextPosition`. -/
def boundLabel (hd : Header) (ev : Ev) (v x y : ℚ) (env : Environment) : Result :=
  (ev (Expression.ofGraphic hd (Atom.ofText "make-text") [boundText v]) env).bind
    fun label env1 =>
      (ev (makePoint hd x y) env1).bind fun boundPos env2 =>
        match label.setTextPosition hd boundPos with
        | none => .crash
        | some positioned => .ok positioned env2

/-- The loop of `handle_cont_plot` over the children of the (unevaluated)
options expression. -/
def plotOptions (hd : Header) (ev : Ev) (xmin ymin ymax xmiddle ymiddle : ℚ) :
    List Expression → Environment → Outcome (List Expression)
  | [], env => .ok [] env
  | opt :: rest, env =>
    let A : ℚ := 3
    let B : ℚ := 3
    match opt.m_tail with
    | [] => .crash
    | o0 :: more =>
      let key := o0.head.asString
      let temp : List Expression :=
        if key = "\"title\"" then
          [Expression.ofAtom (.number xmiddle), Expression.ofAtom (.number (ymax - A))]
        else if key = "\"abscissa-label\"" then
          [Expression.ofAtom (.number xmiddle), Expression.ofAtom (.number (ymin + A))]
        else if key = "\"ordinate-label\"" then
          [Expression.ofAtom (.number (xmin - B)), Expression.ofAtom (.number ymiddle)]
        else []
      (ev (Expression.ofGraphic hd (Atom.ofText "make-point") temp) env).bind
        fun textPos env1 =>
          match more with
          | [] => .crash
          | o1 :: _ =>
            let textItem := Expression.ofGraphic hd (Atom.ofText "make-text")
              [Expression.ofAtom (Atom.ofText o1.head.asString)]
            let ffffff := Expression.ofGraphic hd (Atom.ofText "\"set-property\"")
              [Expression.ofAtom (Atom.ofText "\"position\""), textPos, textItem]
            (ev ffffff env1).bind fun item env2 =>
              (plotOptions hd ev xmin ymin ymax xmiddle ymiddle rest env2).bind
                fun items env3 => .ok (item :: items) env3

/-- The part of `handle_cont_plot` after the argument checks: `FUNC`, `BOUNDS`
are the unevaluated first two children, `options` the third when there is one,
`n` bounds the rounds of the sampling loop. -/
def contPlotBody (hd : Header) (n : Nat) (ev : Ev) (FUNC BOUNDS : Expression)
    (options : Option Expression) (env : Environment) : Result :=
  (ev BOUNDS env).bind fun xb env1 =>
  (ev (Expression.ofGraphic hd (Atom.ofText "map") [FUNC, BOUNDS]) env1).bind fun yb env2 =>
    match xb.m_tail.head?, xb.m_tail.getLast?, yb.m_tail.head?, yb.m_tail.getLast? with
    | some x0, some x1, some y0, some y1 =>
      let N : ℚ := 20
      let C : ℚ := 2
      let D : ℚ := 2
      let AL := min x0.head.asNumber x1.head.asNumber
      let AU := max x0.head.asNumber x1.head.asNumber
      let OL := min y0.head.asNumber y1.head.asNumber
      let OU := max y0.head.asNumber y1.head.asNumber
      let xscale := N / (AU - AL)
      let yscale := N / (OU - OL) * -1
      let xmin := AL * xscale
      let xmax := AU * xscale
      let ymin := OL * yscale
      let ymax := OU * yscale
      let xmiddle := (xmax + xmin) / 2
      let ymiddle := (ymin + ymax) / 2
      (evalItems ev (boxLines hd xmin xmax ymin ymax AL AU OL OU) env2).bind
        fun box env3 =>
          let M : ℚ := 50
          let stepsize := (AU - AL) / M
          match sampleDomain n AL (AU + stepsize) stepsize with
          | none => .timeout
          | some domain =>
            let domain_exp := domain.map fun x => Expression.ofAtom (.number x)
            (ev (Expression.ofGraphic hd (Atom.ofText "map")
                [FUNC, Expression.ofGraphic hd (Atom.ofText "list") domain_exp]) env3).bind
              fun range_exp env4 =>
                let range := range_exp.m_tail.map fun r => r.head.asNumber
                match plotPoints hd xscale yscale domain range with
                | none => .crash
                | some points =>
                  (evalItems ev (polyline hd points) env4).bind fun lines env5 =>
                  (boundLabel hd ev AL xmin (ymin + C) env5).bind fun l1 env6 =>
                  (boundLabel hd ev AU xmax (ymin + C) env6).bind fun l2 env7 =>
                  (boundLabel hd ev OL (xmin - D) ymin env7).bind fun l3 env8 =>
                  (boundLabel hd ev OU (xmin - D) ymax env8).bind fun l4 env9 =>
                  (match options with
                    | none => Outcome.ok [] env9
                    | some OPTIONS =>
                      plotOptions hd ev xmin ymin ymax xmiddle ymiddle OPTIONS.m_tail
                        env9).bind fun opts env10 =>
                    .ok (Expression.ofPlot hd "CP"
                      (box ++ lines ++ [l1, l2, l3, l4] ++ opts)) env10
    | _, _, _, _ => .crash

/-- `Expression::handle_cont_plot`. -/
def handle_cont_plot (hd : Header) (n : Nat) (ev : Ev) (e : Expression)
    (env : Environment) : Result :=
  match e.m_tail with
  | [FUNC, BOUNDS] =>
    (ev FUNC env).bind fun f env1 =>
      if !f.isLambda then
        .error "Error: first argument to continuous plot not a lambda" env1
      else
        (ev BOUNDS env1).bind fun b env2 =>
          if !b.isList then
            .error "Error: second argument to continuous plot not a list" env2
          else contPlotBody hd n ev FUNC BOUNDS none env2
  | [FUNC, BOUNDS, t2] =>
    (ev FUNC env).bind fun f env1 =>
      if !f.isLambda then
        .error "Error: first argument to continuous plot not a lambda" env1
      else
        (ev BOUNDS env1).bind fun b env2 =>
          if !b.isList then
            .error "Error: second argument to continuous plot not a list" env2
          else
            (ev t2 env2).bind fun o env3 =>
              if !o.isList then
                .error "Error: third argument to continuous plot not a list" env3
              else contPlotBody hd n ev FUNC BOUNDS (some t2) env3
  | _ => .error "Error: invalid number of arguments to continuous plot" env

/-! ## The evaluator -/

/-- The body of `Expression::eval`, with `ev` for the recursive calls:
`flag` is the value of `global_status_flag` (a counter that is only ever
incremented from zero), `n` the fuel left for the loops of the handlers. -/
def evalStep (hd : Header) (flag : Nat) (n : Nat) (ev : Ev) (e : Expression)
    (env : Environment) : Result :=
  if flag > 0 then
    .error "Error: interpreter kernal interupted" env
  else if e.m_head.asSymbol = "list" then handle_list ev e env
  else if e.m_tail.isEmpty then handle_lookup e.m_head env
  else if e.m_head.asSymbol = "begin" then handle_begin ev e env
  else if e.m_head.asSymbol = "define" then handle_define ev e env
  else if e.m_head.asSymbol = "lambda" then handle_lambda e env
  else if e.m_head.asSymbol = "apply" then handle_apply ev e env
  else if e.m_head.asSymbol = "map" then handle_map ev e env
  else if e.m_head.asSymbol = "set-property" then handle_set_property ev e env
  else if e.m_head.asSymbol = "get-property" then handle_get_property ev e env
  else if e.m_head.asSymbol = "discrete-plot" then handle_discrete_plot hd ev e env
  else if e.m_head.asSymbol = "continuous-plot" then handle_cont_plot hd n ev e env
  else
    (evalItems ev e.m_tail env).bind fun results env1 => apply ev e.m_head results env1

/-- `Expression::eval(env)` with `n` levels of recursion allowed: `timeout` when
they do not suffice. -/
def eval (hd : Header) (flag : Nat) : Nat → Ev
  | 0 => fun _ _ => .timeout
  | n + 1 => evalStep hd flag n (eval hd flag n)

/-- The head symbols `Expression::eval` dispatches to a special form. -/
def keywords : List String :=
  ["list", "begin", "define", "lambda", "apply", "map", "set-property", "get-property",
   "discrete-plot", "continuous-plot"]

/-- `r` approximates `r'`: the model ran out of fuel, or the outcomes are the
same. -/
def Outcome.le {α : Type} (r r' : Outcome α) : Prop := r = .timeout ∨ r = r'

/-- Pointwise approximation of evaluators. -/
def Ev.le (ev ev' : Ev) : Prop := ∀ e env, (ev e env).le (ev' e env)

/-- The names `handle_define` refuses outright: the four special forms and the
three reserved constants. -/
def reservedNames : List String := ["define", "begin", "lambda", "list", "pi", "e", "I"]

/-! ## Sample inputs -/

namespace Sample

def header : Header := ⟨.None, 0⟩

/-- The leaf expression of a symbol. -/
def sym (s : String) : Expression := .ofAtom (.symbol s)

/-- The leaf expression of a number. -/
def num (q : ℚ) : Expression := .ofAtom (.number q)

/-- The leaf expression of a string literal. -/
def str (s : String) : Expression := .ofAtom (.string s)

/-- The expression `(s args...)`. -/
def form (s : String) (args : List Expression) : Expression := .mk (.symbol s) args .None []

/-- The value of `(lambda (x) x)`. -/
def identity : Expression := .ofLambda [sym "x"] (sym "x")

/-- A built-in procedure: the first of its arguments. -/
def first : Procedure := fun args =>
  match args with
  | a :: _ => .ok a
  | [] => .error "Error in call to first: no argument"

/-- The value of `(lambda (x) (define w x))`. -/
def definer : Expression := .ofLambda [sym "x"] (form "define" [sym "w", sym "x"])

/-- An environment with the lambdas `f` and `g`, a built-in procedure `first`
and a value `y`. -/
def env : Environment :=
  ⟨[("f", .exp identity), ("g", .exp definer), ("first", .proc first), ("y", .exp (num 7))]⟩

end Sample

/-- The message `apply` throws when the number of arguments differs from the
number of formal parameters. -/
def arityError : String :=
  "Error: during apply: Error in call to procedure: invalid number of arguments."

/-- Evaluating the expressions `es` from left to right, starting in `env` and
each in the environment the one before it left, returns the values `vs` and
leaves `env'`. -/
inductive Threaded (ev : Ev) :
    List Expression → Environment → List Expression → Environment → Prop where
  | nil (env : Environment) : Threaded ev [] env [] env
  | cons {e : Expression} {es : List Expression} {env env1 env2 : Environment}
      {v : Expression} {vs : List Expression} :
      ev e env = .ok v env1 → Threaded ev es env1 vs env2 →
      Threaded ev (e :: es) env (v :: vs) env2

/-- `operator!=(left, right)`: the negation of `operator==`. -/
def Expression.operatorNe (left right : Expression) : Bool := !(left.operatorEq right)

/-- The message `apply` throws for the none atom, whose printed form is empty:
`"Error during evaluation: procedure " + op.asString() + " is not a symbol"`. -/
def notSymbolError : String := "Error during evaluation: procedure  is not a symbol"

namespace Sample

/-- A built-in `make-point`: a List-kind expression of its arguments tagged as a
point. -/
def make_point : Procedure := fun args =>
  .ok (.mk .none args .List [("\"object-name\"", str "\"point\""), ("\"size\"", num 0)])

/-- A built-in `make-line`: a List-kind expression of its arguments tagged as a
line. -/
def make_line : Procedure := fun args =>
  .ok (.mk .none args .List [("\"object-name\"", str "\"line\""), ("\"thickness\"", num 1)])

/-- An environment providing `make-point` and `make-line`. -/
def plotEnv : Environment :=
  ⟨[("make-point", .proc make_point), ("make-line", .proc make_line)]⟩

/-- The expression `(discrete-plot (list (list 0 0) (list 1 1) (list 2 4)) (list))`. -/
def discretePlot : Expression :=
  form "discrete-plot"
    [form "list" [form "list" [num 0, num 0], form "list" [num 1, num 1],
      form "list" [num 2, num 4]],
     form "list" []]

end Sample

/-! ## The evaluation runtime of `plotscript.cpp` -/

/-- Modelled from the spec: `TSmessage.hpp` is not under `src/` (its tests are).  A
first-in first-out queue: `push` appends at the back, the pops take from the
front. -/
structure TSmessage (α : Type) where
  the_queue : List α

namespace TSmessage

/-- Modelled from the spec: `TSmessage::empty`. -/
def empty {α : Type} (q : TSmessage α) : Bool := q.the_queue.isEmpty

/-- Modelled from the spec: `TSmessage::push`. -/
def push {α : Type} (q : TSmessage α) (value : α) : TSmessage α := ⟨q.the_queue ++ [value]⟩

/-- Modelled from the spec: `TSmessage::try_pop(popped)`: whether an item was there, the
value of `popped` afterwards (untouched when the queue is empty), and the
queue afterwards. -/
def try_pop {α : Type} (q : TSmessage α) (popped : α) : Bool × α × TSmessage α :=
  match q.the_queue with
  | [] => (false, popped, q)
  | x :: xs => (true, x, ⟨xs⟩)

/-- Modelled from the spec: `TSmessage::wait_and_pop`: the front item and the queue
without it; `none` when the queue is empty (the caller blocks until another
thread pushes). -/
def wait_and_pop {α : Type} (q : TSmessage α) : Option (α × TSmessage α) :=
  match q.the_queue with
  | [] => none
  | x :: xs => some (x, ⟨xs⟩)

end TSmessage

/-- Modelled from the spec: the parser boundary `parse(sourceText) -> (ok, tree)`;
`none` is `ok = false`. -/
abbrev Parser := String → Option Expression

/-- Modelled from the spec: `interpreter.hpp`/`interpreter.cpp` are not under `src/`.  An
interpreter owns an environment and the tree of the last successful parse. -/
structure Interpreter where
  env : Environment
  ast : Expression

namespace Interpreter

/-- Modelled from the spec: `Interpreter::parseStream`: whether the text parsed, and
the interpreter holding the tree. -/
def parseStream (parse : Parser) (i : Interpreter) (text : String) : Bool × Interpreter :=
  match parse text with
  | some tree => (true, { i with ast := tree })
  | none => (false, i)

/-- Modelled from the spec: `Interpreter::evaluate`: the evaluation of the parsed tree in
the interpreter's environment. -/
def evaluate (hd : Header) (flag fuel : Nat) (i : Interpreter) : Result :=
  eval hd flag fuel i.ast i.env

end Interpreter

/-- The pair `std::pair<Expression, std::string>` the worker pushes. -/
abbrev output_type := Expression × String

/-- The class `Consumer`: the input and output queue its pointers refer to, its
interpreter and its running flag. -/
structure Consumer where
  iqueue : TSmessage String
  oqueue : TSmessage output_type
  cInterp : Interpreter
  running : Bool

namespace Consumer

/-- One round of the loop of `Consumer::ThreadFunction` (the body of the
`while`), with `flag` the value of `global_status_flag` during the round;
`none` when the evaluation does not come back. -/
def iteration (parse : Parser) (hd : Header) (flag fuel : Nat) (c : Consumer) :
    Option Consumer :=
  match c.iqueue.try_pop "" with
  | (false, _, _) => some c
  | (true, line, q) =>
    if line = "" then some { c with iqueue := q }
    else
      match c.cInterp.parseStream parse line with
      | (false, i) =>
        some { c with
          iqueue := q, cInterp := i,
          oqueue := c.oqueue.push (Expression.empty, "Invalid Expression. Could not parse.") }
      | (true, i) =>
        match i.evaluate hd flag fuel with
        | .ok result env =>
          some { c with
            iqueue := q, cInterp := { i with env := env },
            oqueue := c.oqueue.push (result, "") }
        | .error what env =>
          some { c with
            iqueue := q, cInterp := { i with env := env },
            oqueue := c.oqueue.push (Expression.empty, what) }
        | .crash => none
        | .timeout => none

/-- `Consumer::ThreadFunction` for at most `rounds` rounds of its loop
`while (isRunning() && global_status_flag == 0)`. -/
def ThreadFunction (parse : Parser) (hd : Header) (flag fuel : Nat) :
    Nat → Consumer → Option Consumer
  | 0, c => some c
  | rounds + 1, c =>
    if c.running && flag == 0 then
      (iteration parse hd flag fuel c).bind (ThreadFunction parse hd flag fuel rounds)
    else some c

/-- `Consumer::startThread`. -/
def startThread (c : Consumer) : Consumer :=
  if !c.running then { c with running := true } else c

/-- `Consumer::stopThread`; `worker` is what the worker thread still does to the
consumer between the push of the sentinel and the return of `cThread.join()`. -/
def stopThread (worker : Consumer → Consumer) (c : Consumer) : Consumer :=
  if c.running then
    let c1 := { c with running := false }
    let c2 := { c1 with iqueue := c1.iqueue.push "" }
    let c3 := worker c2
    { c3 with iqueue := (c3.iqueue.try_pop "").2.2 }
  else c

/-- `Consumer::resetThread`. -/
def resetThread (worker : Consumer → Consumer) (newinter : Interpreter) (c : Consumer) :
    Consumer :=
  let c1 := if c.running then stopThread worker c else c
  startThread { c1 with cInterp := newinter }

end Consumer

/-- The state of `repl`: its parameter `interp`, its locals `copy` and
`default_state`, the consumer `c1` with the queues `input` and `output`, and
`global_status_flag`. -/
structure Repl where
  interp : Interpreter
  copy : Interpreter
  default_state : Interpreter
  c1 : Consumer
  global_status_flag : Nat

namespace Repl

/-- The start of `repl` (lines 208 to 215): `fresh` is a default-constructed
interpreter; the consumer gets a copy of `interp`. -/
def start (fresh interp : Interpreter) (flag : Nat) : Repl :=
  { interp := interp, copy := fresh, default_state := interp,
    c1 := Consumer.startThread ⟨⟨[]⟩, ⟨[]⟩, interp, false⟩,
    global_status_flag := flag }

/-- The head of the loop: `global_status_flag = 0; copy = interp;`. -/
def loopHead (r : Repl) : Repl := { r with global_status_flag := 0, copy := r.interp }

/-- The call `p1(line)`: push the line onto the input queue. -/
def submit (r : Repl) (line : String) : Repl :=
  { r with c1 := { r.c1 with iqueue := r.c1.iqueue.push line } }

/-- The worker thread acting on the consumer. -/
def worker (f : Consumer → Consumer) (r : Repl) : Repl := { r with c1 := f r.c1 }

/-- The signal handler `interrupt_handler` on SIGINT: `none` is
`exit(EXIT_FAILURE)`, taken when the flag is already set. -/
def signal (r : Repl) : Option Repl :=
  if r.global_status_flag > 0 then none
  else some { r with global_status_flag := r.global_status_flag + 1 }

/-- The branch of the wait loop taken when `global_status_flag > 0`: pop the
pending input when there is one, then `c1.resetThread(copy)`. -/
def interrupted (w : Consumer → Consumer) (r : Repl) : Repl :=
  let c :=
    if !r.c1.iqueue.empty then { r.c1 with iqueue := (r.c1.iqueue.try_pop "").2.2 } else r.c1
  { r with c1 := Consumer.resetThread w r.copy c }

/-- After the wait loop: `if (global_status_flag == 0) output->try_pop(result)`;
the pair printed, when one is. -/
def collect (r : Repl) : Option output_type × Repl :=
  if r.global_status_flag = 0 then
    let p := r.c1.oqueue.try_pop (Expression.empty, "")
    (some p.2.1, { r with c1 := { r.c1 with oqueue := p.2.2 } })
  else (none, r)

end Repl

namespace Sample

/-- A parser that knows two lines. -/
def parse : Parser := fun text =>
  if text = "(define a 1)" then some (form "define" [sym "a", num 1])
  else if text = "(f 2)" then some (form "f" [num 2])
  else none

/-- An interpreter whose environment is the sample environment. -/
def interp : Interpreter := ⟨env, Expression.empty⟩

/-- A consumer that is running, with two lines queued. -/
def consumer : Consumer := ⟨⟨["(define a 1)", "(f 2)"]⟩, ⟨[]⟩, interp, true⟩

end Sample

namespace Sample

/-- The worker runs one round of its loop (and stays as it is when the
evaluation does not come back). -/
def oneRound (c : Consumer) : Consumer := (c.iteration parse header 0 3).getD c

/-- The worker has taken the line at the front of the input queue and is busy
evaluating it. -/
def takeLine (c : Consumer) : Consumer := { c with iqueue := (c.iqueue.try_pop "").2.2 }

/-- The REPL after the line `(define a 1)` has been submitted, evaluated by the
worker and its result collected. -/
def afterDefine : Repl :=
  (Repl.collect (Repl.worker oneRound
    (Repl.submit (Repl.loopHead (Repl.start interp interp 0)) "(define a 1)"))).2

/-- The REPL after a second line has been submitted, the worker has taken it,
the interrupt signal has arrived and the REPL has handled it. -/
def afterInterrupt : Option Repl :=
  (Repl.signal (Repl.worker takeLine
    (Repl.submit (Repl.loopHead afterDefine) "(f 2)"))).map (Repl.interrupted id)

end Sample

namespace Sample

/-- An evaluator that returns every expression as its own value. -/
def echo : Ev := fun x env => .ok x env

end Sample

/-! ## The accessors of the presentation boundary -/

namespace Expression

/-- `Expression::isLine`: as `isPoint`, against the string `"line"`. -/
def isLine (e : Expression) : Bool :=
  match e.m_properties.find? (fun p => !(p.1 == "object-name")) with
  | some p => operatorEq p.2 (ofAtom (Atom.ofText "\"line\""))
  | none => false

/-- `Expression::isText`: as `isPoint`, against the string `"text"`. -/
def isText (e : Expression) : Bool :=
  match e.m_properties.find? (fun p => !(p.1 == "object-name")) with
  | some p => operatorEq p.2 (ofAtom (Atom.ofText "\"text\""))
  | none => false

/-- `Expression::asVector`. -/
def asVector (e : Expression) : List Expression :=
  (if !e.m_head.isNone then [ofAtom e.m_head] else []) ++ e.m_tail

/-- `Expression::getNumericalProperty`. -/
def getNumericalProperty (e : Expression) (prop : String) : ℚ :=
  match e.findProperty prop with
  | some point_size => point_size.head.asNumber
  | none => -1

/-- `Expression::getPointCoordinates`: `x` and `y` start at zero; under the key
`object-name`, when the stored value equals `Expression(Atom("point"))`, `x` is
assigned `m_tail[0]` and then `m_tail[1]`; `y` is not assigned.  `none` is an
out-of-range `m_tail[0]` or `m_tail[1]`. -/
def getPointCoordinates (e : Expression) : Option (ℚ × ℚ) :=
  let y : ℚ := 0
  match e.findProperty "object-name" with
  | some stored =>
    if operatorEq stored (ofAtom (Atom.ofText "point")) then
      match e.m_tail with
      | t0 :: t1 :: _ =>
        let _x := t0.head.asNumber -- `x = m_tail[0]...`, overwritten by the next line
        let x := t1.head.asNumber
        some (x, y)
      | _ => none
    else some (0, y)
  | none => some (0, y)

/-- `Expression::getTextProperties`: the tuple `(x, y, scale, rotation, valid)`;
`none` when `getPointCoordinates` of the position reads out of range. -/
def getTextProperties (e : Expression) : Option (ℚ × ℚ × ℚ × ℚ × Bool) :=
  let sf : ℚ :=
    match e.findProperty "\"text-scale\"" with
    | some s => if s.head.asNumber < 1 then 1 else s.head.asNumber
    | none => 1
  let rot : ℚ :=
    match e.findProperty "\"text-rotation\"" with
    | some r => r.head.asNumber
    | none => 0
  match e.findProperty "\"position\"" with
  | some point => point.getPointCoordinates.map fun c => (c.1, c.2, sf, rot, true)
  | none => some (0, 0, 1, 0, false)

end Expression

/-- Modelled from the spec: the default constructor of `TSmessage`: a queue without
items. -/
def TSmessage.new {α : Type} : TSmessage α := ⟨[]⟩

namespace Sample

/-- The value the sample `make-point` produces for the numbers 3 and 4: tail
`[3, 4]`, object-name `"point"`. -/
def point34 : Expression :=
  .mk .none [num 3, num 4] .List [("\"object-name\"", str "\"point\""), ("\"size\"", num 0)]

/-- A point whose object-name property is spelled as `getPointCoordinates`
looks it up: key `object-name`, value the atom `point`. -/
def barePoint34 : Expression :=
  .mk .none [num 3, num 4] .List [("object-name", sym "point")]

/-- A text expression positioned at the point `(3, 4)`. -/
def text34 : Expression :=
  .mk (.string "\"hi\"") [] .None
    [("\"object-name\"", str "\"text\""), ("\"position\"", point34)]

end Sample

namespace Sample

/-- The data `[(1000,1000),(2000,3000)]` as a List-kind value: every coordinate
lies above 999. -/
def highData : Expression :=
  .ofItems [.ofItems [num 1000, num 1000], .ofItems [num 2000, num 3000]]

end Sample

end Plotscript
namespace Plotscript

namespace Consumer

/-- The rest of one round of `Consumer::ThreadFunction` once `try_pop` has handed
over `line` (everything from `if(line == "") continue;` to `oqueue->push(output)`),
with `flag` the value of `global_status_flag` the evaluation sees; `none` when
the evaluation does not come back. -/
def finishRound (parse : Parser) (hd : Header) (flag fuel : Nat) (line : String)
    (c : Consumer) : Option Consumer :=
  if line = "" then some c
  else
    match c.cInterp.parseStream parse line with
    | (false, i) =>
      some { c with
        cInterp := i,
        oqueue := c.oqueue.push (Expression.empty, "Invalid Expression. Could not parse.") }
    | (true, i) =>
      match i.evaluate hd flag fuel with
      | .ok result env =>
        some { c with cInterp := { i with env := env }, oqueue := c.oqueue.push (result, "") }
      | .error what env =>
        some { c with
          cInterp := { i with env := env }, oqueue := c.oqueue.push (Expression.empty, what) }
      | .crash => none
      | .timeout => none

end Consumer

namespace Sample

/-- The pair the worker pushes for an evaluation that the interrupt flag has
stopped: the default result and the message of the thrown error. -/
def interruptedPair : output_type := (Expression.empty, "Error: interpreter kernal interupted")

/-- The worker ends the round in which it has taken the line `(f 2)`, with the
interrupt flag set (as the REPL waits for in `cThread.join()`). -/
def finish (c : Consumer) : Consumer := (c.finishRound parse header 1 3 "(f 2)").getD c

/-- The REPL after a second line has been submitted and taken by the worker: the
evaluation is in flight and the REPL waits in its loop on the empty output
queue. -/
def taken : Repl := Repl.worker takeLine (Repl.submit (Repl.loopHead afterDefine) "(f 2)")

/-- The state `taken` once the interrupt signal has arrived. -/
def flagged : Repl := { taken with global_status_flag := 1 }

/-- The interrupt signal arrives while the evaluation is in flight. -/
def inFlight : Option Repl := Repl.signal taken

/-- The REPL has handled the interrupt of the line in flight, gone back to the
head of its loop and submitted the next line, `(define a 1)`. -/
def nextSubmitted : Option Repl :=
  inFlight.map fun r => Repl.submit (Repl.loopHead (Repl.interrupted finish r)) "(define a 1)"

/-- The expression `(begin (define h (lambda (begin) (begin))) (h 5))`: a lambda
whose parameter is named `begin`, applied to 5. -/
def beginAsParameter : Expression :=
  form "begin"
    [form "define" [sym "h", form "lambda" [form "begin" [], form "begin" []]],
     form "h" [num 5]]

/-- A built-in `*`: the product of two numbers. -/
def times : Procedure := fun args =>
  match args with
  | [a, b] => .ok (num (a.head.asNumber * b.head.asNumber))
  | _ => .error "Error in call to mul: invalid number of arguments"

/-- The value of `(lambda (x) (* x x))`. -/
def squareFn : Expression := .ofLambda [sym "x"] (form "*" [sym "x", sym "x"])

/-- An environment providing `make-point`, `make-line`, `*` and the lambda `sq`. -/
def contEnv : Environment :=
  ⟨[("make-point", .proc make_point), ("make-line", .proc make_line), ("*", .proc times),
    ("sq", .exp squareFn)]⟩

/-- The expression `(continuous-plot sq (list -2 3))`. -/
def contPlot : Expression :=
  form "continuous-plot" [sym "sq", form "list" [num (-2), num 3]]

/-- The expression `(continuous-plot sq (list 0 50))`. -/
def contPlotWide : Expression :=
  form "continuous-plot" [sym "sq", form "list" [num 0, num 50]]

/-- A parser that also knows the line `(lambda (x))`. -/
def parseLambda : Parser := fun text =>
  if text = "(lambda (x))" then some (form "lambda" [form "x" []]) else parse text

/-- A running consumer with the line `(lambda (x))` queued ahead of a second
line. -/
def crashConsumer : Consumer := ⟨⟨["(lambda (x))", "(define a 1)"]⟩, ⟨[]⟩, interp, true⟩

end Sample

/-! ## Fuel: an evaluation that has come back is stable under more fuel -/

theorem Outcome.le_refl {α : Type} (r : Outcome α) : r.le r := Or.inr rfl

theorem Outcome.bind_le {α β : Type} {r r' : Outcome α} {k k' : α → Environment → Outcome β}
    (hr : r.le r') (hk : ∀ v env, (k v env).le (k' v env)) : (r.bind k).le (r'.bind k') := by
  rcases hr with h | h
  · left; rw [h]; rfl
  · subst h
    cases r with
    | ok v env => exact hk v env
    | error m env => exact Or.inr rfl
    | crash => exact Or.inr rfl
    | timeout => exact Or.inr rfl

theorem Outcome.withEnv_le {α : Type} {r r' : Outcome α} (hr : r.le r') (env : Environment) :
    (r.withEnv env).le (r'.withEnv env) := by
  rcases hr with h | h
  · left; rw [h]; rfl
  · subst h; exact Or.inr rfl

theorem apply_le {ev ev' : Ev} (h : Ev.le ev ev') (op : Atom) (args : List Expression)
    (env : Environment) : (apply ev op args env).le (apply ev' op args env) := by
  unfold apply
  split_ifs
  · dsimp only
    split
    · exact Outcome.le_refl _
    · split_ifs
      · exact Outcome.le_refl _
      · split
        · exact Outcome.le_refl _
        · exact Outcome.withEnv_le (h _ _) _
  · exact Outcome.le_refl _
  · exact Outcome.le_refl _
  · exact Outcome.le_refl _

theorem evalItems_le {ev ev' : Ev} (h : Ev.le ev ev') (es : List Expression) :
    ∀ env, (evalItems ev es env).le (evalItems ev' es env) := by
  induction es with
  | nil => intro env; exact Outcome.le_refl _
  | cons e es ih =>
    intro env
    unfold evalItems
    exact Outcome.bind_le (h _ _) fun v env1 =>
      Outcome.bind_le (ih env1) fun _ _ => Outcome.le_refl _

theorem beginLoop_le {ev ev' : Ev} (h : Ev.le ev ev') (es : List Expression) :
    ∀ result env, (beginLoop ev es result env).le (beginLoop ev' es result env) := by
  induction es with
  | nil => intro result env; exact Outcome.le_refl _
  | cons e es ih =>
    intro result env
    unfold beginLoop
    exact Outcome.bind_le (h _ _) fun v env1 => ih v env1

theorem mapLoop_le {ev ev' : Ev} (h : Ev.le ev ev') (op : Atom) (xs : List Expression) :
    ∀ env, (mapLoop ev op xs env).le (mapLoop ev' op xs env) := by
  induction xs with
  | nil => intro env; exact Outcome.le_refl _
  | cons x xs ih =>
    intro env
    unfold mapLoop
    exact Outcome.bind_le (apply_le h _ _ _) fun v env1 =>
      Outcome.bind_le (ih env1) fun _ _ => Outcome.le_refl _

theorem handle_define_le {ev ev' : Ev} (h : Ev.le ev ev') (e : Expression) (env : Environment) :
    (handle_define ev e env).le (handle_define ev' e env) := by
  unfold handle_define
  split
  · dsimp only
    split_ifs
    all_goals first
      | exact Outcome.le_refl _
      | exact Outcome.bind_le (h _ _) fun _ _ => Outcome.le_refl _
  · exact Outcome.le_refl _

theorem handle_list_le {ev ev' : Ev} (h : Ev.le ev ev') (e : Expression) (env : Environment) :
    (handle_list ev e env).le (handle_list ev' e env) :=
  Outcome.bind_le (evalItems_le h _ _) fun _ _ => Outcome.le_refl _

theorem handle_apply_le {ev ev' : Ev} (h : Ev.le ev ev') (e : Expression) (env : Environment) :
    (handle_apply ev e env).le (handle_apply ev' e env) := by
  unfold handle_apply
  split
  · dsimp only
    split_ifs
    · exact Outcome.le_refl _
    · refine Outcome.bind_le (h _ _) fun v env1 => ?_
      split_ifs
      · exact Outcome.le_refl _
      · exact apply_le h _ _ _
  · exact Outcome.le_refl _

theorem handle_map_le {ev ev' : Ev} (h : Ev.le ev ev') (e : Expression) (env : Environment) :
    (handle_map ev e env).le (handle_map ev' e env) := by
  unfold handle_map
  split
  · dsimp only
    split_ifs
    · exact Outcome.le_refl _
    · refine Outcome.bind_le (h _ _) fun v env1 => ?_
      split_ifs
      · exact Outcome.le_refl _
      · exact Outcome.bind_le (mapLoop_le h _ _ _) fun _ _ => Outcome.le_refl _
  · exact Outcome.le_refl _

theorem handle_set_property_le {ev ev' : Ev} (h : Ev.le ev ev') (e : Expression)
    (env : Environment) : (handle_set_property ev e env).le (handle_set_property ev' e env) := by
  unfold handle_set_property
  split
  · split_ifs
    · refine Outcome.bind_le (h _ _) fun v env1 => ?_
      exact Outcome.bind_le (h _ _) fun _ _ => Outcome.le_refl _
    · exact Outcome.le_refl _
  · exact Outcome.le_refl _

theorem handle_get_property_le {ev ev' : Ev} (h : Ev.le ev ev') (e : Expression)
    (env : Environment) : (handle_get_property ev e env).le (handle_get_property ev' e env) := by
  unfold handle_get_property
  split
  · exact Outcome.bind_le (h _ _) fun _ _ => Outcome.le_refl _
  · exact Outcome.le_refl _

theorem handle_discrete_plot_le (hd : Header) {ev ev' : Ev} (h : Ev.le ev ev') (e : Expression)
    (env : Environment) :
    (handle_discrete_plot hd ev e env).le (handle_discrete_plot hd ev' e env) := by
  unfold handle_discrete_plot
  split
  · refine Outcome.bind_le (h _ _) fun DATA env1 => ?_
    refine Outcome.bind_le (h _ _) fun OPTIONS env2 => ?_
    split_ifs
    · split
      · exact Outcome.le_refl _
      · dsimp only
        refine Outcome.bind_le (evalItems_le h _ _) fun drawn env3 => ?_
        exact Outcome.le_refl _
    · exact Outcome.le_refl _
  · exact Outcome.le_refl _

theorem sampleDomain_succ (n : Nat) : ∀ (x hi stepsize : ℚ) (xs : List ℚ),
    sampleDomain n x hi stepsize = some xs → sampleDomain (n + 1) x hi stepsize = some xs := by
  induction n with
  | zero =>
    intro x hi stepsize xs hn
    unfold sampleDomain at hn ⊢
    split_ifs at hn ⊢ with hx
    · exact hn
  | succ n ih =>
    intro x hi stepsize xs hn
    unfold sampleDomain at hn ⊢
    split_ifs at hn ⊢ with hx
    · cases hrec : sampleDomain n (x + stepsize) hi stepsize with
      | none => rw [hrec] at hn; cases hn
      | some ys =>
        rw [hrec] at hn
        rw [ih _ _ _ _ hrec]
        exact hn
    · exact hn

theorem boundLabel_le (hd : Header) {ev ev' : Ev} (h : Ev.le ev ev') (v x y : ℚ)
    (env : Environment) : (boundLabel hd ev v x y env).le (boundLabel hd ev' v x y env) := by
  unfold boundLabel
  refine Outcome.bind_le (h _ _) fun label env1 => ?_
  exact Outcome.bind_le (h _ _) fun _ _ => Outcome.le_refl _

theorem plotOptions_le (hd : Header) {ev ev' : Ev} (h : Ev.le ev ev')
    (xmin ymin ymax xmiddle ymiddle : ℚ) (opts : List Expression) :
    ∀ env, (plotOptions hd ev xmin ymin ymax xmiddle ymiddle opts env).le
      (plotOptions hd ev' xmin ymin ymax xmiddle ymiddle opts env) := by
  induction opts with
  | nil => intro env; exact Outcome.le_refl _
  | cons opt rest ih =>
    intro env
    unfold plotOptions
    dsimp only
    split
    · exact Outcome.le_refl _
    · refine Outcome.bind_le (h _ _) fun textPos env1 => ?_
      split
      · exact Outcome.le_refl _
      · refine Outcome.bind_le (h _ _) fun item env2 => ?_
        exact Outcome.bind_le (ih env2) fun _ _ => Outcome.le_refl _

theorem contPlotBody_le (hd : Header) (n : Nat) {ev ev' : Ev} (h : Ev.le ev ev')
    (FUNC BOUNDS : Expression) (options : Option Expression) (env : Environment) :
    (contPlotBody hd n ev FUNC BOUNDS options env).le
      (contPlotBody hd (n + 1) ev' FUNC BOUNDS options env) := by
  unfold contPlotBody
  refine Outcome.bind_le (h _ _) fun xb env1 => ?_
  refine Outcome.bind_le (h _ _) fun yb env2 => ?_
  split
  · dsimp only
    refine Outcome.bind_le (evalItems_le h _ _) fun box env3 => ?_
    cases hs : sampleDomain n _ _ _ with
    | none => exact Or.inl rfl
    | some domain =>
      rw [sampleDomain_succ n _ _ _ _ hs]
      dsimp only
      refine Outcome.bind_le (h _ _) fun range_exp env4 => ?_
      split
      · exact Outcome.le_refl _
      · refine Outcome.bind_le (evalItems_le h _ _) fun lines env5 => ?_
        refine Outcome.bind_le (boundLabel_le hd h _ _ _ _) fun l1 env6 => ?_
        refine Outcome.bind_le (boundLabel_le hd h _ _ _ _) fun l2 env7 => ?_
        refine Outcome.bind_le (boundLabel_le hd h _ _ _ _) fun l3 env8 => ?_
        refine Outcome.bind_le (boundLabel_le hd h _ _ _ _) fun l4 env9 => ?_
        refine Outcome.bind_le ?_ fun _ _ => Outcome.le_refl _
        cases options with
        | none => exact Outcome.le_refl _
        | some OPTIONS => exact plotOptions_le hd h _ _ _ _ _ _ _
  · exact Outcome.le_refl _

theorem handle_cont_plot_le (hd : Header) (n : Nat) {ev ev' : Ev} (h : Ev.le ev ev')
    (e : Expression) (env : Environment) :
    (handle_cont_plot hd n ev e env).le (handle_cont_plot hd (n + 1) ev' e env) := by
  unfold handle_cont_plot
  split
  · refine Outcome.bind_le (h _ _) fun f env1 => ?_
    split_ifs
    · exact Outcome.le_refl _
    · refine Outcome.bind_le (h _ _) fun b env2 => ?_
      split_ifs
      · exact Outcome.le_refl _
      · exact contPlotBody_le hd n h _ _ _ _
  · refine Outcome.bind_le (h _ _) fun f env1 => ?_
    split_ifs
    · exact Outcome.le_refl _
    · refine Outcome.bind_le (h _ _) fun b env2 => ?_
      split_ifs
      · exact Outcome.le_refl _
      · refine Outcome.bind_le (h _ _) fun o env3 => ?_
        split_ifs
        · exact Outcome.le_refl _
        · exact contPlotBody_le hd n h _ _ _ _
  · exact Outcome.le_refl _

theorem evalStep_le (hd : Header) (flag n : Nat) {ev ev' : Ev} (h : Ev.le ev ev')
    (e : Expression) (env : Environment) :
    (evalStep hd flag n ev e env).le (evalStep hd flag (n + 1) ev' e env) := by
  unfold evalStep
  by_cases c0 : flag > 0
  · rw [if_pos c0, if_pos c0]; exact Outcome.le_refl _
  rw [if_neg c0, if_neg c0]
  by_cases c1 : e.m_head.asSymbol = "list"
  · rw [if_pos c1, if_pos c1]; exact handle_list_le h _ _
  rw [if_neg c1, if_neg c1]
  by_cases c2 : e.m_tail.isEmpty = true
  · rw [if_pos c2, if_pos c2]; exact Outcome.le_refl _
  rw [if_neg c2, if_neg c2]
  by_cases c3 : e.m_head.asSymbol = "begin"
  · rw [if_pos c3, if_pos c3]; exact beginLoop_le h _ _ _
  rw [if_neg c3, if_neg c3]
  by_cases c4 : e.m_head.asSymbol = "define"
  · rw [if_pos c4, if_pos c4]; exact handle_define_le h _ _
  rw [if_neg c4, if_neg c4]
  by_cases c5 : e.m_head.asSymbol = "lambda"
  · rw [if_pos c5, if_pos c5]; exact Outcome.le_refl _
  rw [if_neg c5, if_neg c5]
  by_cases c6 : e.m_head.asSymbol = "apply"
  · rw [if_pos c6, if_pos c6]; exact handle_apply_le h _ _
  rw [if_neg c6, if_neg c6]
  by_cases c7 : e.m_head.asSymbol = "map"
  · rw [if_pos c7, if_pos c7]; exact handle_map_le h _ _
  rw [if_neg c7, if_neg c7]
  by_cases c8 : e.m_head.asSymbol = "set-property"
  · rw [if_pos c8, if_pos c8]; exact handle_set_property_le h _ _
  rw [if_neg c8, if_neg c8]
  by_cases c9 : e.m_head.asSymbol = "get-property"
  · rw [if_pos c9, if_pos c9]; exact handle_get_property_le h _ _
  rw [if_neg c9, if_neg c9]
  by_cases c10 : e.m_head.asSymbol = "discrete-plot"
  · rw [if_pos c10, if_pos c10]; exact handle_discrete_plot_le hd h _ _
  rw [if_neg c10, if_neg c10]
  by_cases c11 : e.m_head.asSymbol = "continuous-plot"
  · rw [if_pos c11, if_pos c11]; exact handle_cont_plot_le hd n h _ _
  rw [if_neg c11, if_neg c11]
  exact Outcome.bind_le (evalItems_le h _ _) fun _ _ => apply_le h _ _ _

/-- One more level of fuel changes no outcome other than `timeout`. -/
theorem eval_le_succ (hd : Header) (flag : Nat) (n : Nat) :
    Ev.le (eval hd flag n) (eval hd flag (n + 1)) := by
  induction n with
  | zero => intro e env; exact Or.inl rfl
  | succ n ih => intro e env; exact evalStep_le hd flag n ih e env

/-- An evaluation that has come back comes back the same with any larger fuel. -/
theorem eval_mono (hd : Header) (flag : Nat) {n m : Nat} (hnm : n ≤ m) {e : Expression}
    {env : Environment} {r : Result} (hr : eval hd flag n e env = r) (hne : r ≠ .timeout) :
    eval hd flag m e env = r := by
  induction hnm with
  | refl => exact hr
  | step _ ih =>
    rcases eval_le_succ hd flag _ e env with h | h
    · rw [ih] at h; exact absurd h hne
    · rw [← h]; exact ih

/-! ## Lookups after a binding -/

theorem Environment.lookup_bind_self (env : Environment) (s : String) (e : Expression) :
    (env.bind s e).envmap.lookup s = some (.exp e) := by
  simp [Environment.bind, List.lookup]

theorem Environment.is_exp_add_exp (env : Environment) (s : String) (e : Expression) :
    (env.add_exp (.symbol s) e).is_exp (.symbol s) = true := by
  simp [Environment.add_exp, Environment.is_exp, Environment.lookup_bind_self]

theorem Environment.get_exp_add_exp (env : Environment) (s : String) (e : Expression) :
    (env.add_exp (.symbol s) e).get_exp (.symbol s) = e := by
  simp [Environment.add_exp, Environment.get_exp, Environment.lookup_bind_self]

theorem Environment.is_proc_add_exp (env : Environment) (s : String) (e : Expression) :
    (env.add_exp (.symbol s) e).is_proc (.symbol s) = false := by
  simp [Environment.add_exp, Environment.is_proc, Environment.lookup_bind_self]

/-! ## Dispatch of `eval` -/

theorem isEmpty_eq_false_of_ne_nil {l : List Expression} (h : l ≠ []) : l.isEmpty = false := by
  cases l with
  | nil => exact absurd rfl h
  | cons a l => rfl

theorem evalStep_interrupted (hd : Header) (flag n : Nat) (ev : Ev) (e : Expression)
    (env : Environment) (hf : flag ≠ 0) :
    evalStep hd flag n ev e env = .error "Error: interpreter kernal interupted" env := by
  unfold evalStep
  rw [if_pos (Nat.pos_of_ne_zero hf)]

theorem evalStep_list (hd : Header) (n : Nat) (ev : Ev) (e : Expression) (env : Environment)
    (hh : e.m_head = .symbol "list") :
    evalStep hd 0 n ev e env = handle_list ev e env := by
  unfold evalStep
  simp [hh, Atom.asSymbol]

theorem evalStep_lookup (hd : Header) (n : Nat) (ev : Ev) (e : Expression) (env : Environment)
    (hh : e.m_head.asSymbol ≠ "list") (ht : e.m_tail = []) :
    evalStep hd 0 n ev e env = handle_lookup e.m_head env := by
  unfold evalStep
  simp [hh, ht]

theorem evalStep_define (hd : Header) (n : Nat) (ev : Ev) (e : Expression) (env : Environment)
    (hh : e.m_head = .symbol "define") (ht : e.m_tail ≠ []) :
    evalStep hd 0 n ev e env = handle_define ev e env := by
  unfold evalStep
  simp [hh, Atom.asSymbol, isEmpty_eq_false_of_ne_nil ht]

theorem evalStep_apply (hd : Header) (n : Nat) (ev : Ev) (e : Expression) (env : Environment)
    (hh : e.m_head = .symbol "apply") (ht : e.m_tail ≠ []) :
    evalStep hd 0 n ev e env = handle_apply ev e env := by
  unfold evalStep
  simp [hh, Atom.asSymbol, isEmpty_eq_false_of_ne_nil ht]

theorem evalStep_map (hd : Header) (n : Nat) (ev : Ev) (e : Expression) (env : Environment)
    (hh : e.m_head = .symbol "map") (ht : e.m_tail ≠ []) :
    evalStep hd 0 n ev e env = handle_map ev e env := by
  unfold evalStep
  simp [hh, Atom.asSymbol, isEmpty_eq_false_of_ne_nil ht]

theorem evalStep_set_property (hd : Header) (n : Nat) (ev : Ev) (e : Expression)
    (env : Environment) (hh : e.m_head = .symbol "set-property") (ht : e.m_tail ≠ []) :
    evalStep hd 0 n ev e env = handle_set_property ev e env := by
  unfold evalStep
  simp [hh, Atom.asSymbol, isEmpty_eq_false_of_ne_nil ht]

theorem evalStep_get_property (hd : Header) (n : Nat) (ev : Ev) (e : Expression)
    (env : Environment) (hh : e.m_head = .symbol "get-property") (ht : e.m_tail ≠ []) :
    evalStep hd 0 n ev e env = handle_get_property ev e env := by
  unfold evalStep
  simp [hh, Atom.asSymbol, isEmpty_eq_false_of_ne_nil ht]

theorem evalStep_generic (hd : Header) (n : Nat) (ev : Ev) (e : Expression) (env : Environment)
    (hk : e.m_head.asSymbol ∉ keywords) (ht : e.m_tail ≠ []) :
    evalStep hd 0 n ev e env
      = (evalItems ev e.m_tail env).bind fun results env1 => apply ev e.m_head results env1 := by
  unfold evalStep
  simp only [keywords, List.mem_cons, List.mem_singleton, not_or, List.not_mem_nil,
    not_false_eq_true, and_true] at hk
  obtain ⟨h1, h2, h3, h4, h5, h6, h7, h8, h9, h10⟩ := hk
  simp [h1, h2, h3, h4, h5, h6, h7, h8, h9, h10, isEmpty_eq_false_of_ne_nil ht]

/-! ## define -/

/-- C1: in an environment `env`, for a symbol `x` that `define` accepts (not one
of the reserved names, not naming a built-in procedure) and an expression `E`
whose evaluation returns `v`: `(define x E)` returns `v`, and the lookup of `x`
(the tail-less expression `x`) in the environment it leaves returns exactly `v`;
a following `(define x E2)` whose `E2` evaluates to `v2` returns `v2`, and the
lookup of `x` then returns `v2`. -/
theorem define_then_lookup (hd : Header) (env env1 env3 : Environment) (x : String)
    (d d2 xe lk E E2 v v2 : Expression) (n n2 : Nat)
    (hx : xe.head = .symbol x) (hacc : x ∉ reservedNames)
    (hproc : env.is_proc (.symbol x) = false)
    (hd1 : d.m_head = .symbol "define") (hd1t : d.m_tail = [xe, E])
    (hd2 : d2.m_head = .symbol "define") (hd2t : d2.m_tail = [xe, E2])
    (hlk : lk.m_head = .symbol x) (hlkt : lk.m_tail = [])
    (hE : eval hd 0 n E env = .ok v env1)
    (hE2 : eval hd 0 n2 E2 (env1.add_exp (.symbol x) v) = .ok v2 env3) :
    eval hd 0 (n + 1) d env = .ok v (env1.add_exp (.symbol x) v)
    ∧ (∀ m, eval hd 0 (m + 1) lk (env1.add_exp (.symbol x) v)
        = .ok v (env1.add_exp (.symbol x) v))
    ∧ eval hd 0 (n2 + 1) d2 (env1.add_exp (.symbol x) v) = .ok v2 (env3.add_exp (.symbol x) v2)
    ∧ (∀ m, eval hd 0 (m + 1) lk (env3.add_exp (.symbol x) v2)
        = .ok v2 (env3.add_exp (.symbol x) v2)) := by
  simp only [reservedNames, List.mem_cons, List.mem_singleton, not_or, List.not_mem_nil,
    not_false_eq_true, and_true] at hacc
  obtain ⟨a1, a2, a3, a4, a5, a6, a7⟩ := hacc
  have hdef : ∀ (k : Nat) (dd F w : Expression) (e0 e1 : Environment),
      dd.m_head = .symbol "define" → dd.m_tail = [xe, F] → e0.is_proc (.symbol x) = false →
      eval hd 0 k F e0 = .ok w e1 →
      eval hd 0 (k + 1) dd e0 = .ok w (e1.add_exp (.symbol x) w) := by
    intro k dd F w e0 e1 h1 h2 h3 h4
    show evalStep hd 0 k (eval hd 0 k) dd e0 = _
    rw [evalStep_define hd k _ dd e0 h1 (by rw [h2]; simp)]
    unfold handle_define
    rw [h2]
    simp [hx, Atom.isSymbol, Atom.asSymbol, a1, a2, a3, a4, a5, a6, a7, h3, h4, Outcome.bind]
  have hlook : ∀ (m : Nat) (e1 : Environment) (w : Expression),
      eval hd 0 (m + 1) lk (e1.add_exp (.symbol x) w) = .ok w (e1.add_exp (.symbol x) w) := by
    intro m e1 w
    show evalStep hd 0 m (eval hd 0 m) lk _ = _
    rw [evalStep_lookup hd m _ lk _ (by rw [hlk]; exact a4) hlkt, hlk]
    simp [handle_lookup, Atom.isSymbol, Environment.is_exp_add_exp, Environment.get_exp_add_exp]
  exact ⟨hdef n d E v env env1 hd1 hd1t hproc hE, fun m => hlook m env1 v,
    hdef n2 d2 E2 v2 _ env3 hd2 hd2t (Environment.is_proc_add_exp env1 x v) hE2,
    fun m => hlook m env3 v2⟩

theorem define_then_lookup_witness :
    (Sample.sym "x").head = .symbol "x" ∧ "x" ∉ reservedNames
    ∧ Sample.env.is_proc (.symbol "x") = false
    ∧ eval Sample.header 0 1 (Sample.num 1) Sample.env = .ok (Sample.num 1) Sample.env
    ∧ eval Sample.header 0 1 (Sample.num 2) (Sample.env.add_exp (.symbol "x") (Sample.num 1))
        = .ok (Sample.num 2) (Sample.env.add_exp (.symbol "x") (Sample.num 1))
    ∧ eval Sample.header 0 2 (Sample.form "define" [Sample.sym "x", Sample.num 1]) Sample.env
        = .ok (Sample.num 1) (Sample.env.add_exp (.symbol "x") (Sample.num 1))
    ∧ eval Sample.header 0 2 (Sample.form "define" [Sample.sym "x", Sample.num 2])
          (Sample.env.add_exp (.symbol "x") (Sample.num 1))
        = .ok (Sample.num 2)
            ((Sample.env.add_exp (.symbol "x") (Sample.num 1)).add_exp (.symbol "x")
              (Sample.num 2))
    ∧ eval Sample.header 0 1 (Sample.sym "x")
          ((Sample.env.add_exp (.symbol "x") (Sample.num 1)).add_exp (.symbol "x")
            (Sample.num 2))
        = .ok (Sample.num 2)
            ((Sample.env.add_exp (.symbol "x") (Sample.num 1)).add_exp (.symbol "x")
              (Sample.num 2)) :=
  have h := define_then_lookup Sample.header Sample.env Sample.env
    (Sample.env.add_exp (.symbol "x") (Sample.num 1)) "x"
    (Sample.form "define" [Sample.sym "x", Sample.num 1])
    (Sample.form "define" [Sample.sym "x", Sample.num 2])
    (Sample.sym "x") (Sample.sym "x") (Sample.num 1) (Sample.num 2) (Sample.num 1)
    (Sample.num 2) 1 1 rfl (by decide) rfl rfl rfl rfl rfl rfl rfl rfl rfl
  ⟨rfl, by decide, rfl, rfl, rfl, h.1, h.2.2.1, h.2.2.2 0⟩

/-- C2: a two-element `define` form whose first argument is one of `define`,
`begin`, `lambda`, `list`, `pi`, `e`, `I`, or a symbol naming a built-in
procedure, fails with a semantic error and leaves the environment as it was;
its second argument is not evaluated: the outcome is the same whatever
evaluator is handed in for the sub-expressions, and is reached with one level
of fuel. -/
theorem define_reserved_fails (hd : Header) (env : Environment) (d xe t1 : Expression)
    (x : String) (hh : d.m_head = .symbol "define") (ht : d.m_tail = [xe, t1])
    (hx : xe.head = .symbol x)
    (hres : x ∈ reservedNames ∨ env.is_proc (.symbol x) = true) :
    ∃ what : String,
      (∀ (n : Nat) (ev : Ev), evalStep hd 0 n ev d env = .error what env)
      ∧ ∀ n : Nat, eval hd 0 (n + 1) d env = .error what env := by
  have key : ∃ what : String, ∀ ev : Ev, handle_define ev d env = .error what env := by
    unfold handle_define
    rw [ht]
    simp only [hx, Atom.isSymbol, Atom.asSymbol]
    by_cases hsf : (x = "define" || x = "begin" || x = "lambda" || x = "list") = true
    · exact ⟨"Error during handle define: attempt to redefine a special-form",
        fun ev => by simp [hsf]⟩
    · by_cases hp : env.is_proc (.symbol x) = true
      · exact ⟨"Error during handle define: attempt to redefine a built-in procedure",
          fun ev => by simp [hsf, hp]⟩
      · have hc : (x = "pi" || x = "e" || x = "I") = true := by
          rcases hres with hr | hr
          · simp only [reservedNames, List.mem_cons, List.mem_singleton, List.not_mem_nil,
              or_false] at hr
            simp only [Bool.or_eq_true, decide_eq_true_eq] at hsf ⊢
            tauto
          · exact absurd hr hp
        exact ⟨"Error during handle define: attempt to redefine a built-in symbol",
          fun ev => by simp [hsf, hp, hc]⟩
  obtain ⟨what, hw⟩ := key
  have hne : d.m_tail ≠ [] := by rw [ht]; simp
  refine ⟨what, fun n ev => ?_, fun n => ?_⟩
  · rw [evalStep_define hd n ev d env hh hne]; exact hw ev
  · show evalStep hd 0 n (eval hd 0 n) d env = _
    rw [evalStep_define hd n _ d env hh hne]; exact hw _

theorem define_reserved_fails_witness :
    ("pi" ∈ reservedNames ∨ Sample.env.is_proc (.symbol "pi") = true)
    ∧ ∃ what : String,
      (∀ (n : Nat) (ev : Ev),
        evalStep Sample.header 0 n ev (Sample.form "define" [Sample.sym "pi", Sample.num 1])
          Sample.env = .error what Sample.env)
      ∧ ∀ n : Nat,
        eval Sample.header 0 (n + 1) (Sample.form "define" [Sample.sym "pi", Sample.num 1])
          Sample.env = .error what Sample.env :=
  ⟨Or.inl (by decide),
    define_reserved_fails Sample.header Sample.env
      (Sample.form "define" [Sample.sym "pi", Sample.num 1]) (Sample.sym "pi") (Sample.num 1)
      "pi" rfl rfl rfl (Or.inl (by decide))⟩

/-! ## Application -/

theorem evalItems_length (ev : Ev) (es : List Expression) :
    ∀ (env env1 : Environment) (vs : List Expression),
      evalItems ev es env = .ok vs env1 → vs.length = es.length := by
  induction es with
  | nil =>
    intro env env1 vs h
    simp only [evalItems, Outcome.ok.injEq] at h
    rw [← h.1]
  | cons e es ih =>
    intro env env1 vs h
    unfold evalItems at h
    cases h1 : ev e env with
    | ok v envA =>
      rw [h1] at h
      simp only [Outcome.bind] at h
      cases h2 : evalItems ev es envA with
      | ok ws envB =>
        rw [h2] at h
        simp only [Outcome.ok.injEq] at h
        rw [← h.1, List.length_cons, List.length_cons, ih envA envB ws h2]
      | error m envB => rw [h2] at h; cases h
      | crash => rw [h2] at h; cases h
      | timeout => rw [h2] at h; cases h
    | error m envA => rw [h1] at h; cases h
    | crash => rw [h1] at h; cases h
    | timeout => rw [h1] at h; cases h

/-- The message of the arity check in `apply`. -/
theorem apply_arity_mismatch (ev : Ev) (env : Environment) (op : Atom) (vs : List Expression)
    (tmpl : Expression) (hisl : (env.get_exp op).isLambda = true)
    (htm : (env.get_exp op).m_tail.head? = some tmpl) (hN : vs.length ≠ tmpl.tailLength) :
    apply ev op vs env = .error arityError env := by
  unfold apply
  simp [hisl, htm, hN, arityError]

theorem Environment.is_exp_of_isLambda (env : Environment) (a : Atom)
    (h : (env.get_exp a).isLambda = true) : env.is_exp a = true := by
  cases a with
  | symbol s =>
    simp only [Environment.get_exp, Environment.is_exp] at h ⊢
    cases hl : env.envmap.lookup s with
    | none => rw [hl] at h; cases h
    | some r =>
      cases r with
      | exp e => rfl
      | proc p => rw [hl] at h; cases h
  | none => cases h
  | number q => cases h
  | complex re im => cases h
  | string t => cases h

/-- C3 (counterexample): `f` is bound to the one-parameter lambda `(lambda (x) x)`.
With no argument the expression `(f)` is a lookup: it returns the lambda and
does not fail.  With the two arguments `(define z 1)` and `2` the call fails
with the arity error, but the environment afterwards has `z` bound, which the
environment before had not. -/
theorem arity_mismatch_counterexample :
    (Sample.env.get_exp (.symbol "f")).isLambda = true
    ∧ (Sample.env.get_exp (.symbol "f")).m_tail.head? = some (.ofItems [Sample.sym "x"])
    ∧ eval Sample.header 0 1 (Sample.form "f" []) Sample.env
        = .ok Sample.identity Sample.env
    ∧ eval Sample.header 0 3
        (Sample.form "f" [Sample.form "define" [Sample.sym "z", Sample.num 1], Sample.num 2])
        Sample.env
        = .error arityError (Sample.env.add_exp (.symbol "z") (Sample.num 1))
    ∧ (Sample.env.add_exp (.symbol "z") (Sample.num 1)).is_exp (.symbol "z") = true
    ∧ Sample.env.is_exp (.symbol "z") = false :=
  ⟨rfl, rfl, rfl, rfl, rfl, rfl⟩

/-- C3 (amended): `f` is a symbol other than a special-form keyword and the argument
expressions `args` evaluate, left to right, to `vs`, leaving the environment
`env1` in which `f` is bound to a lambda whose argument template has a number
of formal parameters different from the number of arguments.  Then the
application `(f args...)` with at least one argument fails with the
invalid-number-of-arguments error, and so does `(apply f (list args...))` when
`f` is lambda-bound in `env` too; the environment after the failed call is
`env1`, the one the arguments left.  With no argument the expression `(f)` is
a lookup and returns the lambda. -/
theorem arity_mismatch_fails (hd : Header) (env env1 : Environment) (f : String)
    (e ae fe le tmpl : Expression) (args vs : List Expression) (n : Nat)
    (hkw : f ∉ keywords)
    (hargs : evalItems (eval hd 0 n) args env = .ok vs env1)
    (hisl : (env1.get_exp (.symbol f)).isLambda = true)
    (htm : (env1.get_exp (.symbol f)).m_tail.head? = some tmpl)
    (hN : args.length ≠ tmpl.tailLength)
    (he : e.m_head = .symbol f) (het : e.m_tail = args)
    (hae : ae.m_head = .symbol "apply") (haet : ae.m_tail = [fe, le])
    (hfe : fe.head = .symbol f) (hle : le.m_head = .symbol "list") (hlet : le.m_tail = args) :
    (args ≠ [] → eval hd 0 (n + 1) e env = .error arityError env1)
    ∧ ((env.get_exp (.symbol f)).isLambda = true →
        eval hd 0 (n + 2) ae env = .error arityError env1)
    ∧ (args = [] → eval hd 0 (n + 1) e env = .ok (env.get_exp (.symbol f)) env) := by
  have hlen : vs.length ≠ tmpl.tailLength := by
    rw [evalItems_length _ _ _ _ _ hargs]; exact hN
  refine ⟨?_, ?_, ?_⟩
  · intro hne
    show evalStep hd 0 n (eval hd 0 n) e env = _
    rw [evalStep_generic hd n _ e env (by rw [he]; exact hkw) (by rw [het]; exact hne),
      het, hargs, he]
    exact apply_arity_mismatch _ env1 _ vs tmpl hisl htm hlen
  · intro hpre
    show evalStep hd 0 (n + 1) (eval hd 0 (n + 1)) ae env = _
    rw [evalStep_apply hd (n + 1) _ ae env hae (by rw [haet]; simp)]
    have hlist : eval hd 0 (n + 1) le env = .ok (Expression.ofItems vs) env1 := by
      show evalStep hd 0 n (eval hd 0 n) le env = _
      rw [evalStep_list hd n _ le env hle]
      unfold handle_list
      rw [hlet, hargs]
      rfl
    unfold handle_apply
    rw [haet]
    simp only [hfe, hpre, hlist, Outcome.bind, Bool.not_true, Bool.false_and]
    simp only [Expression.isList, Expression.ofItems, Expression.m_type, Expression.m_tail]
    simpa using apply_arity_mismatch _ env1 _ vs tmpl hisl htm hlen
  · intro hnil
    subst hnil
    have henv : env1 = env := by
      simp only [evalItems, Outcome.ok.injEq] at hargs
      exact hargs.2.symm
    subst henv
    have hlist : f ≠ "list" := fun h => hkw (by rw [h]; decide)
    show evalStep hd 0 n (eval hd 0 n) e env1 = _
    rw [evalStep_lookup hd n _ e env1 (by rw [he]; exact hlist) het, he]
    simp [handle_lookup, Atom.isSymbol, Environment.is_exp_of_isLambda env1 _ hisl]

theorem arity_mismatch_fails_witness :
    "f" ∉ keywords
    ∧ evalItems (eval Sample.header 0 1) [Sample.num 1, Sample.num 2] Sample.env
        = .ok [Sample.num 1, Sample.num 2] Sample.env
    ∧ (Sample.env.get_exp (.symbol "f")).isLambda = true
    ∧ (Sample.env.get_exp (.symbol "f")).m_tail.head? = some (.ofItems [Sample.sym "x"])
    ∧ [Sample.num 1, Sample.num 2].length ≠ (Expression.ofItems [Sample.sym "x"]).tailLength
    ∧ eval Sample.header 0 2 (Sample.form "f" [Sample.num 1, Sample.num 2]) Sample.env
        = .error arityError Sample.env
    ∧ eval Sample.header 0 3
        (Sample.form "apply" [Sample.sym "f", Sample.form "list" [Sample.num 1, Sample.num 2]])
        Sample.env = .error arityError Sample.env :=
  have h := arity_mismatch_fails Sample.header Sample.env Sample.env "f"
    (Sample.form "f" [Sample.num 1, Sample.num 2])
    (Sample.form "apply" [Sample.sym "f", Sample.form "list" [Sample.num 1, Sample.num 2]])
    (Sample.sym "f") (Sample.form "list" [Sample.num 1, Sample.num 2])
    (.ofItems [Sample.sym "x"]) [Sample.num 1, Sample.num 2] [Sample.num 1, Sample.num 2] 1
    (by decide) rfl rfl rfl (by decide) rfl rfl rfl rfl rfl rfl rfl
  ⟨by decide, rfl, rfl, rfl, by decide, h.1 (by simp), h.2.1 rfl⟩

/-! ## The inner scope of a lambda application -/

theorem Outcome.eq_of_le {α : Type} {r r' : Outcome α} (h : r.le r') (hne : r ≠ .timeout) :
    r' = r := by
  rcases h with h | h
  · exact absurd h hne
  · exact h.symm

theorem eval_call_eq (hd : Header) (k : Nat) (env : Environment) (f : String)
    (e : Expression) (hkw : f ∉ keywords) (he : e.m_head = .symbol f) (hne : e.m_tail ≠ []) :
    eval hd 0 (k + 1) e env
      = (evalItems (eval hd 0 k) e.m_tail env).bind fun vs env1 =>
          apply (eval hd 0 k) (.symbol f) vs env1 := by
  show evalStep hd 0 k (eval hd 0 k) e env = _
  rw [evalStep_generic hd k _ e env (by rw [he]; exact hkw) hne, he]

theorem eval_apply_form_eq (hd : Header) (k : Nat) (env : Environment) (f : String)
    (ae fe le : Expression)
    (hop : (env.get_exp (.symbol f)).isLambda = true ∨ env.is_proc (.symbol f) = true)
    (hae : ae.m_head = .symbol "apply") (haet : ae.m_tail = [fe, le])
    (hfe : fe.head = .symbol f) (hfet : fe.m_tail = [])
    (hle : le.m_head = .symbol "list") :
    eval hd 0 (k + 2) ae env
      = (evalItems (eval hd 0 k) le.m_tail env).bind fun vs env1 =>
          apply (eval hd 0 (k + 1)) (.symbol f) vs env1 := by
  show evalStep hd 0 (k + 1) (eval hd 0 (k + 1)) ae env = _
  rw [evalStep_apply hd (k + 1) _ ae env hae (by rw [haet]; simp)]
  have hlist : eval hd 0 (k + 1) le env
      = (evalItems (eval hd 0 k) le.m_tail env).bind fun vs env1 =>
          .ok (Expression.ofItems vs) env1 := by
    show evalStep hd 0 k (eval hd 0 k) le env = _
    rw [evalStep_list hd k _ le env hle]
    rfl
  have hcheck : (!(env.get_exp (.symbol f)).isLambda
      && (!env.is_proc (.symbol f) || decide (fe.tailLength > 0))) = false := by
    rcases hop with h | h
    · simp [h]
    · simp [h, Expression.tailLength, hfet]
  unfold handle_apply
  rw [haet]
  simp only [hfe, hcheck, hlist]
  cases evalItems (eval hd 0 k) le.m_tail env with
  | ok vs env1 =>
    simp [Outcome.bind, Expression.isList, Expression.ofItems, Expression.m_type,
      Expression.m_tail]
  | error m env1 => simp [Outcome.bind]
  | crash => simp [Outcome.bind]
  | timeout => simp [Outcome.bind]

/-- C5: `f` is a symbol other than a special-form keyword that is bound to a lambda
or names a built-in procedure, and `args` is a non-empty sequence of argument
expressions.  Then `(apply f (list args...))` and `(f args...)` have the same
outcomes: whatever one of them comes back with (a value or an error, together
with the environment it leaves), the other comes back with too. -/
theorem apply_form_agrees_with_call (hd : Header) (flag : Nat) (env : Environment)
    (f : String) (e ae fe le : Expression) (args : List Expression)
    (hkw : f ∉ keywords) (hne : args ≠ [])
    (hop : (env.get_exp (.symbol f)).isLambda = true ∨ env.is_proc (.symbol f) = true)
    (he : e.m_head = .symbol f) (het : e.m_tail = args)
    (hae : ae.m_head = .symbol "apply") (haet : ae.m_tail = [fe, le])
    (hfe : fe.head = .symbol f) (hfet : fe.m_tail = [])
    (hle : le.m_head = .symbol "list") (hlet : le.m_tail = args)
    (r : Result) (hr : r ≠ .timeout) :
    (∃ n, eval hd flag n ae env = r) ↔ (∃ n, eval hd flag n e env = r) := by
  by_cases hflag : flag = 0
  · subst hflag
    have hne' : e.m_tail ≠ [] := by rw [het]; exact hne
    constructor
    · rintro ⟨n, hn⟩
      cases n with
      | zero => exact absurd hn.symm hr
      | succ n =>
        cases n with
        | zero =>
          have h0 : eval hd 0 1 ae env = .timeout := by
            show evalStep hd 0 0 (eval hd 0 0) ae env = _
            rw [evalStep_apply hd 0 _ ae env hae (by rw [haet]; simp)]
            unfold handle_apply
            rw [haet]
            rcases hop with h | h
            · simp [hfe, h, eval, Outcome.bind]
            · simp [hfe, h, eval, Outcome.bind, Expression.tailLength, hfet]
          exact absurd (hn.symm.trans h0) hr
        | succ k =>
          refine ⟨k + 2, ?_⟩
          rw [eval_apply_form_eq hd k env f ae fe le hop hae haet hfe hfet hle, hlet] at hn
          rw [eval_call_eq hd (k + 1) env f e hkw he hne', het]
          have hmono := evalItems_le (eval_le_succ hd 0 k) args env
          cases hitems : evalItems (eval hd 0 k) args env with
          | ok vs env1 =>
            rw [hitems] at hn hmono
            rw [Outcome.eq_of_le hmono (by simp)]
            exact hn
          | error m env1 =>
            rw [hitems] at hn hmono
            rw [Outcome.eq_of_le hmono (by simp)]
            exact hn
          | crash =>
            rw [hitems] at hn hmono
            rw [Outcome.eq_of_le hmono (by simp)]
            exact hn
          | timeout =>
            rw [hitems] at hn
            exact absurd hn.symm hr
    · rintro ⟨n, hn⟩
      cases n with
      | zero => exact absurd hn.symm hr
      | succ k =>
        refine ⟨k + 2, ?_⟩
        rw [eval_call_eq hd k env f e hkw he hne', het] at hn
        rw [eval_apply_form_eq hd k env f ae fe le hop hae haet hfe hfet hle, hlet]
        cases hitems : evalItems (eval hd 0 k) args env with
        | ok vs env1 =>
          rw [hitems] at hn
          simp only [Outcome.bind] at hn ⊢
          have hmono := apply_le (eval_le_succ hd 0 k) (.symbol f) vs env1
          rw [hn] at hmono
          exact Outcome.eq_of_le hmono hr
        | error m env1 => rw [hitems] at hn; exact hn
        | crash => rw [hitems] at hn; exact hn
        | timeout => rw [hitems] at hn; exact hn
  · have hint : ∀ (x : Expression) (n : Nat),
        eval hd flag (n + 1) x env = .error "Error: interpreter kernal interupted" env :=
      fun x n => evalStep_interrupted hd flag n _ x env hflag
    constructor
    · rintro ⟨n, hn⟩
      cases n with
      | zero => exact absurd hn.symm hr
      | succ n => exact ⟨1, by rw [hint e 0, ← hn, hint ae n]⟩
    · rintro ⟨n, hn⟩
      cases n with
      | zero => exact absurd hn.symm hr
      | succ n => exact ⟨1, by rw [hint ae 0, ← hn, hint e n]⟩

theorem apply_form_agrees_with_call_witness :
    "first" ∉ keywords
    ∧ ((Sample.env.get_exp (.symbol "first")).isLambda = true
        ∨ Sample.env.is_proc (.symbol "first") = true)
    ∧ Outcome.ok (Sample.num 1) Sample.env ≠ Outcome.timeout
    ∧ ((∃ n, eval Sample.header 0 n
          (Sample.form "apply"
            [Sample.sym "first", Sample.form "list" [Sample.num 1, Sample.num 2]])
          Sample.env = .ok (Sample.num 1) Sample.env)
        ↔ (∃ n, eval Sample.header 0 n (Sample.form "first" [Sample.num 1, Sample.num 2])
          Sample.env = .ok (Sample.num 1) Sample.env))
    ∧ eval Sample.header 0 2 (Sample.form "first" [Sample.num 1, Sample.num 2]) Sample.env
        = .ok (Sample.num 1) Sample.env :=
  ⟨by decide, Or.inr rfl, by simp,
    apply_form_agrees_with_call Sample.header 0 Sample.env "first"
      (Sample.form "first" [Sample.num 1, Sample.num 2])
      (Sample.form "apply" [Sample.sym "first", Sample.form "list" [Sample.num 1, Sample.num 2]])
      (Sample.sym "first") (Sample.form "list" [Sample.num 1, Sample.num 2])
      [Sample.num 1, Sample.num 2] (by decide) (by simp) (Or.inr rfl) rfl rfl rfl rfl rfl rfl
      rfl rfl (.ok (Sample.num 1) Sample.env) (by simp),
    rfl⟩

/-! ## map -/

theorem Environment.is_proc_of_is_exp (env : Environment) (a : Atom)
    (h : env.is_exp a = true) : env.is_proc a = false := by
  cases a with
  | symbol s =>
    simp only [Environment.is_exp, Environment.is_proc] at h ⊢
    cases hl : env.envmap.lookup s with
    | none => rfl
    | some r =>
      cases r with
      | exp e => rfl
      | proc p => rw [hl] at h; cases h
  | none => rfl
  | number q => rfl
  | complex re im => rfl
  | string t => rfl

/-- C6: `f` is bound to a lambda as `handle_lambda` builds it (through the Lambda
constructor, which leaves the head unset).  Then `(map f L)` fails with
`first argument to map not a procedure`, whatever `L` is and without evaluating
it: `handle_map` compares the head symbol of the bound value with `Lambda`
where `handle_apply` asks `isLambda()`. -/
theorem map_rejects_lambda (hd : Header) (env : Environment) (f : String)
    (me fe L : Expression) (params : List Expression) (body : Expression)
    (hme : me.m_head = .symbol "map") (hmt : me.m_tail = [fe, L])
    (hfe : fe.head = .symbol f)
    (hb : env.is_exp (.symbol f) = true)
    (hlam : env.get_exp (.symbol f) = Expression.ofLambda params body) :
    (env.get_exp (.symbol f)).isLambda = true
    ∧ (∀ (n : Nat) (ev : Ev),
        evalStep hd 0 n ev me env = .error "Error: first argument to map not a procedure" env)
    ∧ ∀ n : Nat,
        eval hd 0 (n + 1) me env = .error "Error: first argument to map not a procedure" env := by
  have hstep : ∀ (n : Nat) (ev : Ev),
      evalStep hd 0 n ev me env = .error "Error: first argument to map not a procedure" env := by
    intro n ev
    rw [evalStep_map hd n ev me env hme (by rw [hmt]; simp)]
    unfold handle_map
    rw [hmt]
    have hp := Environment.is_proc_of_is_exp env _ hb
    have hhead : ((Expression.ofLambda params body).head.asSymbol = "Lambda") = False := by
      simp [Expression.ofLambda, Expression.head, Expression.m_head, Atom.asSymbol]
    simp only [hfe, hlam, hp, hhead]
    simp
  refine ⟨by rw [hlam]; rfl, hstep, fun n => hstep n _⟩

theorem map_rejects_lambda_witness :
    Sample.env.is_exp (.symbol "f") = true
    ∧ Sample.env.get_exp (.symbol "f") = Expression.ofLambda [Sample.sym "x"] (Sample.sym "x")
    ∧ eval Sample.header 0 3
        (Sample.form "map" [Sample.sym "f", Sample.form "list" [Sample.num 1]]) Sample.env
        = .error "Error: first argument to map not a procedure" Sample.env
    ∧ eval Sample.header 0 3
        (Sample.form "apply" [Sample.sym "f", Sample.form "list" [Sample.num 1]]) Sample.env
        = .ok (Sample.num 1) Sample.env :=
  ⟨rfl, rfl,
    (map_rejects_lambda Sample.header Sample.env "f"
      (Sample.form "map" [Sample.sym "f", Sample.form "list" [Sample.num 1]])
      (Sample.sym "f") (Sample.form "list" [Sample.num 1]) [Sample.sym "x"] (Sample.sym "x")
      rfl rfl rfl rfl rfl).2.2 2,
    rfl⟩

/-! ## Properties -/

theorem eval_literal (hd : Header) (n : Nat) (ve : Expression) (env : Environment)
    (hvt : ve.m_tail = [])
    (hlit : ve.m_head.isNumber = true ∨ ve.m_head.isComplex = true
      ∨ ve.m_head.isString = true) :
    eval hd 0 (n + 1) ve env = .ok (Expression.ofAtom ve.m_head) env := by
  show evalStep hd 0 n (eval hd 0 n) ve env = _
  have hs : ve.m_head.asSymbol ≠ "list" := by
    cases hh : ve.m_head <;> simp [hh, Atom.isNumber, Atom.isComplex, Atom.isString] at hlit
      <;> simp [Atom.asSymbol]
  rw [evalStep_lookup hd n _ ve env hs hvt]
  unfold handle_lookup
  cases hh : ve.m_head <;> simp [hh, Atom.isNumber, Atom.isComplex, Atom.isString] at hlit
    <;> simp [Atom.isSymbol, Atom.isNumber, Atom.isComplex, Atom.isString]

theorem eval_bound_symbol (hd : Header) (n : Nat) (ye : Expression) (env : Environment)
    (y : String) (hye : ye.m_head = .symbol y) (hyt : ye.m_tail = [])
    (hb : env.is_exp (.symbol y) = true) :
    ∃ tv, eval hd 0 (n + 1) ye env = .ok tv env
      ∧ (y ≠ "list" → tv = env.get_exp (.symbol y)) := by
  by_cases hy : y = "list"
  · refine ⟨Expression.ofItems [], ?_, fun h => absurd hy h⟩
    show evalStep hd 0 n (eval hd 0 n) ye env = _
    rw [evalStep_list hd n _ ye env (by rw [hye, hy])]
    unfold handle_list
    rw [hyt]
    rfl
  · refine ⟨env.get_exp (.symbol y), ?_, fun _ => rfl⟩
    show evalStep hd 0 n (eval hd 0 n) ye env = _
    rw [evalStep_lookup hd n _ ye env (by rw [hye]; exact hy) hyt, hye]
    simp [handle_lookup, Atom.isSymbol, hb]

theorem Expression.findProperty_assignProperty (e : Expression) (k : String)
    (v : Expression) : (e.assignProperty k v).findProperty k = some v := by
  simp [Expression.assignProperty, Expression.findProperty, Expression.m_properties,
    List.lookup]

/-- C7: `y` is bound to `V` in `env`, `k` is a string key and `v` a literal
(number, complex or string).  Evaluating `(set-property k v y)` returns a
value that carries `v` under `k` and leaves the environment exactly as it was:
`env` comes back, so the lookup of `y` still yields `V` itself, with the head,
tail, kind and property map it had. -/
theorem set_property_keeps_binding (hd : Header) (env : Environment) (y k : String)
    (sp ke ve ye V : Expression) (n : Nat)
    (hsp : sp.m_head = .symbol "set-property") (hspt : sp.m_tail = [ke, ve, ye])
    (hke : ke.head = .string k)
    (hvt : ve.m_tail = [])
    (hlit : ve.m_head.isNumber = true ∨ ve.m_head.isComplex = true
      ∨ ve.m_head.isString = true)
    (hye : ye.m_head = .symbol y) (hyt : ye.m_tail = [])
    (hb : env.is_exp (.symbol y) = true) (hV : env.get_exp (.symbol y) = V) :
    (∃ r, eval hd 0 (n + 2) sp env = .ok r env
        ∧ r.findProperty k = some (Expression.ofAtom ve.m_head))
    ∧ handle_lookup (.symbol y) env = .ok V env
    ∧ (y ≠ "list" → ∀ m, eval hd 0 (m + 1) ye env = .ok V env) := by
  obtain ⟨tv, htv, htvV⟩ := eval_bound_symbol hd n ye env y hye hyt hb
  refine ⟨?_, by simp [handle_lookup, Atom.isSymbol, hb, hV], fun hy m => ?_⟩
  · refine ⟨((if (tv.findProperty k).isSome then tv.eraseProperty k else tv).assignProperty k
      (Expression.ofAtom ve.m_head)), ?_, Expression.findProperty_assignProperty _ _ _⟩
    show evalStep hd 0 (n + 1) (eval hd 0 (n + 1)) sp env = _
    rw [evalStep_set_property hd (n + 1) _ sp env hsp (by rw [hspt]; simp)]
    unfold handle_set_property
    rw [hspt]
    simp only [hke, Atom.isString, if_true, htv, Outcome.bind, eval_literal hd n ve env hvt hlit,
      Atom.asString]
  · obtain ⟨tv', h1, h2⟩ := eval_bound_symbol hd m ye env y hye hyt hb
    rw [h1, h2 hy, hV]

theorem set_property_keeps_binding_witness :
    Sample.env.is_exp (.symbol "y") = true
    ∧ Sample.env.get_exp (.symbol "y") = Sample.num 7
    ∧ (∃ r, eval Sample.header 0 2
          (Sample.form "set-property" [Sample.str "\"k\"", Sample.num 1, Sample.sym "y"])
          Sample.env = .ok r Sample.env
        ∧ r.findProperty "\"k\"" = some (Sample.num 1))
    ∧ eval Sample.header 0 1 (Sample.sym "y") Sample.env = .ok (Sample.num 7) Sample.env :=
  have h := set_property_keeps_binding Sample.header Sample.env "y" "\"k\""
    (Sample.form "set-property" [Sample.str "\"k\"", Sample.num 1, Sample.sym "y"])
    (Sample.str "\"k\"") (Sample.num 1) (Sample.sym "y") (Sample.num 7) 0
    rfl rfl rfl rfl (Or.inl rfl) rfl rfl rfl rfl
  ⟨rfl, rfl, h.1, h.2.2 (by decide) 0⟩

/-- C8: `t` evaluates to `tv` and then, in the environment that leaves, `v`
evaluates to `vv` (the order in which `set-property` evaluates them).  Then
`(get-property k (set-property k v t))` returns `vv`, whatever `tv` carried
under the key `k` before. -/
theorem get_property_of_set_property (hd : Header) (env env1 env2 : Environment)
    (k : String) (gp ke sp ke2 v t tv vv : Expression) (n1 n2 : Nat)
    (hgp : gp.m_head = .symbol "get-property") (hgpt : gp.m_tail = [ke, sp])
    (hke : ke.head = .string k)
    (hsp : sp.m_head = .symbol "set-property") (hspt : sp.m_tail = [ke2, v, t])
    (hke2 : ke2.head = .string k)
    (ht1 : eval hd 0 n1 t env = .ok tv env1) (hv2 : eval hd 0 n2 v env1 = .ok vv env2) :
    eval hd 0 (max n1 n2 + 2) gp env = .ok vv env2 := by
  have ht : eval hd 0 (max n1 n2) t env = .ok tv env1 :=
    eval_mono hd 0 (Nat.le_max_left n1 n2) ht1 (by simp)
  have hv : eval hd 0 (max n1 n2) v env1 = .ok vv env2 :=
    eval_mono hd 0 (Nat.le_max_right n1 n2) hv2 (by simp)
  generalize max n1 n2 = n at ht hv ⊢
  have hset : eval hd 0 (n + 1) sp env
      = .ok ((if (tv.findProperty k).isSome then tv.eraseProperty k else tv).assignProperty k vv)
          env2 := by
    show evalStep hd 0 n (eval hd 0 n) sp env = _
    rw [evalStep_set_property hd n _ sp env hsp (by rw [hspt]; simp)]
    unfold handle_set_property
    rw [hspt]
    simp only [hke2, Atom.isString, if_true, ht, hv, Outcome.bind, Atom.asString]
  show evalStep hd 0 (n + 1) (eval hd 0 (n + 1)) gp env = _
  rw [evalStep_get_property hd (n + 1) _ gp env hgp (by rw [hgpt]; simp)]
  unfold handle_get_property
  rw [hgpt]
  simp only [hset, Outcome.bind, hke, Atom.isString, if_true, Atom.asString,
    Expression.findProperty_assignProperty]

theorem get_property_of_set_property_witness :
    eval Sample.header 0 1 (Sample.sym "y") Sample.env = .ok (Sample.num 7) Sample.env
    ∧ eval Sample.header 0 1 (Sample.num 3) Sample.env = .ok (Sample.num 3) Sample.env
    ∧ eval Sample.header 0 3
        (Sample.form "get-property" [Sample.str "\"k\"",
          Sample.form "set-property" [Sample.str "\"k\"", Sample.num 3, Sample.sym "y"]])
        Sample.env = .ok (Sample.num 3) Sample.env :=
  ⟨rfl, rfl,
    get_property_of_set_property Sample.header Sample.env Sample.env Sample.env "\"k\""
      (Sample.form "get-property" [Sample.str "\"k\"",
        Sample.form "set-property" [Sample.str "\"k\"", Sample.num 3, Sample.sym "y"]])
      (Sample.str "\"k\"")
      (Sample.form "set-property" [Sample.str "\"k\"", Sample.num 3, Sample.sym "y"])
      (Sample.str "\"k\"") (Sample.num 3) (Sample.sym "y") (Sample.num 7) (Sample.num 3) 1 1
      rfl rfl rfl rfl rfl rfl rfl rfl⟩

/-- C9: `t` evaluates to a value `tv` that has no property under the string key
`k`.  Then `(get-property k t)` does not fail: it returns the default
expression, which is of kind Empty and has no tail and no properties. -/
theorem get_property_absent (hd : Header) (env env1 : Environment) (k : String)
    (gp ke t tv : Expression) (n : Nat)
    (hgp : gp.m_head = .symbol "get-property") (hgpt : gp.m_tail = [ke, t])
    (hke : ke.head = .string k)
    (ht : eval hd 0 n t env = .ok tv env1) (habs : tv.findProperty k = none) :
    eval hd 0 (n + 1) gp env = .ok Expression.empty env1
    ∧ Expression.empty.isEmpty = true ∧ Expression.empty.m_tail = []
    ∧ Expression.empty.m_properties = [] := by
  refine ⟨?_, rfl, rfl, rfl⟩
  show evalStep hd 0 n (eval hd 0 n) gp env = _
  rw [evalStep_get_property hd n _ gp env hgp (by rw [hgpt]; simp)]
  unfold handle_get_property
  rw [hgpt]
  simp only [ht, Outcome.bind, hke, Atom.isString, if_true, Atom.asString, habs]

theorem get_property_absent_witness :
    eval Sample.header 0 1 (Sample.sym "y") Sample.env = .ok (Sample.num 7) Sample.env
    ∧ (Sample.num 7).findProperty "\"k\"" = none
    ∧ eval Sample.header 0 2 (Sample.form "get-property" [Sample.str "\"k\"", Sample.sym "y"])
        Sample.env = .ok Expression.empty Sample.env :=
  ⟨rfl, rfl,
    (get_property_absent Sample.header Sample.env Sample.env "\"k\""
      (Sample.form "get-property" [Sample.str "\"k\"", Sample.sym "y"])
      (Sample.str "\"k\"") (Sample.sym "y") (Sample.num 7) 1 rfl rfl rfl rfl rfl).1⟩

/-! ## Interrupt -/

/-- C10: when the interrupt flag is not zero, `eval` fails with the
interpreter-interrupted error for every expression and every environment, and
the environment is left as it was; no sub-expression is evaluated: the outcome
is the same whatever evaluator is handed in for the sub-expressions, and is
reached with one level of fuel. -/
theorem eval_interrupted (hd : Header) (flag : Nat) (e : Expression) (env : Environment)
    (hflag : flag ≠ 0) :
    (∀ (n : Nat) (ev : Ev),
      evalStep hd flag n ev e env = .error "Error: interpreter kernal interupted" env)
    ∧ ∀ n : Nat,
      eval hd flag (n + 1) e env = .error "Error: interpreter kernal interupted" env :=
  ⟨fun n ev => evalStep_interrupted hd flag n ev e env hflag,
    fun n => evalStep_interrupted hd flag n _ e env hflag⟩

theorem eval_interrupted_witness :
    (1 : Nat) ≠ 0
    ∧ eval Sample.header 0 2 (Sample.form "define" [Sample.sym "x", Sample.num 1]) Sample.env
        = .ok (Sample.num 1) (Sample.env.add_exp (.symbol "x") (Sample.num 1))
    ∧ eval Sample.header 1 2 (Sample.form "define" [Sample.sym "x", Sample.num 1]) Sample.env
        = .error "Error: interpreter kernal interupted" Sample.env :=
  ⟨by decide, rfl,
    (eval_interrupted Sample.header 1 (Sample.form "define" [Sample.sym "x", Sample.num 1])
      Sample.env (by decide)).2 1⟩

/-! ## Equality of expressions -/

theorem Expression.operatorEqLoop_nil_left (r : List Expression) :
    Expression.operatorEqLoop [] r = true := by
  unfold Expression.operatorEqLoop
  rfl

theorem Expression.operatorEqLoop_nil_right (l : List Expression) :
    Expression.operatorEqLoop l [] = true := by
  cases l with
  | nil => exact Expression.operatorEqLoop_nil_left []
  | cons a l => unfold Expression.operatorEqLoop; rfl

theorem Expression.operatorEqLoop_cons (a b : Expression) (l r : List Expression) :
    Expression.operatorEqLoop (a :: l) (b :: r)
      = (Expression.operatorEq a b && Expression.operatorEqLoop l r) := by
  rw [Expression.operatorEqLoop]

theorem Expression.operatorEq_mk (h1 h2 : Atom) (t1 t2 : List Expression) (k1 k2 : ExpType)
    (p1 p2 : List (String × Expression)) :
    Expression.operatorEq (.mk h1 t1 k1 p1) (.mk h2 t2 k2 p2)
      = if h1 = h2 ∧ t1.length = t2.length then Expression.operatorEqLoop t1 t2 else false := by
  rw [Expression.operatorEq]

mutual
theorem Expression.operatorEq_self : ∀ a : Expression, a.operatorEq a = true
  | .mk h t k p => by
    rw [Expression.operatorEq_mk, if_pos ⟨rfl, rfl⟩]
    exact Expression.operatorEqLoop_self t
theorem Expression.operatorEqLoop_self :
    ∀ l : List Expression, Expression.operatorEqLoop l l = true
  | [] => Expression.operatorEqLoop_nil_left []
  | a :: l => by
    rw [Expression.operatorEqLoop_cons, Expression.operatorEq_self a,
      Expression.operatorEqLoop_self l]
    rfl
end

theorem Expression.operatorEqLoop_eq_false_iff (l : List Expression) :
    ∀ r : List Expression, Expression.operatorEqLoop l r = false ↔
      ∃ (i : Nat) (x y : Expression),
        l[i]? = some x ∧ r[i]? = some y ∧ x.operatorEq y = false := by
  induction l with
  | nil =>
    intro r
    rw [Expression.operatorEqLoop_nil_left]
    constructor
    · intro h; cases h
    · rintro ⟨i, x, y, hx, _, _⟩; simp at hx
  | cons a l ih =>
    intro r
    cases r with
    | nil =>
      rw [Expression.operatorEqLoop_nil_right]
      constructor
      · intro h; cases h
      · rintro ⟨i, x, y, _, hy, _⟩; simp at hy
    | cons b r =>
      rw [Expression.operatorEqLoop_cons, Bool.and_eq_false_iff, ih r]
      constructor
      · rintro (h | ⟨i, x, y, hx, hy, hxy⟩)
        · exact ⟨0, a, b, by simp, by simp, h⟩
        · exact ⟨i + 1, x, y, by simpa using hx, by simpa using hy, hxy⟩
      · rintro ⟨i, x, y, hx, hy, hxy⟩
        cases i with
        | zero =>
          simp only [List.getElem?_cons_zero, Option.some.injEq] at hx hy
          subst hx; subst hy
          exact Or.inl hxy
        | succ i =>
          rw [List.getElem?_cons_succ] at hx hy
          exact Or.inr ⟨i, x, y, hx, hy, hxy⟩

/-- C11: expression equality is structural.  `a == a` for every expression; `a != b`
holds exactly when the heads differ, or the tails differ in length, or the
children at some position differ (`!=` again); and neither the kind tag nor
the property map of either side plays a part. -/
theorem expression_equality_structural :
    (∀ a : Expression, a.operatorEq a = true)
    ∧ (∀ a b : Expression, a.operatorNe b = true ↔
        (a.m_head ≠ b.m_head ∨ a.m_tail.length ≠ b.m_tail.length
          ∨ ∃ (i : Nat) (x y : Expression),
              a.m_tail[i]? = some x ∧ b.m_tail[i]? = some y ∧ x.operatorNe y = true))
    ∧ (∀ (h : Atom) (t : List Expression) (k k' : ExpType)
        (p p' : List (String × Expression)) (b : Expression),
        Expression.operatorEq (.mk h t k p) b = Expression.operatorEq (.mk h t k' p') b
        ∧ Expression.operatorEq b (.mk h t k p) = Expression.operatorEq b (.mk h t k' p')) := by
  refine ⟨Expression.operatorEq_self, fun a b => ?_, fun h t k k' p p' b => ?_⟩
  · obtain ⟨h1, t1, k1, p1⟩ := a
    obtain ⟨h2, t2, k2, p2⟩ := b
    simp only [Expression.operatorNe, Bool.not_eq_true', Expression.m_head, Expression.m_tail]
    rw [Expression.operatorEq_mk]
    by_cases hh : h1 = h2
    · by_cases hl : t1.length = t2.length
      · rw [if_pos ⟨hh, hl⟩, Expression.operatorEqLoop_eq_false_iff]
        constructor
        · intro hex; exact Or.inr (Or.inr hex)
        · rintro (h | h | h)
          · exact absurd hh h
          · exact absurd hl h
          · exact h
      · rw [if_neg (fun h => hl h.2)]
        exact ⟨fun _ => Or.inr (Or.inl hl), fun _ => rfl⟩
    · rw [if_neg (fun h => hh h.1)]
      exact ⟨fun _ => Or.inl hh, fun _ => rfl⟩
  · obtain ⟨h2, t2, k2, p2⟩ := b
    exact ⟨by rw [Expression.operatorEq_mk, Expression.operatorEq_mk],
      by rw [Expression.operatorEq_mk, Expression.operatorEq_mk]⟩

/-! ## list, lookup, begin, lambda -/

theorem evalItems_cons (ev : Ev) (e : Expression) (es : List Expression) (env : Environment) :
    evalItems ev (e :: es) env
      = (ev e env).bind fun v env1 =>
          (evalItems ev es env1).bind fun vs env2 => .ok (v :: vs) env2 := rfl

theorem evalItems_ok_iff (ev : Ev) (es : List Expression) :
    ∀ (env env' : Environment) (vs : List Expression),
      evalItems ev es env = .ok vs env' ↔ Threaded ev es env vs env' := by
  induction es with
  | nil =>
    intro env env' vs
    simp only [evalItems, Outcome.ok.injEq]
    constructor
    · rintro ⟨h1, h2⟩; subst h1; subst h2; exact Threaded.nil env
    · intro h; cases h; exact ⟨rfl, rfl⟩
  | cons e es ih =>
    intro env env' vs
    unfold evalItems
    constructor
    · intro h
      cases h1 : ev e env with
      | ok v envA =>
        rw [h1] at h
        simp only [Outcome.bind] at h
        cases h2 : evalItems ev es envA with
        | ok ws envB =>
          rw [h2] at h
          simp only [Outcome.ok.injEq] at h
          obtain ⟨hv, henv⟩ := h
          subst hv; subst henv
          exact Threaded.cons h1 ((ih envA envB ws).1 h2)
        | error m envB => rw [h2] at h; cases h
        | crash => rw [h2] at h; cases h
        | timeout => rw [h2] at h; cases h
      | error m envA => rw [h1] at h; cases h
      | crash => rw [h1] at h; cases h
      | timeout => rw [h1] at h; cases h
    · intro h
      cases h with
      | cons h1 h2 =>
        rw [h1]
        simp only [Outcome.bind]
        rw [(ih _ _ _).2 h2]

theorem Threaded.length_eq {ev : Ev} {es vs : List Expression} {env env' : Environment}
    (h : Threaded ev es env vs env') : vs.length = es.length := by
  induction h with
  | nil env => rfl
  | cons _ _ ih => simp [ih]

theorem evalItems_error_at (ev : Ev) (pre : List Expression) :
    ∀ (env env1 env2 : Environment) (vs : List Expression) (x : Expression)
      (post : List Expression) (what : String),
      Threaded ev pre env vs env1 → ev x env1 = .error what env2 →
      evalItems ev (pre ++ x :: post) env = .error what env2 := by
  induction pre with
  | nil =>
    intro env env1 env2 vs x post what h hx
    cases h
    simp only [List.nil_append, evalItems, hx, Outcome.bind]
  | cons e es ih =>
    intro env env1 env2 vs x post what h hx
    cases h with
    | cons h1 h2 =>
      rw [List.cons_append, evalItems_cons, h1]
      simp only [Outcome.bind]
      rw [ih _ _ _ _ x post what h2 hx]

theorem beginLoop_eq (ev : Ev) (es : List Expression) :
    ∀ (result : Expression) (env : Environment),
      beginLoop ev es result env
        = (evalItems ev es env).bind fun vs env' => .ok (vs.getLast?.getD result) env' := by
  induction es with
  | nil => intro result env; rfl
  | cons e es ih =>
    intro result env
    unfold beginLoop evalItems
    cases h1 : ev e env with
    | ok v envA =>
      simp only [Outcome.bind]
      rw [ih v envA]
      cases h2 : evalItems ev es envA with
      | ok ws envB =>
        simp only [Outcome.bind]
        cases ws with
        | nil => rfl
        | cons w ws => simp [List.getLast?_cons]
      | error m envB => rfl
      | crash => rfl
      | timeout => rfl
    | error m envA => rfl
    | crash => rfl
    | timeout => rfl

theorem evalStep_begin (hd : Header) (n : Nat) (ev : Ev) (e : Expression) (env : Environment)
    (hh : e.m_head = .symbol "begin") (ht : e.m_tail ≠ []) :
    evalStep hd 0 n ev e env = handle_begin ev e env := by
  unfold evalStep
  simp [hh, Atom.asSymbol, isEmpty_eq_false_of_ne_nil ht]

theorem evalStep_lambda (hd : Header) (n : Nat) (ev : Ev) (e : Expression) (env : Environment)
    (hh : e.m_head = .symbol "lambda") (ht : e.m_tail ≠ []) :
    evalStep hd 0 n ev e env = handle_lambda e env := by
  unfold evalStep
  simp [hh, Atom.asSymbol, isEmpty_eq_false_of_ne_nil ht]

/-- C12: for an expression whose head is the symbol `list`, with any tail (the
empty one too: it goes to the list handler, not to the lookup): when the
children evaluate from left to right, each in the environment the previous
one left, to `vs`, `eval` returns the List-kind expression whose children are
exactly `vs` (as many as the tail has), with the environment the last child
left, and every returned value arises so; when a child fails after its
predecessors have evaluated, the whole evaluation fails with that error. -/
theorem list_form_evaluates (hd : Header) (env : Environment) (e : Expression)
    (he : e.m_head = .symbol "list") :
    (∀ (n : Nat) (vs : List Expression) (env' : Environment),
      Threaded (eval hd 0 n) e.m_tail env vs env' →
      eval hd 0 (n + 1) e env = .ok (Expression.ofItems vs) env'
      ∧ (Expression.ofItems vs).isList = true ∧ (Expression.ofItems vs).m_tail = vs
      ∧ vs.length = e.m_tail.length)
    ∧ (∀ (n : Nat) (r : Expression) (env' : Environment),
      eval hd 0 (n + 1) e env = .ok r env' →
      ∃ vs, Threaded (eval hd 0 n) e.m_tail env vs env' ∧ r = Expression.ofItems vs)
    ∧ (∀ (n : Nat) (pre post vs : List Expression) (x : Expression) (env1 env2 : Environment)
        (what : String),
      e.m_tail = pre ++ x :: post → Threaded (eval hd 0 n) pre env vs env1 →
      eval hd 0 n x env1 = .error what env2 →
      eval hd 0 (n + 1) e env = .error what env2)
    ∧ (e.m_tail = [] → eval hd 0 1 e env = .ok (Expression.ofItems []) env) := by
  have hstep : ∀ n, eval hd 0 (n + 1) e env
      = (evalItems (eval hd 0 n) e.m_tail env).bind fun listItems env1 =>
          .ok (Expression.ofItems listItems) env1 := by
    intro n
    show evalStep hd 0 n (eval hd 0 n) e env = _
    rw [evalStep_list hd n _ e env he]
    rfl
  refine ⟨fun n vs env' h => ⟨?_, rfl, rfl, h.length_eq⟩, fun n r env' h => ?_,
    fun n pre post vs x env1 env2 what ht hpre hx => ?_, fun ht => ?_⟩
  · rw [hstep, (evalItems_ok_iff _ _ _ _ _).2 h]; rfl
  · rw [hstep] at h
    cases hi : evalItems (eval hd 0 n) e.m_tail env with
    | ok vs envA =>
      rw [hi] at h
      simp only [Outcome.bind, Outcome.ok.injEq] at h
      obtain ⟨hr, henv⟩ := h
      subst henv
      exact ⟨vs, (evalItems_ok_iff _ _ _ _ _).1 hi, hr.symm⟩
    | error m envA => rw [hi] at h; cases h
    | crash => rw [hi] at h; cases h
    | timeout => rw [hi] at h; cases h
  · rw [hstep, ht, evalItems_error_at _ pre env env1 env2 vs x post what hpre hx]; rfl
  · rw [hstep, ht]; rfl

theorem list_form_evaluates_witness :
    (Sample.form "list" [Sample.form "define" [Sample.sym "z", Sample.num 1],
        Sample.sym "z"]).m_head = .symbol "list"
    ∧ Threaded (eval Sample.header 0 2)
        [Sample.form "define" [Sample.sym "z", Sample.num 1], Sample.sym "z"] Sample.env
        [Sample.num 1, Sample.num 1] (Sample.env.add_exp (.symbol "z") (Sample.num 1))
    ∧ eval Sample.header 0 3
        (Sample.form "list" [Sample.form "define" [Sample.sym "z", Sample.num 1],
          Sample.sym "z"]) Sample.env
        = .ok (Expression.ofItems [Sample.num 1, Sample.num 1])
            (Sample.env.add_exp (.symbol "z") (Sample.num 1)) :=
  ⟨rfl, Threaded.cons rfl (Threaded.cons rfl (Threaded.nil _)),
    ((list_form_evaluates Sample.header Sample.env
      (Sample.form "list" [Sample.form "define" [Sample.sym "z", Sample.num 1],
        Sample.sym "z"]) rfl).1 2 [Sample.num 1, Sample.num 1]
      (Sample.env.add_exp (.symbol "z") (Sample.num 1))
      (Threaded.cons rfl (Threaded.cons rfl (Threaded.nil _)))).1⟩

/-- C13: for a tail-less expression whose head is not the symbol `list`: a number,
complex or string head evaluates to the expression wrapping that atom; a
symbol bound to a value evaluates to the bound value; a symbol that is not
bound to a value fails with the unknown-symbol error; the none atom fails with
the invalid-type-in-terminal-expression error.  The environment is unchanged
in every case. -/
theorem terminal_expression_lookup (hd : Header) (env : Environment) (e : Expression)
    (n : Nat) (ht : e.m_tail = []) (hl : e.m_head ≠ .symbol "list") :
    (e.m_head.isNumber = true ∨ e.m_head.isComplex = true ∨ e.m_head.isString = true →
      eval hd 0 (n + 1) e env = .ok (Expression.ofAtom e.m_head) env)
    ∧ (∀ s : String, e.m_head = .symbol s → env.is_exp (.symbol s) = true →
      eval hd 0 (n + 1) e env = .ok (env.get_exp (.symbol s)) env)
    ∧ (∀ s : String, e.m_head = .symbol s → env.is_exp (.symbol s) = false →
      eval hd 0 (n + 1) e env
        = .error ("Error during handle lookup: unknown symbol " ++ s) env)
    ∧ (e.m_head = .none →
      eval hd 0 (n + 1) e env
        = .error "Error during handle lookup: Invalid type in terminal expression" env) := by
  have hs : e.m_head.asSymbol ≠ "list" := by
    intro h
    cases hh : e.m_head with
    | symbol s => rw [hh] at h hl; exact hl (by rw [show s = "list" from h])
    | none => rw [hh] at h; simp [Atom.asSymbol] at h
    | number q => rw [hh] at h; simp [Atom.asSymbol] at h
    | complex re im => rw [hh] at h; simp [Atom.asSymbol] at h
    | string t => rw [hh] at h; simp [Atom.asSymbol] at h
  have hstep : eval hd 0 (n + 1) e env = handle_lookup e.m_head env := by
    show evalStep hd 0 n (eval hd 0 n) e env = _
    exact evalStep_lookup hd n _ e env hs ht
  refine ⟨fun hlit => eval_literal hd n e env ht hlit, fun s h1 h2 => ?_,
    fun s h1 h2 => ?_, fun h1 => ?_⟩
  · rw [hstep, h1]; simp [handle_lookup, Atom.isSymbol, h2]
  · rw [hstep, h1]; simp [handle_lookup, Atom.isSymbol, h2, Atom.asSymbol]
  · rw [hstep, h1]
    simp [handle_lookup, Atom.isSymbol, Atom.isNumber, Atom.isComplex, Atom.isString]

theorem terminal_expression_lookup_witness :
    (Sample.sym "y").m_tail = [] ∧ (Sample.sym "y").m_head ≠ .symbol "list"
    ∧ Sample.env.is_exp (.symbol "y") = true
    ∧ eval Sample.header 0 1 (Sample.sym "y") Sample.env = .ok (Sample.num 7) Sample.env :=
  ⟨rfl, by decide, rfl,
    (terminal_expression_lookup Sample.header Sample.env (Sample.sym "y") 0 rfl
      (by decide)).2.1 "y" rfl rfl⟩

/-- C14: for a `begin` form with a non-empty tail: when the children evaluate in
order, each in the environment the previous one left, to `vs`, `eval` returns
the last of `vs` with the environment the last child left, and every returned
value arises so; when a child fails after its predecessors have evaluated, the
whole `begin` fails with that error. -/
theorem begin_form_evaluates (hd : Header) (env : Environment) (e : Expression)
    (he : e.m_head = .symbol "begin") (hne : e.m_tail ≠ []) :
    (∀ (n : Nat) (vs : List Expression) (env' : Environment),
      Threaded (eval hd 0 n) e.m_tail env vs env' →
      ∃ last, vs.getLast? = some last ∧ eval hd 0 (n + 1) e env = .ok last env')
    ∧ (∀ (n : Nat) (r : Expression) (env' : Environment),
      eval hd 0 (n + 1) e env = .ok r env' →
      ∃ vs, Threaded (eval hd 0 n) e.m_tail env vs env' ∧ vs.getLast? = some r)
    ∧ (∀ (n : Nat) (pre post vs : List Expression) (x : Expression) (env1 env2 : Environment)
        (what : String),
      e.m_tail = pre ++ x :: post → Threaded (eval hd 0 n) pre env vs env1 →
      eval hd 0 n x env1 = .error what env2 →
      eval hd 0 (n + 1) e env = .error what env2) := by
  have hstep : ∀ n, eval hd 0 (n + 1) e env
      = (evalItems (eval hd 0 n) e.m_tail env).bind fun vs env' =>
          .ok (vs.getLast?.getD Expression.empty) env' := by
    intro n
    show evalStep hd 0 n (eval hd 0 n) e env = _
    rw [evalStep_begin hd n _ e env he hne]
    exact beginLoop_eq _ _ _ _
  have hlast : ∀ {ev : Ev} {vs : List Expression} {env' : Environment},
      Threaded ev e.m_tail env vs env' → ∃ last, vs.getLast? = some last := by
    intro ev vs env' h
    have hlen := h.length_eq
    cases vs with
    | nil =>
      have : e.m_tail = [] := List.length_eq_zero.1 (by rw [← hlen]; rfl)
      exact absurd this hne
    | cons w ws => exact ⟨_, List.getLast?_cons⟩
  refine ⟨fun n vs env' h => ?_, fun n r env' h => ?_,
    fun n pre post vs x env1 env2 what ht hpre hx => ?_⟩
  · obtain ⟨last, hl⟩ := hlast h
    refine ⟨last, hl, ?_⟩
    rw [hstep, (evalItems_ok_iff _ _ _ _ _).2 h]
    simp [Outcome.bind, hl]
  · rw [hstep] at h
    cases hi : evalItems (eval hd 0 n) e.m_tail env with
    | ok vs envA =>
      rw [hi] at h
      simp only [Outcome.bind, Outcome.ok.injEq] at h
      obtain ⟨hr, henv⟩ := h
      subst henv
      have hth := (evalItems_ok_iff _ _ _ _ _).1 hi
      obtain ⟨last, hl⟩ := hlast hth
      refine ⟨vs, hth, ?_⟩
      rw [hl] at hr ⊢
      simpa using hr
    | error m envA => rw [hi] at h; cases h
    | crash => rw [hi] at h; cases h
    | timeout => rw [hi] at h; cases h
  · rw [hstep, ht, evalItems_error_at _ pre env env1 env2 vs x post what hpre hx]; rfl

theorem begin_form_evaluates_witness :
    (Sample.form "begin" [Sample.form "define" [Sample.sym "z", Sample.num 1],
        Sample.sym "z"]).m_tail ≠ []
    ∧ Threaded (eval Sample.header 0 2)
        [Sample.form "define" [Sample.sym "z", Sample.num 1], Sample.sym "z"] Sample.env
        [Sample.num 1, Sample.num 1] (Sample.env.add_exp (.symbol "z") (Sample.num 1))
    ∧ ∃ last, [Sample.num 1, Sample.num 1].getLast? = some last
      ∧ eval Sample.header 0 3
          (Sample.form "begin" [Sample.form "define" [Sample.sym "z", Sample.num 1],
            Sample.sym "z"]) Sample.env
          = .ok last (Sample.env.add_exp (.symbol "z") (Sample.num 1)) :=
  ⟨by simp [Sample.form, Expression.m_tail],
    Threaded.cons rfl (Threaded.cons rfl (Threaded.nil _)),
    (begin_form_evaluates Sample.header Sample.env
      (Sample.form "begin" [Sample.form "define" [Sample.sym "z", Sample.num 1],
        Sample.sym "z"]) rfl (by simp [Sample.form, Expression.m_tail])).1 2
      [Sample.num 1, Sample.num 1] (Sample.env.add_exp (.symbol "z") (Sample.num 1))
      (Threaded.cons rfl (Threaded.cons rfl (Threaded.nil _)))⟩

/-- C15: for a `lambda` form whose tail starts with the parameter list `P` and the
body `B`: `eval` returns a Lambda-kind expression with exactly two children,
the argument template, whose tail is the head of `P` (wrapped) followed by the
children of `P`, and `B` itself; the environment is unchanged and `B` is not
evaluated: the outcome is the same whatever evaluator is handed in for the
sub-expressions. -/
theorem lambda_form_builds (hd : Header) (env : Environment) (e P B : Expression)
    (rest : List Expression) (he : e.m_head = .symbol "lambda")
    (ht : e.m_tail = P :: B :: rest) :
    (∀ (n : Nat) (ev : Ev),
      evalStep hd 0 n ev e env
        = .ok (Expression.ofLambda (Expression.ofAtom P.head :: P.m_tail) B) env)
    ∧ (∀ n : Nat,
      eval hd 0 (n + 1) e env
        = .ok (Expression.ofLambda (Expression.ofAtom P.head :: P.m_tail) B) env)
    ∧ (Expression.ofLambda (Expression.ofAtom P.head :: P.m_tail) B).isLambda = true
    ∧ (Expression.ofLambda (Expression.ofAtom P.head :: P.m_tail) B).m_tail
        = [Expression.ofItems (Expression.ofAtom P.head :: P.m_tail), B]
    ∧ (Expression.ofItems (Expression.ofAtom P.head :: P.m_tail)).m_tail
        = Expression.ofAtom P.head :: P.m_tail := by
  have hstep : ∀ (n : Nat) (ev : Ev),
      evalStep hd 0 n ev e env
        = .ok (Expression.ofLambda (Expression.ofAtom P.head :: P.m_tail) B) env := by
    intro n ev
    rw [evalStep_lambda hd n ev e env he (by rw [ht]; simp)]
    unfold handle_lambda
    rw [ht]
  exact ⟨hstep, fun n => hstep n _, rfl, rfl, rfl⟩

theorem lambda_form_builds_witness :
    (Sample.form "lambda" [Sample.form "x" [Sample.sym "y"], Sample.sym "x"]).m_head
        = .symbol "lambda"
    ∧ eval Sample.header 0 1
        (Sample.form "lambda" [Sample.form "x" [Sample.sym "y"], Sample.sym "x"]) Sample.env
        = .ok (Expression.ofLambda [Sample.sym "x", Sample.sym "y"] (Sample.sym "x"))
            Sample.env :=
  ⟨rfl,
    (lambda_form_builds Sample.header Sample.env
      (Sample.form "lambda" [Sample.form "x" [Sample.sym "y"], Sample.sym "x"])
      (Sample.form "x" [Sample.sym "y"]) (Sample.sym "x") [] rfl rfl).2.1 0⟩

/-! ## The plot forms -/

theorem Outcome.bind_ne_ok {α β : Type} {r : Outcome α} (k : α → Environment → Outcome β)
    (h : ∀ v env, r ≠ .ok v env) : ∀ w env', r.bind k ≠ .ok w env' := by
  intro w env'
  cases r with
  | ok v env => exact absurd rfl (h v env)
  | error m env => simp [Outcome.bind]
  | crash => simp [Outcome.bind]
  | timeout => simp [Outcome.bind]

theorem apply_none (ev : Ev) (args : List Expression) (env : Environment) :
    apply ev .none args env = .error notSymbolError env := by
  unfold apply
  simp [Environment.get_exp, Expression.isLambda, Expression.empty, Expression.m_type,
    Atom.isSymbol, Atom.asString, notSymbolError]

theorem evalStep_discrete_plot (hd : Header) (n : Nat) (ev : Ev) (e : Expression)
    (env : Environment) (hh : e.m_head = .symbol "discrete-plot") (ht : e.m_tail ≠ []) :
    evalStep hd 0 n ev e env = handle_discrete_plot hd ev e env := by
  unfold evalStep
  simp [hh, Atom.asSymbol, isEmpty_eq_false_of_ne_nil ht]

/-- An expression whose head is the none atom never evaluates to a value. -/
theorem eval_none_head_ne_ok (hd : Header) (flag n : Nat) (x : Expression)
    (env : Environment) (hx : x.m_head = .none) :
    ∀ v env', eval hd flag n x env ≠ .ok v env' := by
  intro v env'
  cases n with
  | zero => simp [eval]
  | succ n =>
    by_cases hflag : flag = 0
    · subst hflag
      show evalStep hd 0 n (eval hd 0 n) x env ≠ _
      by_cases ht : x.m_tail = []
      · rw [evalStep_lookup hd n _ x env (by rw [hx]; simp [Atom.asSymbol]) ht, hx]
        simp [handle_lookup, Atom.isSymbol, Atom.isNumber, Atom.isComplex, Atom.isString]
      · rw [evalStep_generic hd n _ x env (by rw [hx]; simp [Atom.asSymbol, keywords]) ht, hx]
        cases evalItems (eval hd 0 n) x.m_tail env with
        | ok vs env1 => simp [Outcome.bind, apply_none]
        | error m env1 => simp [Outcome.bind]
        | crash => simp [Outcome.bind]
        | timeout => simp [Outcome.bind]
    · show evalStep hd flag n (eval hd flag n) x env ≠ _
      rw [evalStep_interrupted hd flag n _ x env hflag]
      simp

theorem evalItems_ne_ok_of_head (ev : Ev) (x : Expression) (xs : List Expression)
    (env : Environment) (h : ∀ v env', ev x env ≠ .ok v env') :
    ∀ vs env', evalItems ev (x :: xs) env ≠ .ok vs env' := by
  rw [evalItems_cons]
  exact Outcome.bind_ne_ok _ h

theorem boxLines_eq_cons (hd : Header) (xmin xmax ymin ymax AL AU OL OU : ℚ) :
    ∃ rest, boxLines hd xmin xmax ymin ymax AL AU OL OU
      = makeLine hd (makePoint hd xmin ymax) (makePoint hd xmin ymin) :: rest :=
  ⟨_, rfl⟩

/-- A `discrete-plot` form never returns a value, whatever its data and
options and whatever the environment provides: the first border line is an
expression built by the graphics-item constructor, which drops the atom
`make-line` it is given, so its evaluation applies the none atom and throws
`procedure  is not a symbol` (or an argument fails before). -/
theorem discrete_plot_never_succeeds (hd : Header) (flag n : Nat) (e : Expression)
    (env : Environment) (he : e.m_head = .symbol "discrete-plot") (hne : e.m_tail ≠ []) :
    ∀ v env', eval hd flag n e env ≠ .ok v env' := by
  intro v env'
  cases n with
  | zero => simp [eval]
  | succ n =>
    by_cases hflag : flag = 0
    · subst hflag
      show evalStep hd 0 n (eval hd 0 n) e env ≠ _
      rw [evalStep_discrete_plot hd n _ e env he hne]
      unfold handle_discrete_plot
      split
      · rename_i t0 t1 _
        cases h0 : eval hd 0 n t0 env with
        | ok DATA env1 =>
          simp only [Outcome.bind]
          cases h1 : eval hd 0 n t1 env1 with
          | ok OPTIONS env2 =>
            simp only []
            split
            · split
              · simp
              · rename_i b _
                refine Outcome.bind_ne_ok _ ?_ v env'
                obtain ⟨rest, hrest⟩ := boxLines_eq_cons hd (b.xmin * (20 / (b.xmax - b.xmin)))
                  (b.xmax * (20 / (b.xmax - b.xmin))) (b.ymin * (20 / (b.ymax - b.ymin) * -1))
                  (b.ymax * (20 / (b.ymax - b.ymin) * -1)) b.xmin b.xmax b.ymin b.ymax
                rw [hrest, List.cons_append]
                exact evalItems_ne_ok_of_head _ _ _ _
                  (eval_none_head_ne_ok hd 0 n _ env2 rfl)
            · simp
          | error m envB => simp
          | crash => simp
          | timeout => simp
        | error m envA => simp [Outcome.bind]
        | crash => simp [Outcome.bind]
        | timeout => simp [Outcome.bind]
      · simp
    · show evalStep hd flag n (eval hd flag n) e env ≠ _
      rw [evalStep_interrupted hd flag n _ e env hflag]
      simp

theorem discrete_plot_never_succeeds_sample :
    eval Sample.header 0 5 Sample.discretePlot Sample.plotEnv
      = .error notSymbolError Sample.plotEnv := rfl

theorem eval_number (hd : Header) (n : Nat) (q : ℚ) (env : Environment) :
    eval hd 0 (n + 1) (Expression.ofAtom (.number q)) env
      = .ok (Expression.ofAtom (.number q)) env :=
  eval_literal hd n (Expression.ofAtom (.number q)) env rfl (Or.inl rfl)

/-- An expression built by the graphics-item constructor whose children
evaluate applies the none atom, which throws. -/
theorem eval_graphic_error (hd : Header) (n : Nat) (t : Atom) (b : Expression)
    (bs vs : List Expression) (env env1 : Environment)
    (h : evalItems (eval hd 0 n) (b :: bs) env = .ok vs env1) :
    eval hd 0 (n + 1) (Expression.ofGraphic hd t (b :: bs)) env
      = .error notSymbolError env1 := by
  show evalStep hd 0 n (eval hd 0 n) (Expression.ofGraphic hd t (b :: bs)) env = _
  rw [evalStep_generic hd n _ _ env (by simp [Expression.ofGraphic, Expression.m_head,
    Atom.asSymbol, keywords]) (by simp [Expression.ofGraphic, Expression.m_tail])]
  have ht : (Expression.ofGraphic hd t (b :: bs)).m_tail = b :: bs := rfl
  have hh : (Expression.ofGraphic hd t (b :: bs)).m_head = .none := rfl
  rw [ht, hh, h]
  simp only [Outcome.bind, apply_none]

/-- An expression built by the graphics-item constructor whose first child
throws, throws the same. -/
theorem eval_graphic_child_error (hd : Header) (n : Nat) (t : Atom) (b : Expression)
    (bs : List Expression) (env env1 : Environment) (what : String)
    (h : eval hd 0 n b env = .error what env1) :
    eval hd 0 (n + 1) (Expression.ofGraphic hd t (b :: bs)) env = .error what env1 := by
  show evalStep hd 0 n (eval hd 0 n) (Expression.ofGraphic hd t (b :: bs)) env = _
  rw [evalStep_generic hd n _ _ env (by simp [Expression.ofGraphic, Expression.m_head,
    Atom.asSymbol, keywords]) (by simp [Expression.ofGraphic, Expression.m_tail])]
  have ht : (Expression.ofGraphic hd t (b :: bs)).m_tail = b :: bs := rfl
  rw [ht, evalItems_cons, h]
  rfl

theorem eval_makePoint (hd : Header) (n : Nat) (x y : ℚ) (env : Environment) :
    eval hd 0 (n + 2) (makePoint hd x y) env = .error notSymbolError env := by
  unfold makePoint
  apply eval_graphic_error hd (n + 1) _ _ _
    [Expression.ofAtom (.number x), Expression.ofAtom (.number y)]
  rw [evalItems_cons, eval_number, Outcome.bind, evalItems_cons, eval_number]
  rfl

theorem eval_makeLine (hd : Header) (n : Nat) (x y : ℚ) (q : Expression)
    (env : Environment) :
    eval hd 0 (n + 3) (makeLine hd (makePoint hd x y) q) env = .error notSymbolError env := by
  unfold makeLine
  exact eval_graphic_child_error hd (n + 2) _ _ _ env env _ (eval_makePoint hd n x y env)

/-- C16 (the code differs): the two arguments of a `discrete-plot` form evaluate
to the List-kind values `DATA` and `OPTIONS`, and `DATA` holds points of two
children each (the extremes `b` are found).  Then the form does not succeed:
with enough fuel its evaluation is the error `procedure  is not a symbol`,
thrown by the first corner point of the first border line, whatever the
environment provides; and with any fuel and flag it returns no value. -/
theorem discrete_plot_throws (hd : Header) (n : Nat) (e t0 t1 DATA OPTIONS : Expression)
    (env env1 env2 : Environment) (b : Bounds)
    (he : e.m_head = .symbol "discrete-plot") (ht : e.m_tail = [t0, t1])
    (h0 : eval hd 0 (n + 3) t0 env = .ok DATA env1)
    (h1 : eval hd 0 (n + 3) t1 env1 = .ok OPTIONS env2)
    (hD : DATA.isList = true) (hO : OPTIONS.isList = true)
    (hb : dataBounds DATA.m_tail ⟨-999, 999, -999, 999⟩ = some b) :
    (∀ m : Nat, n + 4 ≤ m → eval hd 0 m e env = .error notSymbolError env2)
    ∧ (∀ (flag m : Nat) (v : Expression) (env' : Environment),
        eval hd flag m e env ≠ .ok v env') := by
  have hne : e.m_tail ≠ [] := by rw [ht]; simp
  have hstep : eval hd 0 (n + 4) e env = .error notSymbolError env2 := by
    show evalStep hd 0 (n + 3) (eval hd 0 (n + 3)) e env = _
    rw [evalStep_discrete_plot hd (n + 3) _ e env he hne]
    unfold handle_discrete_plot
    rw [ht]
    simp only [h0, h1, Outcome.bind, hD, hO, Bool.and_self, if_true, hb]
    obtain ⟨rest, hrest⟩ := boxLines_eq_cons hd (b.xmin * (20 / (b.xmax - b.xmin)))
      (b.xmax * (20 / (b.xmax - b.xmin))) (b.ymin * (20 / (b.ymax - b.ymin) * -1))
      (b.ymax * (20 / (b.ymax - b.ymin) * -1)) b.xmin b.xmax b.ymin b.ymax
    rw [hrest, List.cons_append, evalItems_cons, eval_makeLine]
    rfl
  refine ⟨fun m hm => eval_mono hd 0 hm hstep (by simp), fun flag m v env' => ?_⟩
  exact discrete_plot_never_succeeds hd flag m e env he hne v env'

/-- Witness of C16: the spec's example
`(discrete-plot (list (list 0 0) (list 1 1) (list 2 4)) (list))` in an
environment that provides `make-point` and `make-line`: both arguments
evaluate to lists, the extremes are `[0,2] x [0,4]`, and the form throws. -/
theorem discrete_plot_throws_witness :
    Sample.plotEnv.is_proc (.symbol "make-point") = true
    ∧ Sample.plotEnv.is_proc (.symbol "make-line") = true
    ∧ Sample.discretePlot.m_tail
        = [Sample.form "list" [Sample.form "list" [Sample.num 0, Sample.num 0],
            Sample.form "list" [Sample.num 1, Sample.num 1],
            Sample.form "list" [Sample.num 2, Sample.num 4]],
           Sample.form "list" []]
    ∧ dataBounds [.ofItems [Sample.num 0, Sample.num 0], .ofItems [Sample.num 1, Sample.num 1],
          .ofItems [Sample.num 2, Sample.num 4]] ⟨-999, 999, -999, 999⟩
        = some ⟨2, 0, 4, 0⟩
    ∧ (∀ m : Nat, 4 ≤ m →
        eval Sample.header 0 m Sample.discretePlot Sample.plotEnv
          = .error notSymbolError Sample.plotEnv) :=
  ⟨rfl, rfl, rfl, rfl,
    (discrete_plot_throws Sample.header 0 Sample.discretePlot _ _
      (.ofItems [.ofItems [Sample.num 0, Sample.num 0], .ofItems [Sample.num 1, Sample.num 1],
        .ofItems [Sample.num 2, Sample.num 4]])
      (.ofItems []) Sample.plotEnv Sample.plotEnv Sample.plotEnv ⟨2, 0, 4, 0⟩
      rfl rfl rfl rfl rfl rfl rfl).1⟩

/-- C17: the plot constructor copies the items into the tail and tags the kind
for `"CP"`: `Expression("CP", items)` satisfies `isCP()`.  For `"DP"` the kind
is not assigned: `Expression("DP", items)` satisfies `isDP()` only when the
value `m_type` has without an assignment happens to be `DP`, and with any
other such value (Empty, None) it does not. -/
theorem plot_constructor_kind (hd : Header) (items : List Expression) :
    (Expression.ofPlot hd "CP" items).isCP = true
    ∧ (Expression.ofPlot hd "CP" items).m_tail = items
    ∧ (Expression.ofPlot hd "DP" items).m_tail = items
    ∧ ((Expression.ofPlot hd "DP" items).isDP = true ↔ hd.m_type_default = .DP)
    ∧ (Expression.ofPlot ⟨.Empty, 0⟩ "DP" items).isDP = false
    ∧ (Expression.ofPlot ⟨.None, 0⟩ "DP" items).isDP = false := by
  refine ⟨rfl, rfl, rfl, ?_, rfl, rfl⟩
  have hne : ¬ ("DP" = "CP") := by decide
  simp [Expression.ofPlot, Expression.isDP, Expression.m_type, hne]

/-! ## The worker and the REPL -/

theorem append_sentinel_eq_cons (rest : List String) :
    ∀ line : String, rest ++ [""] = line :: rest → line = "" := by
  induction rest with
  | nil => intro line h; simp at h; exact h.symm
  | cons x xs ih =>
    intro line h
    simp only [List.cons_append, List.cons.injEq] at h
    obtain ⟨h1, h2⟩ := h
    rw [← h1]
    exact ih x h2

/-- C18: a Running consumer has the lines `line :: rest` queued and the worker
takes nothing more from the input queue before its thread is joined.  Then
after `stopThread` the input queue holds `rest` followed by the empty
sentinel: `try_pop` took the line at the front, not the sentinel pushed at the
back, so the queue is not the one that was there (for a first line that is
not empty).  Only with nothing queued does `stopThread` leave the queue as it
was. -/
theorem stopThread_pops_front (worker : Consumer → Consumer) (c : Consumer) (line : String)
    (rest : List String) (hrun : c.running = true)
    (hworker : ∀ x : Consumer, (worker x).iqueue = x.iqueue)
    (hq : c.iqueue.the_queue = line :: rest) :
    (Consumer.stopThread worker c).iqueue.the_queue = rest ++ [""]
    ∧ (line ≠ "" → (Consumer.stopThread worker c).iqueue.the_queue ≠ c.iqueue.the_queue)
    ∧ ∀ c0 : Consumer, c0.running = true → c0.iqueue.the_queue = [] →
        (Consumer.stopThread worker c0).iqueue.the_queue = [] := by
  have h1 : (Consumer.stopThread worker c).iqueue.the_queue = rest ++ [""] := by
    unfold Consumer.stopThread
    simp only [hrun, if_true, hworker, TSmessage.push, hq, TSmessage.try_pop, List.cons_append]
  refine ⟨h1, fun hne heq => ?_, fun c0 hrun0 hq0 => ?_⟩
  · rw [h1, hq] at heq
    exact hne (append_sentinel_eq_cons rest line heq)
  · unfold Consumer.stopThread
    simp only [hrun0, if_true, hworker, TSmessage.push, hq0, TSmessage.try_pop, List.nil_append]

theorem stopThread_pops_front_witness :
    Sample.consumer.running = true
    ∧ Sample.consumer.iqueue.the_queue = ["(define a 1)", "(f 2)"]
    ∧ (Consumer.stopThread id Sample.consumer).iqueue.the_queue = ["(f 2)", ""]
    ∧ (Consumer.startThread (Consumer.stopThread id Sample.consumer)).iqueue.the_queue
        = ["(f 2)", ""] :=
  ⟨rfl, rfl,
    (stopThread_pops_front id Sample.consumer "(define a 1)" ["(f 2)"] rfl (fun _ => rfl)
      rfl).1,
    rfl⟩

/-- C19: what the REPL installs when it handles an interrupt is its own `interp`,
the interpreter `repl` was started with: `copy = interp` at the head of the
loop, `resetThread(copy)` in the interrupt branch, and nothing in `repl` or in
the worker ever assigns `interp` (the consumer evaluates in its own copy,
`cInterp`).  In the sample run the worker has `a` bound to `1` after the
first line, and after the interrupt of the second line its interpreter is the
start-up one again, in which `a` is not bound. -/
theorem repl_interrupt_installs_startup_state :
    (∀ (w : Consumer → Consumer) (r : Repl),
      (Repl.interrupted w (Repl.loopHead r)).c1.cInterp = r.interp)
    ∧ (∀ (fresh i : Interpreter) (flag : Nat), (Repl.start fresh i flag).interp = i)
    ∧ (∀ (r : Repl) (line : String) (f w : Consumer → Consumer),
      (Repl.loopHead r).interp = r.interp ∧ (Repl.submit r line).interp = r.interp
      ∧ (Repl.worker f r).interp = r.interp
      ∧ (∀ r' : Repl, Repl.signal r = some r' → r'.interp = r.interp)
      ∧ (Repl.interrupted w r).interp = r.interp ∧ (Repl.collect r).2.interp = r.interp)
    ∧ Sample.afterDefine.c1.cInterp.env.is_exp (.symbol "a") = true
    ∧ Sample.afterDefine.c1.cInterp.env.get_exp (.symbol "a") = Sample.num 1
    ∧ (∃ r : Repl, Sample.afterInterrupt = some r
        ∧ r.c1.cInterp = Sample.interp
        ∧ r.c1.cInterp.env.is_exp (.symbol "a") = false
        ∧ r.c1.running = true) := by
  refine ⟨fun w r => ?_, fun _ _ _ => rfl,
    fun r line f w => ⟨rfl, rfl, rfl, fun r' h => ?_, rfl, ?_⟩,
    rfl, rfl, ⟨_, rfl, rfl, rfl, rfl⟩⟩
  · simp only [Repl.interrupted, Repl.loopHead, Consumer.resetThread, Consumer.startThread]
    split_ifs <;> rfl
  · unfold Repl.signal at h
    split_ifs at h
    simp only [Option.some.injEq] at h
    rw [← h]
  · unfold Repl.collect
    split_ifs <;> rfl

/-- The consumer's input queue starts with `line`.  One round of the consume
loop takes it off the queue and leaves the running flag as it is.  An empty
line produces no output.  A line that does not parse appends the pair of the
Empty expression and `Invalid Expression. Could not parse.` to the output
queue, whatever the evaluator would do.  A line that parses to `tree` appends
the pair of the Empty expression and the message when the evaluation of `tree`
in the worker's environment throws, and the pair of the value and the empty
string when it returns.  The pair is always the one item added, at the back
of the output queue.  An evaluation that neither returns nor throws is not
covered here. -/
theorem consume_round (parse : Parser) (hd : Header) (flag fuel : Nat) (c : Consumer)
    (line : String) (rest : List String) (hq : c.iqueue.the_queue = line :: rest) :
    (line = "" →
      ∃ c', Consumer.iteration parse hd flag fuel c = some c'
        ∧ c'.iqueue.the_queue = rest ∧ c'.oqueue = c.oqueue ∧ c'.running = c.running)
    ∧ (line ≠ "" → parse line = none →
      ∀ (hd' : Header) (flag' fuel' : Nat),
        ∃ c', Consumer.iteration parse hd' flag' fuel' c = some c'
          ∧ c'.iqueue.the_queue = rest ∧ c'.running = c.running
          ∧ c'.oqueue.the_queue = c.oqueue.the_queue
              ++ [(Expression.empty, "Invalid Expression. Could not parse.")])
    ∧ (∀ (tree : Expression) (what : String) (env' : Environment),
      line ≠ "" → parse line = some tree →
      eval hd flag fuel tree c.cInterp.env = .error what env' →
      ∃ c', Consumer.iteration parse hd flag fuel c = some c'
        ∧ c'.iqueue.the_queue = rest ∧ c'.running = c.running
        ∧ c'.oqueue.the_queue = c.oqueue.the_queue ++ [(Expression.empty, what)])
    ∧ (∀ (tree v : Expression) (env' : Environment),
      line ≠ "" → parse line = some tree →
      eval hd flag fuel tree c.cInterp.env = .ok v env' →
      ∃ c', Consumer.iteration parse hd flag fuel c = some c'
        ∧ c'.iqueue.the_queue = rest ∧ c'.running = c.running
        ∧ c'.oqueue.the_queue = c.oqueue.the_queue ++ [(v, "")]
        ∧ c'.cInterp.env = env') := by
  have hpop : c.iqueue.try_pop "" = (true, line, ⟨rest⟩) := by
    simp [TSmessage.try_pop, hq]
  refine ⟨fun hl => ?_, fun hl hp hd' flag' fuel' => ?_, fun tree what env' hl hp he => ?_,
    fun tree v env' hl hp he => ?_⟩
  · exact ⟨{ c with iqueue := ⟨rest⟩ }, by simp [Consumer.iteration, hpop, hl], rfl, rfl, rfl⟩
  · exact ⟨{ c with
        iqueue := ⟨rest⟩,
        oqueue := c.oqueue.push (Expression.empty, "Invalid Expression. Could not parse.") },
      by simp [Consumer.iteration, hpop, hl, Interpreter.parseStream, hp], rfl, rfl, rfl⟩
  · exact ⟨{ c with
        iqueue := ⟨rest⟩, cInterp := ⟨env', tree⟩,
        oqueue := c.oqueue.push (Expression.empty, what) },
      by simp [Consumer.iteration, hpop, hl, Interpreter.parseStream, hp,
        Interpreter.evaluate, he],
      rfl, rfl, rfl⟩
  · exact ⟨{ c with
        iqueue := ⟨rest⟩, cInterp := ⟨env', tree⟩, oqueue := c.oqueue.push (v, "") },
      by simp [Consumer.iteration, hpop, hl, Interpreter.parseStream, hp,
        Interpreter.evaluate, he],
      rfl, rfl, rfl, rfl⟩

/-- The round of the sample consumer on the line `(define a 1)`. -/
theorem consume_round_sample :
    Sample.consumer.iqueue.the_queue = "(define a 1)" :: ["(f 2)"]
    ∧ "(define a 1)" ≠ ""
    ∧ Sample.parse "(define a 1)" = some (Sample.form "define" [Sample.sym "a", Sample.num 1])
    ∧ eval Sample.header 0 3 (Sample.form "define" [Sample.sym "a", Sample.num 1])
        Sample.consumer.cInterp.env
        = .ok (Sample.num 1) (Sample.env.add_exp (.symbol "a") (Sample.num 1))
    ∧ ∃ c', Consumer.iteration Sample.parse Sample.header 0 3 Sample.consumer = some c'
        ∧ c'.iqueue.the_queue = ["(f 2)"] ∧ c'.running = Sample.consumer.running
        ∧ c'.oqueue.the_queue = Sample.consumer.oqueue.the_queue ++ [(Sample.num 1, "")]
        ∧ c'.cInterp.env = Sample.env.add_exp (.symbol "a") (Sample.num 1) :=
  ⟨rfl, by decide, rfl, rfl,
    (consume_round Sample.parse Sample.header 0 3 Sample.consumer "(define a 1)" ["(f 2)"]
      rfl).2.2.2 (Sample.form "define" [Sample.sym "a", Sample.num 1]) (Sample.num 1)
      (Sample.env.add_exp (.symbol "a") (Sample.num 1)) (by decide) rfl rfl⟩

/-- While the consumer is running and the flag is clear, the consume loop is one
round followed by the loop again. -/
theorem Consumer.ThreadFunction_succ (parse : Parser) (hd : Header) (fuel rounds : Nat)
    (c : Consumer) (hrun : c.running = true) :
    Consumer.ThreadFunction parse hd 0 fuel (rounds + 1) c
      = (Consumer.iteration parse hd 0 fuel c).bind
          (Consumer.ThreadFunction parse hd 0 fuel rounds) := by
  rw [Consumer.ThreadFunction]
  simp [hrun]

/-- C20 (the code differs): a running consumer pops a line that parses to a
`lambda` form with exactly one child.  Its evaluation reads `m_tail[1]` out of
range, so it neither returns a value nor throws a semantic error: whatever the
fuel, the round does not end, no pair is pushed on the output queue, and the
consume loop does not go on to the lines behind it. -/
theorem consume_loop_ends_on_crash (parse : Parser) (hd : Header) (c : Consumer)
    (line : String) (rest : List String) (t0 : Expression) (k : ExpType)
    (props : List (String × Expression))
    (hq : c.iqueue.the_queue = line :: rest) (hl : line ≠ "")
    (hp : parse line = some (.mk (.symbol "lambda") [t0] k props))
    (hrun : c.running = true) :
    (∀ fuel : Nat,
      eval hd 0 (fuel + 1) (.mk (.symbol "lambda") [t0] k props) c.cInterp.env = .crash)
    ∧ (∀ fuel : Nat, Consumer.iteration parse hd 0 fuel c = none)
    ∧ (∀ fuel rounds : Nat, Consumer.ThreadFunction parse hd 0 fuel (rounds + 1) c = none) := by
  have hcrash : ∀ fuel : Nat,
      eval hd 0 (fuel + 1) (.mk (.symbol "lambda") [t0] k props) c.cInterp.env = .crash := by
    intro fuel
    show evalStep hd 0 fuel (eval hd 0 fuel) _ c.cInterp.env = _
    rw [evalStep_lambda hd fuel _ (.mk (.symbol "lambda") [t0] k props) c.cInterp.env rfl
      (by simp [Expression.m_tail])]
    rfl
  have hpop : c.iqueue.try_pop "" = (true, line, ⟨rest⟩) := by
    simp [TSmessage.try_pop, hq]
  have hiter : ∀ fuel : Nat, Consumer.iteration parse hd 0 fuel c = none := by
    intro fuel
    cases fuel with
    | zero =>
      simp [Consumer.iteration, hpop, hl, Interpreter.parseStream, hp, Interpreter.evaluate,
        eval]
    | succ fuel =>
      simp [Consumer.iteration, hpop, hl, Interpreter.parseStream, hp, Interpreter.evaluate,
        hcrash fuel]
  refine ⟨hcrash, hiter, fun fuel rounds => ?_⟩
  rw [Consumer.ThreadFunction_succ parse hd fuel rounds c hrun, hiter fuel]
  rfl

/-- Witness of C20: the running sample consumer has the line `(lambda (x))` queued
ahead of `(define a 1)`; the loop ends in its first round, with nothing on the
output queue, whereas with `(define a 1)` at the front one round pushes the
pair of that line and the loop goes on. -/
theorem consume_loop_ends_on_crash_witness :
    Sample.crashConsumer.iqueue.the_queue = "(lambda (x))" :: ["(define a 1)"]
    ∧ "(lambda (x))" ≠ ""
    ∧ Sample.parseLambda "(lambda (x))" = some (Sample.form "lambda" [Sample.form "x" []])
    ∧ Sample.crashConsumer.running = true
    ∧ (∀ fuel : Nat,
        Consumer.iteration Sample.parseLambda Sample.header 0 fuel Sample.crashConsumer = none)
    ∧ (∀ fuel rounds : Nat,
        Consumer.ThreadFunction Sample.parseLambda Sample.header 0 fuel (rounds + 1)
          Sample.crashConsumer = none)
    ∧ (∃ c', Consumer.ThreadFunction Sample.parseLambda Sample.header 0 3 1 Sample.consumer
          = some c'
        ∧ c'.oqueue.the_queue = [(Sample.num 1, "")] ∧ c'.iqueue.the_queue = ["(f 2)"]) :=
  ⟨rfl, by decide, rfl, rfl,
    (consume_loop_ends_on_crash Sample.parseLambda Sample.header Sample.crashConsumer
      "(lambda (x))" ["(define a 1)"] (Sample.form "x" []) .None [] rfl (by decide) rfl
      rfl).2.1,
    (consume_loop_ends_on_crash Sample.parseLambda Sample.header Sample.crashConsumer
      "(lambda (x))" ["(define a 1)"] (Sample.form "x" []) .None [] rfl (by decide) rfl
      rfl).2.2,
    ⟨_, rfl, rfl, rfl⟩⟩

/-! ## The consumer's state machine and the queue -/

theorem Consumer.iteration_running (parse : Parser) (hd : Header) (flag fuel : Nat)
    (c c' : Consumer) (h : Consumer.iteration parse hd flag fuel c = some c') :
    c'.running = c.running := by
  unfold Consumer.iteration at h
  split at h
  · simp only [Option.some.injEq] at h; rw [← h]
  · split_ifs at h
    · simp only [Option.some.injEq] at h; rw [← h]
    · split at h
      · simp only [Option.some.injEq] at h; rw [← h]
      · split at h
        · simp only [Option.some.injEq] at h; rw [← h]
        · simp only [Option.some.injEq] at h; rw [← h]
        · cases h
        · cases h

theorem Consumer.ThreadFunction_running (parse : Parser) (hd : Header) (flag fuel : Nat)
    (rounds : Nat) : ∀ c c' : Consumer,
      Consumer.ThreadFunction parse hd flag fuel rounds c = some c' →
      c'.running = c.running := by
  induction rounds with
  | zero =>
    intro c c' h
    simp only [Consumer.ThreadFunction, Option.some.injEq] at h
    rw [← h]
  | succ k ih =>
    intro c c' h
    unfold Consumer.ThreadFunction at h
    split_ifs at h
    · cases hi : Consumer.iteration parse hd flag fuel c with
      | none => rw [hi] at h; cases h
      | some c1 =>
        rw [hi] at h
        simp only [Option.bind] at h
        rw [ih c1 c' h, Consumer.iteration_running parse hd flag fuel c c1 hi]
    · simp only [Option.some.injEq] at h
      rw [← h]

/-- C21: the worker thread does not write the running flag.  Then: `startThread` on
a Running consumer changes nothing; `stopThread` on a Stopped consumer changes
nothing (the input queue included); `startThread` on a Stopped consumer gives
Running and changes nothing else; `stopThread` on a Running consumer gives
Stopped; and from every state, after `resetThread(i)` the consumer is Running
and its interpreter is `i`. -/
theorem consumer_state_machine (worker : Consumer → Consumer)
    (hworker : ∀ x : Consumer, (worker x).running = x.running) (c : Consumer)
    (i : Interpreter) :
    (c.running = true → Consumer.startThread c = c)
    ∧ (c.running = false → Consumer.stopThread worker c = c)
    ∧ (c.running = false →
        Consumer.startThread c = { c with running := true })
    ∧ (c.running = true → (Consumer.stopThread worker c).running = false)
    ∧ (Consumer.resetThread worker i c).running = true
    ∧ (Consumer.resetThread worker i c).cInterp = i := by
  have hstop : c.running = true → (Consumer.stopThread worker c).running = false := by
    intro h
    unfold Consumer.stopThread
    simp only [h, if_true, hworker]
  refine ⟨fun h => ?_, fun h => ?_, fun h => ?_, hstop, ?_, ?_⟩
  · simp [Consumer.startThread, h]
  · simp [Consumer.stopThread, h]
  · simp [Consumer.startThread, h]
  · unfold Consumer.resetThread Consumer.startThread
    cases hr : c.running with
    | true => simp [hstop hr]
    | false => simp [hr]
  · unfold Consumer.resetThread Consumer.startThread
    cases hr : c.running with
    | true => simp [hstop hr]
    | false => simp [hr]

theorem consumer_state_machine_witness :
    (∀ x : Consumer, (Sample.oneRound x).running = x.running)
    ∧ (Consumer.stopThread Sample.oneRound Sample.consumer).running = false
    ∧ (Consumer.resetThread Sample.oneRound Sample.interp Sample.consumer).running = true
    ∧ (Consumer.resetThread Sample.oneRound Sample.interp Sample.consumer).cInterp
        = Sample.interp :=
  have hw : ∀ x : Consumer, (Sample.oneRound x).running = x.running := fun x => by
    unfold Sample.oneRound
    cases h : Consumer.iteration Sample.parse Sample.header 0 3 x with
    | none => rfl
    | some c' => exact Consumer.iteration_running _ _ _ _ x c' h
  have h := consumer_state_machine Sample.oneRound hw Sample.consumer Sample.interp
  ⟨hw, h.2.2.2.1 rfl, h.2.2.2.2.1, h.2.2.2.2.2⟩

/-- C22: the queue is first in, first out.  After `X` is pushed onto an empty
queue `wait_and_pop` returns `X` and leaves the queue empty.  After `X` and
then `Y` are pushed, two successive pops return `X` and then `Y` and leave the
queue empty, whichever of `wait_and_pop` and `try_pop` each of them is. -/
theorem queue_is_fifo {α : Type} (X Y old : α) :
    (TSmessage.new.push X).wait_and_pop = some (X, TSmessage.new)
    ∧ ((TSmessage.new.push X).push Y).wait_and_pop = some (X, TSmessage.new.push Y)
    ∧ (TSmessage.new.push Y).wait_and_pop = some (Y, TSmessage.new)
    ∧ ((TSmessage.new.push X).push Y).try_pop old = (true, X, TSmessage.new.push Y)
    ∧ (TSmessage.new.push Y).try_pop old = (true, Y, TSmessage.new) :=
  ⟨rfl, rfl, rfl, rfl, rfl⟩

/-- C23: a new queue is empty; `try_pop` on an empty queue returns false, leaves
the variable it was given untouched and leaves the queue empty; after a push
the queue is not empty, and `try_pop` then returns true, yields the pushed
item and leaves the queue empty again. -/
theorem try_pop_iff_nonempty {α : Type} (X old : α) :
    (TSmessage.new : TSmessage α).empty = true
    ∧ (TSmessage.new : TSmessage α).try_pop old = (false, old, TSmessage.new)
    ∧ (TSmessage.new.push X).empty = false
    ∧ (TSmessage.new.push X).try_pop old = (true, X, TSmessage.new)
    ∧ (TSmessage.new : TSmessage α).push X = ⟨[X]⟩
    ∧ (∀ q : TSmessage α, (q.try_pop old).1 = !q.empty) := by
  refine ⟨rfl, rfl, rfl, rfl, rfl, fun q => ?_⟩
  obtain ⟨l⟩ := q
  cases l <;> rfl

/-! ## The accessors of the presentation boundary -/

theorem getPointCoordinates_second_zero (e : Expression) (p : ℚ × ℚ)
    (h : e.getPointCoordinates = some p) : p.2 = 0 := by
  unfold Expression.getPointCoordinates at h
  split at h
  · split_ifs at h
    · split at h
      · simp only [Option.some.injEq] at h; rw [← h]
      · cases h
    · simp only [Option.some.injEq] at h; rw [← h]
  · simp only [Option.some.injEq] at h; rw [← h]

/-- C24: `getPointCoordinates` never returns the pair `(x, y)` of a point whose `y`
is not zero: its second component is always zero (`y` is never assigned), and
for an expression with tail `[x, y]` the result is `(0, 0)` or `(y, 0)`.  The
value `make-point` produces for 3 and 4 gives `(0, 0)` (the key is looked up
without the quotes it is stored with); with the key and value spelled as the
function looks them up the result is `(4, 0)`. -/
theorem getPointCoordinates_drops_y :
    (∀ (e : Expression) (p : ℚ × ℚ), e.getPointCoordinates = some p → p.2 = 0)
    ∧ (∀ (h : Atom) (x y : ℚ) (k : ExpType) (props : List (String × Expression)),
        (Expression.mk h [.ofAtom (.number x), .ofAtom (.number y)] k
            props).getPointCoordinates = some (0, 0)
        ∨ (Expression.mk h [.ofAtom (.number x), .ofAtom (.number y)] k
            props).getPointCoordinates = some (y, 0))
    ∧ Sample.make_point [Sample.num 3, Sample.num 4] = .ok Sample.point34
    ∧ Sample.point34.getPointCoordinates = some (0, 0)
    ∧ Sample.barePoint34.getPointCoordinates = some (4, 0) := by
  refine ⟨getPointCoordinates_second_zero, fun h x y k props => ?_, rfl, rfl, rfl⟩
  · unfold Expression.getPointCoordinates
    cases hf : Expression.findProperty _ "object-name" with
    | none => left; rfl
    | some stored =>
      by_cases hs : stored.operatorEq (Expression.ofAtom (Atom.ofText "point")) = true
      · right
        dsimp only
        rw [if_pos hs]
        rfl
      · left
        dsimp only
        rw [if_neg hs]

/-- C25: `isPoint` (and likewise `isLine`, `isText`) looks at the first property
whose key is not `object-name`.  With a single property it is false when the
key is `object-name`, whatever is stored there, and otherwise it is whether
the value stored under that other key equals the string `"point"`: so it is
false for an expression whose only property is `object-name` = `"point"`, and
true for one that has no object-name entry but the string `"point"` under
`"size"`. -/
theorem isPoint_reads_other_property :
    (∀ (h : Atom) (t : List Expression) (k : ExpType) (key : String) (v : Expression),
      (Expression.mk h t k [(key, v)]).isPoint
        = if key = "object-name" then false
          else v.operatorEq (Expression.ofAtom (Atom.ofText "\"point\"")))
    ∧ (∀ (h : Atom) (t : List Expression) (k : ExpType) (key : String) (v : Expression),
      (Expression.mk h t k [(key, v)]).isLine
        = if key = "object-name" then false
          else v.operatorEq (Expression.ofAtom (Atom.ofText "\"line\"")))
    ∧ (∀ (h : Atom) (t : List Expression) (k : ExpType) (key : String) (v : Expression),
      (Expression.mk h t k [(key, v)]).isText
        = if key = "object-name" then false
          else v.operatorEq (Expression.ofAtom (Atom.ofText "\"text\"")))
    ∧ (Expression.mk .none [Sample.num 3, Sample.num 4] .List
        [("object-name", Sample.str "\"point\"")]).isPoint = false
    ∧ (Expression.mk .none [Sample.num 3, Sample.num 4] .List
        [("\"size\"", Sample.str "\"point\"")]).isPoint = true
    ∧ (Expression.mk .none [Sample.num 3, Sample.num 4] .List
        [("\"a\"", Sample.num 1), ("\"object-name\"", Sample.str "\"point\"")]).isPoint = false
    ∧ (Expression.mk .none [Sample.num 3, Sample.num 4] .List
        [("\"a\"", Sample.str "\"point\""), ("\"object-name\"", Sample.str "\"line\"")]).isPoint
        = true := by
  refine ⟨fun h t k key v => ?_, fun h t k key v => ?_, fun h t k key v => ?_,
    rfl, rfl, rfl, rfl⟩
  · by_cases hk : key = "object-name"
    · simp [Expression.isPoint, Expression.m_properties, List.find?, hk]
    · have hb : (key == "object-name") = false := by simpa using hk
      simp [Expression.isPoint, Expression.m_properties, List.find?, hk, hb]
  · by_cases hk : key = "object-name"
    · simp [Expression.isLine, Expression.m_properties, List.find?, hk]
    · have hb : (key == "object-name") = false := by simpa using hk
      simp [Expression.isLine, Expression.m_properties, List.find?, hk, hb]
  · by_cases hk : key = "object-name"
    · simp [Expression.isText, Expression.m_properties, List.find?, hk]
    · have hb : (key == "object-name") = false := by simpa using hk
      simp [Expression.isText, Expression.m_properties, List.find?, hk, hb]

/-- C26: `asVector` returns the children in their order, preceded by the
expression wrapping the head when the head is not the none atom: its length is
the number of children plus one, or plus zero for a none head. -/
theorem asVector_head_then_tail (e : Expression) :
    (e.m_head.isNone = false → e.asVector = Expression.ofAtom e.m_head :: e.m_tail)
    ∧ (e.m_head.isNone = true → e.asVector = e.m_tail)
    ∧ e.asVector.length = e.m_tail.length + (if e.m_head.isNone then 0 else 1)
    ∧ e.asVector.drop (if e.m_head.isNone then 0 else 1) = e.m_tail := by
  cases h : e.m_head.isNone <;> simp [Expression.asVector, h]

/-- C27: `getTextProperties` returns valid = true exactly when the expression has a
position property, `(0, 0, 1, 0, false)` when it has none, a scale that is
never below 1 and is 1 without a text-scale property, and rotation 0 without a
text-rotation property.  The `x` and `y` it returns are what
`getPointCoordinates` gives for the position, so `y` is always zero: a text
positioned at the point `(3, 4)` gets `(0, 0)`. -/
theorem getTextProperties_position :
    (∀ (e : Expression) (r : ℚ × ℚ × ℚ × ℚ × Bool), e.getTextProperties = some r →
      (r.2.2.2.2 = true ↔ (e.findProperty "\"position\"").isSome = true)
      ∧ 1 ≤ r.2.2.1
      ∧ (e.findProperty "\"text-scale\"" = none → r.2.2.1 = 1)
      ∧ (e.findProperty "\"text-rotation\"" = none → r.2.2.2.1 = 0)
      ∧ r.2.1 = 0)
    ∧ (∀ e : Expression, e.findProperty "\"position\"" = none →
      e.getTextProperties = some (0, 0, 1, 0, false))
    ∧ Sample.text34.findProperty "\"position\"" = some Sample.point34
    ∧ Sample.point34.m_tail = [Sample.num 3, Sample.num 4]
    ∧ Sample.text34.getTextProperties = some (0, 0, 1, 0, true) := by
  refine ⟨fun e r h => ?_, fun e h => ?_, rfl, rfl, rfl⟩
  · unfold Expression.getTextProperties at h
    cases hp : e.findProperty "\"position\"" with
    | none =>
      rw [hp] at h
      dsimp only at h
      simp only [Option.some.injEq] at h
      rw [← h]
      simp
    | some point =>
      rw [hp] at h
      dsimp only at h
      cases hc : point.getPointCoordinates with
      | none => rw [hc] at h; cases h
      | some c =>
        rw [hc] at h
        simp only [Option.map_some', Option.some.injEq] at h
        have hy := getPointCoordinates_second_zero point c hc
        rw [← h]
        refine ⟨by simp, ?_, fun hs => by simp [hs], fun hr => by simp [hr], hy⟩
        dsimp only
        split
        · split_ifs with h1
          · exact le_refl _
          · exact not_lt.1 h1
        · exact le_refl _
  · unfold Expression.getTextProperties
    rw [h]

/-! ## The numbers of the plot forms -/

theorem dataBounds_within_start (data : List Expression) :
    ∀ b0 b : Bounds, dataBounds data b0 = some b →
      b.xmin ≤ b0.xmin ∧ b0.xmax ≤ b.xmax ∧ b.ymin ≤ b0.ymin ∧ b0.ymax ≤ b.ymax := by
  induction data with
  | nil =>
    intro b0 b h
    simp only [dataBounds, Option.some.injEq] at h
    rw [← h]
    exact ⟨le_refl _, le_refl _, le_refl _, le_refl _⟩
  | cons p rest ih =>
    intro b0 b h
    unfold dataBounds at h
    split at h
    · obtain ⟨h1, h2, h3, h4⟩ := ih _ b h
      dsimp only at h1 h2 h3 h4
      refine ⟨le_trans h1 ?_, le_trans ?_ h2, le_trans h3 ?_, le_trans ?_ h4⟩
      · split_ifs with hc
        · exact le_of_lt hc
        · exact le_refl _
      · split_ifs with hc
        · exact le_of_lt hc
        · exact le_refl _
      · split_ifs with hc
        · exact le_of_lt hc
        · exact le_refl _
      · split_ifs with hc
        · exact le_of_lt hc
        · exact le_refl _
    · cases h

/-- C28: the extremes `discrete-plot` computes start from `xmax = ymax = -999` and
`xmin = ymin = 999` and are only ever moved outwards, so the minima it reports
are never above 999 and the maxima never below -999, whatever the data: for
data lying entirely above 999 the reported minima are 999, not the minima of
the data. -/
theorem dataBounds_capped (data : List Expression) (b : Bounds)
    (h : dataBounds data ⟨-999, 999, -999, 999⟩ = some b) :
    b.xmin ≤ 999 ∧ -999 ≤ b.xmax ∧ b.ymin ≤ 999 ∧ -999 ≤ b.ymax :=
  dataBounds_within_start data ⟨-999, 999, -999, 999⟩ b h

theorem dataBounds_capped_witness :
    dataBounds Sample.highData.m_tail ⟨-999, 999, -999, 999⟩ = some ⟨2000, 999, 3000, 999⟩
    ∧ ((999 : ℚ) ≤ 999 ∧ (-999 : ℚ) ≤ 2000 ∧ (999 : ℚ) ≤ 999 ∧ (-999 : ℚ) ≤ 3000)
    ∧ (∃ r, handle_discrete_plot Sample.header Sample.echo
          (Sample.form "discrete-plot" [Sample.highData, .ofItems []]) Sample.plotEnv
          = .ok r Sample.plotEnv
        ∧ r.m_tail.drop 8
            = [Sample.str "\"999\"", Sample.str "\"2000\"", Sample.str "\"999\"",
               Sample.str "\"3000\""]) :=
  ⟨rfl, dataBounds_capped Sample.highData.m_tail ⟨2000, 999, 3000, 999⟩ rfl,
    ⟨_, rfl, rfl⟩⟩

end Plotscript
namespace Plotscript

/-! ## continuous-plot -/

theorem evalStep_cont_plot (hd : Header) (n : Nat) (ev : Ev) (e : Expression)
    (env : Environment) (hh : e.m_head = .symbol "continuous-plot") (ht : e.m_tail ≠ []) :
    evalStep hd 0 n ev e env = handle_cont_plot hd n ev e env := by
  unfold evalStep
  simp [hh, Atom.asSymbol, isEmpty_eq_false_of_ne_nil ht]

theorem Outcome.bind_ne_ok_of_cont {α β : Type} (r : Outcome α)
    (k : α → Environment → Outcome β) (w : β) (env' : Environment)
    (h : ∀ a env1, k a env1 ≠ .ok w env') : r.bind k ≠ .ok w env' := by
  cases r with
  | ok v env => exact h v env
  | error m env => simp [Outcome.bind]
  | crash => simp [Outcome.bind]
  | timeout => simp [Outcome.bind]

/-- The body of `handle_cont_plot` never returns a value: the expression it
builds for `map` over the bounds has the none atom as its head. -/
theorem contPlotBody_ne_ok (hd : Header) (flag k n : Nat) (FUNC BOUNDS : Expression)
    (options : Option Expression) (env : Environment) :
    ∀ v env', contPlotBody hd n (eval hd flag k) FUNC BOUNDS options env ≠ .ok v env' := by
  intro v env'
  unfold contPlotBody
  refine Outcome.bind_ne_ok_of_cont _ _ v env' (fun xb env1 => ?_)
  exact Outcome.bind_ne_ok _ (eval_none_head_ne_ok hd flag k
    (Expression.ofGraphic hd (Atom.ofText "map") [FUNC, BOUNDS]) env1 rfl) v env'

/-- A `continuous-plot` form never returns a value, whatever its arguments and
whatever the environment provides. -/
theorem cont_plot_never_succeeds (hd : Header) (flag n : Nat) (e : Expression)
    (env : Environment) (he : e.m_head = .symbol "continuous-plot") (hne : e.m_tail ≠ []) :
    ∀ v env', eval hd flag n e env ≠ .ok v env' := by
  intro v env'
  cases n with
  | zero => simp [eval]
  | succ n =>
    by_cases hflag : flag = 0
    · subst hflag
      show evalStep hd 0 n (eval hd 0 n) e env ≠ _
      rw [evalStep_cont_plot hd n _ e env he hne]
      unfold handle_cont_plot
      split
      · refine Outcome.bind_ne_ok_of_cont _ _ v env' (fun f env1 => ?_)
        split_ifs
        · simp
        · refine Outcome.bind_ne_ok_of_cont _ _ v env' (fun b env2 => ?_)
          split_ifs
          · simp
          · exact contPlotBody_ne_ok hd 0 n n _ _ _ env2 v env'
      · refine Outcome.bind_ne_ok_of_cont _ _ v env' (fun f env1 => ?_)
        split_ifs
        · simp
        · refine Outcome.bind_ne_ok_of_cont _ _ v env' (fun b env2 => ?_)
          split_ifs
          · simp
          · refine Outcome.bind_ne_ok_of_cont _ _ v env' (fun o env3 => ?_)
            split_ifs
            · simp
            · exact contPlotBody_ne_ok hd 0 n n _ _ _ env3 v env'
      · simp
    · show evalStep hd flag n (eval hd flag n) e env ≠ _
      rw [evalStep_interrupted hd flag n _ e env hflag]
      simp

/-- C29 (the code differs): the first argument of a `continuous-plot` form
evaluates to a lambda and the second to a list, both leaving the environment
as it is.  Then no range bound is ever computed: the expression the handler
builds to map the function over the two bounds, whose values `OL` and `OU`
would be taken from, throws `procedure  is not a symbol`, and with enough fuel
that error is the outcome of the whole form. -/
theorem cont_plot_throws (hd : Header) (n : Nat) (e FUNC BOUNDS f b : Expression)
    (env : Environment) (he : e.m_head = .symbol "continuous-plot")
    (ht : e.m_tail = [FUNC, BOUNDS])
    (hF : eval hd 0 (n + 1) FUNC env = .ok f env) (hfl : f.isLambda = true)
    (hB : eval hd 0 (n + 1) BOUNDS env = .ok b env) (hbl : b.isList = true) :
    eval hd 0 (n + 2) (Expression.ofGraphic hd (Atom.ofText "map") [FUNC, BOUNDS]) env
        = .error notSymbolError env
    ∧ (∀ m : Nat, n + 3 ≤ m → eval hd 0 m e env = .error notSymbolError env) := by
  have hmap : eval hd 0 (n + 2) (Expression.ofGraphic hd (Atom.ofText "map") [FUNC, BOUNDS])
      env = .error notSymbolError env := by
    apply eval_graphic_error hd (n + 1) _ _ _ [f, b]
    rw [evalItems_cons, hF, Outcome.bind, evalItems_cons, hB]
    rfl
  have hF2 : eval hd 0 (n + 2) FUNC env = .ok f env :=
    eval_mono hd 0 (Nat.le_succ _) hF (by simp)
  have hB2 : eval hd 0 (n + 2) BOUNDS env = .ok b env :=
    eval_mono hd 0 (Nat.le_succ _) hB (by simp)
  have hstep : eval hd 0 (n + 3) e env = .error notSymbolError env := by
    show evalStep hd 0 (n + 2) (eval hd 0 (n + 2)) e env = _
    rw [evalStep_cont_plot hd (n + 2) _ e env he (by rw [ht]; simp)]
    unfold handle_cont_plot
    rw [ht]
    simp only [hF2, hB2, Outcome.bind, hfl, hbl, Bool.not_true, Bool.false_eq_true, if_false]
    unfold contPlotBody
    rw [hB2]
    simp only [Outcome.bind, hmap]
  exact ⟨hmap, fun m hm => eval_mono hd 0 hm hstep (by simp)⟩

/-- Witness of C29: `(continuous-plot sq (list -2 3))` where `sq` is bound to
`(lambda (x) (* x x))`, whose values at the bounds are 4 and 9 and whose value
at 0 is 0: the form throws. -/
theorem cont_plot_throws_witness :
    eval Sample.header 0 2 (Sample.sym "sq") Sample.contEnv
        = .ok Sample.squareFn Sample.contEnv
    ∧ Sample.squareFn.isLambda = true
    ∧ eval Sample.header 0 2 (Sample.form "list" [Sample.num (-2), Sample.num 3])
        Sample.contEnv
        = .ok (.ofItems [Sample.num (-2), Sample.num 3]) Sample.contEnv
    ∧ eval Sample.header 0 4 (Sample.form "sq" [Sample.num (-2)]) Sample.contEnv
        = .ok (Sample.num 4) Sample.contEnv
    ∧ eval Sample.header 0 4 (Sample.form "sq" [Sample.num 3]) Sample.contEnv
        = .ok (Sample.num 9) Sample.contEnv
    ∧ eval Sample.header 0 4 (Sample.form "sq" [Sample.num 0]) Sample.contEnv
        = .ok (Sample.num 0) Sample.contEnv
    ∧ (∀ m : Nat, 4 ≤ m →
        eval Sample.header 0 m Sample.contPlot Sample.contEnv
          = .error notSymbolError Sample.contEnv) :=
  ⟨rfl, rfl, rfl, by with_unfolding_all rfl, by with_unfolding_all rfl,
    by with_unfolding_all rfl,
    (cont_plot_throws Sample.header 1 Sample.contPlot (Sample.sym "sq")
      (Sample.form "list" [Sample.num (-2), Sample.num 3]) Sample.squareFn
      (.ofItems [Sample.num (-2), Sample.num 3]) Sample.contEnv rfl rfl rfl rfl rfl rfl).2⟩

end Plotscript
namespace Plotscript

/-- C30 (the code differs): no `continuous-plot` form ever gets to sample its
domain or to emit a polyline: whatever the arguments, the environment, the
flag and the fuel, its evaluation returns no value; for the bounds 0 and 50
and a lambda bound to `sq`, with enough fuel it is the error
`procedure  is not a symbol`. -/
theorem cont_plot_never_returns :
    (∀ (hd : Header) (flag n : Nat) (e : Expression) (env : Environment),
      e.m_head = .symbol "continuous-plot" → e.m_tail ≠ [] →
      ∀ (v : Expression) (env' : Environment), eval hd flag n e env ≠ .ok v env')
    ∧ (∀ m : Nat, 4 ≤ m →
        eval Sample.header 0 m Sample.contPlotWide Sample.contEnv
          = .error notSymbolError Sample.contEnv) := by
  refine ⟨fun hd flag n e env he hne => cont_plot_never_succeeds hd flag n e env he hne,
    fun m hm => ?_⟩
  have h4 : eval Sample.header 0 4 Sample.contPlotWide Sample.contEnv
      = .error notSymbolError Sample.contEnv := rfl
  exact eval_mono Sample.header 0 hm h4 (by simp)

end Plotscript
namespace Plotscript

/-! ## The edges of the dispatch -/

/-- Counterexample to C31 as stated: in the sample environment, where `begin` is
not bound to a value, the expression `(begin)` fails with the unknown-symbol
error of the terminal lookup and returns no value. -/
theorem begin_empty_tail_counterexample :
    eval Sample.header 0 5 (Sample.form "begin" []) Sample.env
        = .error "Error during handle lookup: unknown symbol begin" Sample.env
    ∧ ¬ ∃ v env', eval Sample.header 0 5 (Sample.form "begin" []) Sample.env = .ok v env' :=
  ⟨rfl, fun ⟨_, _, h⟩ => Outcome.noConfusion h⟩

/-- C31 (amended): an expression whose head is the symbol `begin` and whose tail
is empty is evaluated as a terminal expression, by the lookup of the symbol
`begin`: it fails with the unknown-symbol error when `begin` is not bound to a
value and returns the bound value when it is (as for a lambda parameter named
`begin`); the environment is unchanged.  The handler of `begin` is not reached;
called on an empty tail it would return the default, Empty-kind expression. -/
theorem begin_empty_tail_is_lookup (hd : Header) (env : Environment) (e : Expression)
    (n : Nat) (he : e.m_head = .symbol "begin") (ht : e.m_tail = []) :
    eval hd 0 (n + 1) e env = handle_lookup (.symbol "begin") env
    ∧ (env.is_exp (.symbol "begin") = false →
        eval hd 0 (n + 1) e env
          = .error "Error during handle lookup: unknown symbol begin" env)
    ∧ (env.is_exp (.symbol "begin") = true →
        eval hd 0 (n + 1) e env = .ok (env.get_exp (.symbol "begin")) env)
    ∧ (∀ ev : Ev, handle_begin ev e env = .ok Expression.empty env)
    ∧ Expression.empty.isEmpty = true := by
  have hstep : eval hd 0 (n + 1) e env = handle_lookup (.symbol "begin") env := by
    show evalStep hd 0 n (eval hd 0 n) e env = _
    rw [evalStep_lookup hd n _ e env (by rw [he]; simp [Atom.asSymbol]) ht, he]
  refine ⟨hstep, fun hb => ?_, fun hb => ?_, fun ev => ?_, rfl⟩
  · rw [hstep]
    simp [handle_lookup, Atom.isSymbol, hb, Atom.asSymbol]
  · rw [hstep]
    simp [handle_lookup, Atom.isSymbol, hb]
  · unfold handle_begin
    rw [ht]
    rfl

/-- Witness of C31 (amended): `(begin)` in the sample environment, where `begin`
is not bound; and a lambda whose parameter is named `begin`, applied to 5,
whose body `(begin)` returns 5. -/
theorem begin_empty_tail_is_lookup_witness :
    (Sample.form "begin" []).m_head = .symbol "begin"
    ∧ (Sample.form "begin" []).m_tail = []
    ∧ Sample.env.is_exp (.symbol "begin") = false
    ∧ eval Sample.header 0 1 (Sample.form "begin" []) Sample.env
        = .error "Error during handle lookup: unknown symbol begin" Sample.env
    ∧ (∃ env', eval Sample.header 0 5 Sample.beginAsParameter Sample.env
        = .ok (Sample.num 5) env') :=
  ⟨rfl, rfl, rfl,
    (begin_empty_tail_is_lookup Sample.header Sample.env (Sample.form "begin" []) 0 rfl
      rfl).2.1 rfl,
    ⟨_, rfl⟩⟩

end Plotscript
namespace Plotscript

/-- C32 (the code differs): the graphics-item constructor copies `back` into the
tail and drops the atom `t`: the head of `Expression(t, back)` is the none
atom, whatever `t` is.  So no expression built by it ever evaluates to a
value: with children that evaluate, the evaluation applies the none atom and
fails with `procedure  is not a symbol`.  In an environment that provides
`make-point`, the expression `(make-point 0 0)` evaluates to a point, and
`Expression(Atom("make-point"), [0, 0])` fails. -/
theorem graphic_constructor_drops_head :
    (∀ (hd : Header) (t : Atom) (back : List Expression),
      (Expression.ofGraphic hd t back).m_head = .none
      ∧ (Expression.ofGraphic hd t back).m_tail = back)
    ∧ (∀ (hd : Header) (flag n : Nat) (t : Atom) (back : List Expression)
        (env : Environment) (v : Expression) (env' : Environment),
      eval hd flag n (Expression.ofGraphic hd t back) env ≠ .ok v env')
    ∧ (∀ (hd : Header) (n : Nat) (t : Atom) (b : Expression) (bs vs : List Expression)
        (env env1 : Environment),
      evalItems (eval hd 0 n) (b :: bs) env = .ok vs env1 →
      eval hd 0 (n + 1) (Expression.ofGraphic hd t (b :: bs)) env
        = .error notSymbolError env1)
    ∧ (Expression.ofGraphic Sample.header (Atom.ofText "make-point")
        [Sample.num 0, Sample.num 0]).m_head ≠ Atom.ofText "make-point"
    ∧ eval Sample.header 0 3
        (Expression.ofGraphic Sample.header (Atom.ofText "make-point")
          [Sample.num 0, Sample.num 0]) Sample.plotEnv
        = .error notSymbolError Sample.plotEnv
    ∧ eval Sample.header 0 3 (Sample.form "make-point" [Sample.num 0, Sample.num 0])
        Sample.plotEnv
        = .ok (.mk .none [Sample.num 0, Sample.num 0] .List
            [("\"object-name\"", Sample.str "\"point\""), ("\"size\"", Sample.num 0)])
          Sample.plotEnv := by
  refine ⟨fun _ _ _ => ⟨rfl, rfl⟩, fun hd flag n t back env v env' => ?_,
    fun hd n t b bs vs env env1 h => ?_, by decide, rfl, rfl⟩
  · exact eval_none_head_ne_ok hd flag n (Expression.ofGraphic hd t back) env rfl v env'
  · show evalStep hd 0 n (eval hd 0 n) (Expression.ofGraphic hd t (b :: bs)) env = _
    rw [evalStep_generic hd n _ _ env (by simp [Expression.ofGraphic, Expression.m_head,
      Atom.asSymbol, keywords]) (by simp [Expression.ofGraphic, Expression.m_tail])]
    have ht : (Expression.ofGraphic hd t (b :: bs)).m_tail = b :: bs := rfl
    have hh : (Expression.ofGraphic hd t (b :: bs)).m_head = .none := rfl
    rw [ht, hh, h]
    simp only [Outcome.bind, apply_none]

/-- C33 (the code differs): a `lambda` form with exactly one child reads
`m_tail[1]` of a one-element tail, an index out of range, whatever the child
and the environment are; with two or more children `eval` returns a
Lambda-kind expression, and with none it is the terminal lookup of the symbol
`lambda`. -/
theorem lambda_single_child_out_of_range :
    (∀ (hd : Header) (n : Nat) (env : Environment) (t0 : Expression) (k : ExpType)
        (props : List (String × Expression)),
      eval hd 0 (n + 1) (.mk (.symbol "lambda") [t0] k props) env = .crash)
    ∧ (∀ (hd : Header) (n : Nat) (env : Environment) (t0 t1 : Expression)
        (rest : List Expression) (k : ExpType) (props : List (String × Expression)),
      ∃ v, eval hd 0 (n + 1) (.mk (.symbol "lambda") (t0 :: t1 :: rest) k props) env
          = .ok v env ∧ v.isLambda = true)
    ∧ (∀ (hd : Header) (n : Nat) (env : Environment) (k : ExpType)
        (props : List (String × Expression)),
      eval hd 0 (n + 1) (.mk (.symbol "lambda") [] k props) env
        = handle_lookup (.symbol "lambda") env)
    ∧ eval Sample.header 0 5 (Sample.form "lambda" [Sample.form "x" []]) Sample.env
        = .crash := by
  refine ⟨fun hd n env t0 k props => ?_, fun hd n env t0 t1 rest k props => ?_,
    fun hd n env k props => ?_, rfl⟩
  · show evalStep hd 0 n (eval hd 0 n) _ env = _
    rw [evalStep_lambda hd n _ (.mk (.symbol "lambda") [t0] k props) env rfl
      (by simp [Expression.m_tail])]
    rfl
  · refine ⟨Expression.ofLambda (Expression.ofAtom t0.head :: t0.m_tail) t1, ?_, rfl⟩
    show evalStep hd 0 n (eval hd 0 n) _ env = _
    rw [evalStep_lambda hd n _ (.mk (.symbol "lambda") (t0 :: t1 :: rest) k props) env rfl
      (by simp [Expression.m_tail])]
    rfl
  · show evalStep hd 0 n (eval hd 0 n) _ env = _
    rw [evalStep_lookup hd n _ (.mk (.symbol "lambda") [] k props) env
      (by simp [Expression.m_head, Atom.asSymbol]) rfl]
    rfl

end Plotscript
namespace Plotscript

/-! ## The interrupt and the output queue -/

/-- One round of the consume loop is the pop of a line followed by the rest of
the round. -/
theorem Consumer.iteration_eq_finishRound (parse : Parser) (hd : Header) (flag fuel : Nat)
    (c : Consumer) (line : String) (q : TSmessage String)
    (h : c.iqueue.try_pop "" = (true, line, q)) :
    Consumer.iteration parse hd flag fuel c
      = Consumer.finishRound parse hd flag fuel line { c with iqueue := q } := by
  unfold Consumer.iteration Consumer.finishRound
  rw [h]

/-- The rest of a round for a line that is not empty pushes exactly one pair
onto the output queue when it ends, and leaves the input queue and the
running flag alone. -/
theorem Consumer.finishRound_pushes (parse : Parser) (hd : Header) (flag fuel : Nat)
    (line : String) (c c' : Consumer) (hline : line ≠ "")
    (h : Consumer.finishRound parse hd flag fuel line c = some c') :
    ∃ out : output_type, c'.oqueue = c.oqueue.push out ∧ c'.iqueue = c.iqueue
      ∧ c'.running = c.running := by
  unfold Consumer.finishRound at h
  rw [if_neg hline] at h
  cases hp : c.cInterp.parseStream parse line with
  | mk ok i =>
    rw [hp] at h
    cases ok with
    | false =>
      simp only [Option.some.injEq] at h
      rw [← h]
      exact ⟨_, rfl, rfl, rfl⟩
    | true =>
      dsimp only at h
      cases he : i.evaluate hd flag fuel with
      | ok result env =>
        rw [he] at h
        simp only [Option.some.injEq] at h
        rw [← h]
        exact ⟨_, rfl, rfl, rfl⟩
      | error what env =>
        rw [he] at h
        simp only [Option.some.injEq] at h
        rw [← h]
        exact ⟨_, rfl, rfl, rfl⟩
      | crash => rw [he] at h; cases h
      | timeout => rw [he] at h; cases h

theorem Consumer.startThread_oqueue (c : Consumer) :
    (Consumer.startThread c).oqueue = c.oqueue := by
  unfold Consumer.startThread
  split_ifs <;> rfl

theorem Consumer.resetThread_oqueue (w : Consumer → Consumer) (i : Interpreter)
    (c : Consumer) (h : c.running = true) :
    (Consumer.resetThread w i c).oqueue
      = (w { c with running := false, iqueue := c.iqueue.push "" }).oqueue := by
  unfold Consumer.resetThread
  rw [Consumer.startThread_oqueue]
  simp only [h, if_true]
  unfold Consumer.stopThread
  simp only [h, if_true]

/-- C34 (the code differs): the REPL waits on the empty output queue for a line
the worker has taken, and handles an interrupt; the worker, before
`cThread.join()` returns, ends its round by pushing the pair `out` of that
line.  Then at the next submit the output queue is not empty: it holds `out`,
the flag is zero again, and what the REPL takes from the queue and prints for
the next line is `out`, the pair of the interrupted line, also when the
restarted worker has already pushed the pair of the next line behind it. -/
theorem interrupt_leaves_stale_output (w : Consumer → Consumer) (out : output_type)
    (r : Repl) (next : String) (hrun : r.c1.running = true)
    (hout : r.c1.oqueue.the_queue = [])
    (hw : ∀ c : Consumer, (w c).oqueue = c.oqueue.push out) :
    (Repl.submit (Repl.loopHead (Repl.interrupted w r)) next).c1.oqueue.the_queue = [out]
    ∧ (Repl.submit (Repl.loopHead (Repl.interrupted w r)) next).c1.oqueue.empty = false
    ∧ (Repl.submit (Repl.loopHead (Repl.interrupted w r)) next).global_status_flag = 0
    ∧ (Repl.collect (Repl.submit (Repl.loopHead (Repl.interrupted w r)) next)).1 = some out
    ∧ (∀ later : output_type,
        (Repl.collect (Repl.worker (fun c => { c with oqueue := c.oqueue.push later })
          (Repl.submit (Repl.loopHead (Repl.interrupted w r)) next))).1 = some out) := by
  have hq : (Repl.submit (Repl.loopHead (Repl.interrupted w r)) next).c1.oqueue
      = ⟨[out]⟩ := by
    show (Repl.interrupted w r).c1.oqueue = _
    unfold Repl.interrupted
    dsimp only
    rw [Consumer.resetThread_oqueue w r.copy _ (by split_ifs <;> exact hrun), hw]
    have : r.c1.oqueue = ⟨[]⟩ := by
      cases hq0 : r.c1.oqueue with
      | mk l => rw [hq0] at hout; exact congrArg TSmessage.mk hout
    split_ifs <;> simp [this, TSmessage.push]
  have hc : ∀ x : Repl, x.global_status_flag = 0 → ∀ rest : List output_type,
      x.c1.oqueue = ⟨out :: rest⟩ → (Repl.collect x).1 = some out := by
    intro x hx rest hxq
    unfold Repl.collect
    rw [if_pos hx]
    simp [hxq, TSmessage.try_pop]
  refine ⟨by rw [hq], by rw [hq]; rfl, rfl, hc _ rfl [] hq, fun later => ?_⟩
  refine hc _ rfl [later] ?_
  show TSmessage.push _ later = _
  rw [hq]
  rfl

/-- Witness of C34: the line `(f 2)` is in flight when the signal arrives; the
worker ends its round with the interrupted-error pair; the REPL handles the
interrupt and submits `(define a 1)`.  The output queue then holds the pair of
`(f 2)`, and after the worker has evaluated `(define a 1)` the REPL prints the
pair of `(f 2)` for it and leaves the pair of `(define a 1)` in the queue. -/
theorem interrupt_leaves_stale_output_witness :
    Sample.inFlight = some Sample.flagged
    ∧ Sample.flagged.c1.running = true
    ∧ Sample.flagged.c1.iqueue.the_queue = []
    ∧ Sample.flagged.c1.oqueue.the_queue = []
    ∧ (∀ c : Consumer, (Sample.finish c).oqueue = c.oqueue.push Sample.interruptedPair)
    ∧ Sample.nextSubmitted
        = some (Repl.submit (Repl.loopHead (Repl.interrupted Sample.finish Sample.flagged))
            "(define a 1)")
    ∧ (Repl.submit (Repl.loopHead (Repl.interrupted Sample.finish Sample.flagged))
        "(define a 1)").c1.oqueue.the_queue = [Sample.interruptedPair]
    ∧ (Repl.submit (Repl.loopHead (Repl.interrupted Sample.finish Sample.flagged))
        "(define a 1)").c1.iqueue.the_queue = ["(define a 1)"]
    ∧ (Repl.collect (Repl.worker Sample.oneRound
        (Repl.submit (Repl.loopHead (Repl.interrupted Sample.finish Sample.flagged))
          "(define a 1)"))).1 = some Sample.interruptedPair
    ∧ (Repl.collect (Repl.worker Sample.oneRound
        (Repl.submit (Repl.loopHead (Repl.interrupted Sample.finish Sample.flagged))
          "(define a 1)"))).2.c1.oqueue.the_queue = [(Sample.num 1, "")] :=
  ⟨rfl, rfl, rfl, rfl, fun _ => rfl, rfl,
    (interrupt_leaves_stale_output Sample.finish Sample.interruptedPair Sample.flagged
      "(define a 1)" rfl rfl (fun _ => rfl)).1,
    rfl, rfl, rfl⟩

end Plotscript
